import Mathlib

/-!
# TC resolver (`pkg/security/resolvers/tc/resolver.go`)

A shallow embedding of the resolver that owns the map from `ProgramKey` to the
cloned TC probe attached on a network device, and of its operations
(`SetupNewTCClassifierWithNetNSHandle`, `FlushNetworkNamespaceID`,
`FlushInactiveProbes`, `ResolveNetworkDeviceIfName`, `SelectTCProbes`,
`SendTCProgramsStats`).

Conventions of the embedding:

* The Go map `map[ProgramKey]*manager.Probe` is an association list; the order
  of the list is the order in which a `range` statement visits the entries, so
  a statement quantified over every list covers every iteration order.
* The eBPF manager and the kernel behind it form a deterministic state
  machine over an arbitrary world type `W`: every call takes the current world
  and returns the next one with its result.
* Every call that leaves the resolver is appended to a log of `Event`s, so
  that statements about which calls were made, with which arguments and in
  which order, are statements about that log.
* `uint16`, `uint32`, `uint64` and `int` values are natural numbers; the
  resolver only compares and copies them, except for `netlink.MakeHandle`
  (masked explicitly) and the per-namespace counter, which is bounded by the
  number of map entries.
-/

namespace TC

/-! ## Data model -/

/-- The fields of `model.NetDevice` read by the resolver. -/
structure NetDevice where
  Name : String
  NetNS : Nat
  IfIndex : Nat
deriving DecidableEq, Repr

/-- The integer type `manager.TrafficType` (ingress or egress handle). -/
abbrev TrafficType := Nat

/-- ProgramKey is used to uniquely identify a tc program. -/
structure ProgramKey where
  UID : String
  FuncName : String
  NetDevice : NetDevice
  NetworkDirection : TrafficType
deriving DecidableEq, Repr

/-- The pair `manager.ProbeIdentificationPair`. -/
structure ProbeIdentificationPair where
  UID : String
  EBPFFuncName : String
deriving DecidableEq, Repr

/-- The fields of `manager.Probe` read or written by the resolver. The
identification pair is an embedded struct in Go, so `p.UID` there is
`p.ProbeIdentificationPair.UID` here. -/
structure Probe where
  ProbeIdentificationPair : ProbeIdentificationPair
  CopyProgram : Bool
  KeepProgramSpec : Bool
  IfIndex : Nat
  IfIndexNetns : Nat
  IfIndexNetnsID : Nat
  NetworkDirection : TrafficType
  TCFilterPrio : Nat
  TCFilterHandle : Nat
deriving DecidableEq, Repr

/-- The struct `manager.ConstantEditor` with the two fields the resolver sets. -/
structure ConstantEditor where
  Name : String
  Value : Nat
deriving DecidableEq, Repr

/-- A Go `error` returned by the manager. The only thing the resolver asks of
an error is whether `errors.As` finds a `netlink.LinkNotFoundError` in it. -/
inductive GoError where
  | linkNotFound (msg : String)
  | other (msg : String)
deriving DecidableEq, Repr

/-- The test `errors.As(err, &netlink.LinkNotFoundError{})`. -/
def GoError.asLinkNotFound : GoError → Bool
  | .linkNotFound _ => true
  | .other _ => false

/-- The attributes of a `netlink.Link` read by the resolver; `HardwareAddr` is
the byte slice `net.HardwareAddr`. -/
structure LinkAttrs where
  Name : String
  HardwareAddr : List Nat
deriving DecidableEq, Repr

/-- A non-nil `netlink.Link`. -/
structure Link where
  Attrs : LinkAttrs
deriving DecidableEq, Repr

/-- What `Probe.ResolveLink` returns: `(link, nil)` or `(nil, err)`. -/
inductive ResolveResult where
  | ok (link : Link)
  | error (err : GoError)
deriving DecidableEq, Repr

/-- The fields of `config.Config` read by the resolver. -/
structure Config where
  NetworkIngressEnabled : Bool
  NetworkRawPacketEnabled : Bool
  NetworkClassifierPriority : Nat
  NetworkClassifierHandle : Nat
  RawNetworkClassifierHandle : Nat
deriving DecidableEq, Repr

/-- Declarations of the repository that the resolver reads and that live in
other packages: the probe catalog `probes.GetTCProbes`, the list
`probes.RawPacketTCProgram`, the constant `probes.SecurityAgentUID` and the
method `model.NetDevice.GetKey`. -/
structure Externals where
  GetTCProbes : Bool → Bool → List Probe
  RawPacketTCProgram : List String
  SecurityAgentUID : String
  GetKey : NetDevice → String

/-- The manager and the probes it owns, over a world `W`. -/
structure Driver (W : Type) where
  CloneProgram : W → String → Probe → List ConstantEditor → W × Option GoError
  DetachHook : W → ProbeIdentificationPair → W × Option GoError
  IsRunning : W → Probe → W × Bool
  IsTCFilterActive : W → Probe → W × Bool
  ResolveLink : W → Probe → W × ResolveResult
  ID : W → Probe → Nat

/-- One observable step of the resolver. The `key` of a call on a probe names
the map entry (or the entry to be) that the probe pointer belongs to. -/
inductive Event where
  | skip (key : ProgramKey)
  | clone (key : ProgramKey) (uid : String) (probe : Probe)
      (editors : List ConstantEditor) (res : Option GoError)
  | addProgramNameMapping (id : Nat) (name : String) (module : String)
  | removeProgramID (id : Nat) (module : String)
  | detachHook (key : ProgramKey) (pair : ProbeIdentificationPair) (res : Option GoError)
  | isTCFilterActive (key : ProgramKey) (probe : Probe) (res : Bool)
  | resolveLink (key : ProgramKey) (probe : Probe) (res : ResolveResult)
  | isLazy (name : String) (res : Bool)
  | isRunning (key : ProgramKey) (probe : Probe) (res : Bool)
deriving DecidableEq, Repr

/-! ## The program map -/

/-- The Go map `map[ProgramKey]*manager.Probe`, in iteration order. -/
abbrev ProgramMap := List (ProgramKey × Probe)

/-- The keys of the map, in iteration order. -/
def ProgramMap.keys (m : ProgramMap) : List ProgramKey := m.map Prod.fst

/-- A Go map holds at most one entry per key. -/
def ProgramMap.WF (m : ProgramMap) : Prop := m.keys.Nodup

instance (m : ProgramMap) : Decidable m.WF := by
  unfold ProgramMap.WF; infer_instance

/-- The lookup `v, ok := m[k]`. -/
def ProgramMap.get? : ProgramMap → ProgramKey → Option Probe
  | [], _ => none
  | (k, v) :: rest, key => if k = key then some v else ProgramMap.get? rest key

/-- The assignment `m[k] = v`: replaces the value of an existing key, adds the
entry otherwise. -/
def ProgramMap.set : ProgramMap → ProgramKey → Probe → ProgramMap
  | [], key, v => [(key, v)]
  | (k, p) :: rest, key, v =>
    if k = key then (k, v) :: rest else (k, p) :: ProgramMap.set rest key v

/-- The statement `delete(m, k)`. -/
def ProgramMap.delete (m : ProgramMap) (key : ProgramKey) : ProgramMap :=
  m.filter (fun e => decide (e.1 ≠ key))

/-- Key return an identifier. -/
def ProgramKey.Key (ext : Externals) (t : ProgramKey) : String :=
  t.UID ++ "_" ++ t.FuncName ++ "_" ++ ext.GetKey t.NetDevice

/-- Resolver defines a TC resolver (the lock is not part of the state). -/
structure Resolver where
  config : Config
  programs : ProgramMap
deriving DecidableEq, Repr

/-- NewResolver returns a TC resolver. -/
def NewResolver (config : Config) : Resolver :=
  { config := config, programs := [] }

/-! ## Setup: `SetupNewTCClassifierWithNetNSHandle` -/

/-- The wrapped error `fmt.Errorf("couldn't clone %s: %v", pair, err)`. -/
structure CloneFailure where
  pair : ProbeIdentificationPair
  cause : GoError
deriving DecidableEq, Repr

/-- The `error` that setup returns when it is not nil: either the error of
`CloneProgram` itself (`return err`) or the `*multierror.Error` holding the
collected errors. -/
inductive SetupError where
  | direct (err : GoError)
  | combined (errs : List CloneFailure)
deriving DecidableEq, Repr

/-- The method `(*multierror.Error).ErrorOrNil`. -/
def ErrorOrNil (errs : List CloneFailure) : Option SetupError :=
  if errs.isEmpty then none else some (SetupError.combined errs)

/-- The function `netlink.MakeHandle(major, minor uint16) uint32`, computing
`(uint32(major) << 16) | uint32(minor)`. -/
def MakeHandle (major minor : Nat) : Nat :=
  (major % 65536) * 65536 + minor % 65536

/-- The key built at the top of the loop body of setup. -/
def progKeyOf (device : NetDevice) (tcProbe : Probe) : ProgramKey :=
  { UID := tcProbe.ProbeIdentificationPair.UID
    FuncName := tcProbe.ProbeIdentificationPair.EBPFFuncName
    NetDevice := device
    NetworkDirection := tcProbe.NetworkDirection }

/-- The probe `newProbe` handed to `CloneProgram`: a copy of the template with
the fields assigned in the loop body of setup. -/
def newProbeOf (ext : Externals) (cfg : Config) (device : NetDevice) (netnsFd : Nat)
    (tcProbe : Probe) : Probe :=
  { tcProbe with
    ProbeIdentificationPair :=
      { UID := (progKeyOf device tcProbe).Key ext
        EBPFFuncName := tcProbe.ProbeIdentificationPair.EBPFFuncName }
    CopyProgram := true
    IfIndex := device.IfIndex
    IfIndexNetns := netnsFd
    IfIndexNetnsID := device.NetNS
    KeepProgramSpec := false
    TCFilterPrio := cfg.NetworkClassifierPriority
    TCFilterHandle :=
      if tcProbe.ProbeIdentificationPair.EBPFFuncName ∈ ext.RawPacketTCProgram then
        MakeHandle 0 cfg.RawNetworkClassifierHandle
      else
        MakeHandle 0 cfg.NetworkClassifierHandle }

/-- The slice `netnsEditor` of setup. -/
def netnsEditorOf (device : NetDevice) : List ConstantEditor :=
  [{ Name := "netns", Value := device.NetNS }]

/-- The variables that the loop of setup updates. -/
structure SetupState (W : Type) where
  programs : ProgramMap
  world : W
  combinedErr : List CloneFailure

/-- The outcome of running (part of) the loop of setup: the variables, the
events emitted, and `some err` when the loop left through `return err`. -/
structure SetupRun (W : Type) where
  state : SetupState W
  log : List Event
  ret : Option GoError

/-- One iteration of the loop of setup, for the template `tcProbe`. -/
def setupStep {W : Type} (ext : Externals) (d : Driver W) (cfg : Config) (device : NetDevice)
    (netnsFd : Nat) (st : SetupState W) (tcProbe : Probe) : SetupRun W :=
  let progKey := progKeyOf device tcProbe
  match st.programs.get? progKey with
  | some _ => { state := st, log := [Event.skip progKey], ret := none }
  | none =>
    let newProbe := newProbeOf ext cfg device netnsFd tcProbe
    let netnsEditor := netnsEditorOf device
    match d.CloneProgram st.world ext.SecurityAgentUID newProbe netnsEditor with
    | (w, some err) =>
      let ev := Event.clone progKey ext.SecurityAgentUID newProbe netnsEditor (some err)
      if err.asLinkNotFound then
        { state := { st with world := w }, log := [ev], ret := some err }
      else
        { state := { st with
            world := w
            combinedErr := st.combinedErr ++ [⟨tcProbe.ProbeIdentificationPair, err⟩] }
          log := [ev], ret := none }
    | (w, none) =>
      { state := { st with programs := st.programs.set progKey newProbe, world := w }
        log := [Event.clone progKey ext.SecurityAgentUID newProbe netnsEditor none,
                Event.addProgramNameMapping (d.ID w newProbe)
                  newProbe.ProbeIdentificationPair.EBPFFuncName "cws"]
        ret := none }

/-- The loop of setup over the templates still to visit. -/
def setupLoop {W : Type} (ext : Externals) (d : Driver W) (cfg : Config) (device : NetDevice)
    (netnsFd : Nat) : List Probe → SetupState W → SetupRun W
  | [], st => { state := st, log := [], ret := none }
  | tcProbe :: rest, st =>
    let r := setupStep ext d cfg device netnsFd st tcProbe
    match r.ret with
    | some err => { state := r.state, log := r.log, ret := some err }
    | none =>
      let r2 := setupLoop ext d cfg device netnsFd rest r.state
      { state := r2.state, log := r.log ++ r2.log, ret := r2.ret }

/-- What a call to setup leaves behind: the resolver, the world, the events
and the returned `error` (`none` is nil). -/
structure SetupResult (W : Type) where
  tcr : Resolver
  world : W
  log : List Event
  err : Option SetupError

/-- SetupNewTCClassifierWithNetNSHandle creates and attaches TC probes on the
provided device. `netnsFd` is the value of `netnsHandle.Fd()`. -/
def SetupNewTCClassifierWithNetNSHandle {W : Type} (ext : Externals) (d : Driver W)
    (tcr : Resolver) (device : NetDevice) (netnsFd : Nat) (w : W) : SetupResult W :=
  let run := setupLoop ext d tcr.config device netnsFd
    (ext.GetTCProbes tcr.config.NetworkIngressEnabled tcr.config.NetworkRawPacketEnabled)
    { programs := tcr.programs, world := w, combinedErr := [] }
  { tcr := { tcr with programs := run.state.programs }
    world := run.state.world
    log := run.log
    err := match run.ret with
      | some err => some (SetupError.direct err)
      | none => ErrorOrNil run.state.combinedErr }

/-! ## Namespace flush: `FlushNetworkNamespaceID` -/

/-- The variables that the loops of flush and sweep update. -/
structure FlushState (W : Type) where
  programs : ProgramMap
  world : W

/-- What a call to flush leaves behind. The Go function has no result. -/
structure FlushResult (W : Type) where
  tcr : Resolver
  world : W
  log : List Event

/-- The loop of flush over the entries still to visit. -/
def flushLoop {W : Type} (d : Driver W) (namespaceID : Nat) :
    List (ProgramKey × Probe) → FlushState W → FlushState W × List Event
  | [], st => (st, [])
  | (tcKey, tcProbe) :: rest, st =>
    if tcKey.NetDevice.NetNS = namespaceID then
      let id := d.ID st.world tcProbe
      let r := d.DetachHook st.world tcProbe.ProbeIdentificationPair
      let out := flushLoop d namespaceID rest
        { programs := st.programs.delete tcKey, world := r.1 }
      (out.1, Event.removeProgramID id "cws"
        :: Event.detachHook tcKey tcProbe.ProbeIdentificationPair r.2 :: out.2)
    else
      flushLoop d namespaceID rest st

/-- FlushNetworkNamespaceID flushes network ID. -/
def FlushNetworkNamespaceID {W : Type} (d : Driver W) (tcr : Resolver) (namespaceID : Nat)
    (w : W) : FlushResult W :=
  let out := flushLoop d namespaceID tcr.programs { programs := tcr.programs, world := w }
  { tcr := { tcr with programs := out.1.programs }, world := out.1.world, log := out.2 }

/-! ## Staleness sweep: `FlushInactiveProbes` -/

/-- The Go map `map[uint32]int`, in insertion order. -/
abbrev CountMap := List (Nat × Nat)

/-- The read `m[k]`, which is 0 for an absent key. -/
def CountMap.get : CountMap → Nat → Nat
  | [], _ => 0
  | (k, v) :: rest, key => if k = key then v else CountMap.get rest key

/-- The statement `m[k]++`. -/
def CountMap.incr : CountMap → Nat → CountMap
  | [], key => [(key, 1)]
  | (k, v) :: rest, key =>
    if k = key then (k, v + 1) :: rest else (k, v) :: CountMap.incr rest key

/-- The two hexadecimal digits of a byte. -/
def hexByte (b : Nat) : List Char :=
  let digit := fun (n : Nat) => if n < 10 then Char.ofNat (48 + n) else Char.ofNat (87 + n)
  [digit (b % 256 / 16), digit (b % 16)]

/-- The method `net.HardwareAddr.String`: the empty string for an empty
address, the bytes in hexadecimal separated by colons otherwise. -/
def HardwareAddrString : List Nat → String
  | [] => ""
  | b :: rest => String.mk (hexByte b ++ rest.flatMap (fun c => ':' :: hexByte c))

/-- What a call to the sweep leaves behind; `ret = none` when the call
panicked on a nil link instead of returning. -/
structure SweepResult (W : Type) where
  tcr : Resolver
  world : W
  log : List Event
  ret : Option CountMap

/-- The outcome of running (part of) the loop of the sweep; `counts = none`
when the loop panicked on a nil link. -/
structure SweepRun (W : Type) where
  state : FlushState W
  log : List Event
  counts : Option CountMap

/-- The loop of the sweep over the entries still to visit. -/
def sweepLoop {W : Type} (d : Driver W) (isLazy : String → Bool) :
    List (ProgramKey × Probe) → FlushState W → CountMap → SweepRun W
  | [], st, counts => { state := st, log := [], counts := some counts }
  | (tcKey, tcProbe) :: rest, st, counts =>
    let a := d.IsTCFilterActive st.world tcProbe
    if !a.2 then
      let id := d.ID a.1 tcProbe
      let r := d.DetachHook a.1 tcProbe.ProbeIdentificationPair
      let out := sweepLoop d isLazy rest
        { programs := st.programs.delete tcKey, world := r.1 } counts
      { out with log := Event.isTCFilterActive tcKey tcProbe false
          :: Event.removeProgramID id "cws"
          :: Event.detachHook tcKey tcProbe.ProbeIdentificationPair r.2 :: out.log }
    else
      let l := d.ResolveLink a.1 tcProbe
      let evs := [Event.isTCFilterActive tcKey tcProbe true, Event.resolveLink tcKey tcProbe l.2]
      match l.2 with
      | ResolveResult.error _ =>
        -- linkName = "", then link.Attrs() on the nil link panics
        { state := { st with world := l.1 }, log := evs, counts := none }
      | ResolveResult.ok link =>
        let linkName := link.Attrs.Name
        if HardwareAddrString link.Attrs.HardwareAddr ≠ "" then
          let lazy := isLazy linkName
          let out := sweepLoop d isLazy rest { st with world := l.1 }
            (if !lazy then counts.incr tcKey.NetDevice.NetNS else counts)
          { out with log := evs ++ Event.isLazy linkName lazy :: out.log }
        else
          let out := sweepLoop d isLazy rest { st with world := l.1 } counts
          { out with log := evs ++ out.log }

/-- FlushInactiveProbes detaches and deletes inactive probes. This function
returns a map containing the count of interfaces per network namespace
(ignoring the interfaces that are lazily deleted). -/
def FlushInactiveProbes {W : Type} (d : Driver W) (isLazy : String → Bool) (tcr : Resolver)
    (w : W) : SweepResult W :=
  let run := sweepLoop d isLazy tcr.programs { programs := tcr.programs, world := w } []
  { tcr := { tcr with programs := run.state.programs }
    world := run.state.world
    log := run.log
    ret := run.counts }

/-! ## Point query: `ResolveNetworkDeviceIfName` -/

/-- The loop of the name lookup over the entries still to visit. -/
def resolveLoop (ifIndex netNS : Nat) : List (ProgramKey × Probe) → String × Bool
  | [] => ("", false)
  | (key, _) :: rest =>
    if key.NetDevice.IfIndex = ifIndex ∧ key.NetDevice.NetNS = netNS then
      (key.NetDevice.Name, true)
    else
      resolveLoop ifIndex netNS rest

/-- ResolveNetworkDeviceIfName resolves network device name. -/
def ResolveNetworkDeviceIfName (tcr : Resolver) (ifIndex netNS : Nat) : String × Bool :=
  resolveLoop ifIndex netNS tcr.programs

/-! ## Selection: `SelectTCProbes` -/

/-- The struct `manager.ProbeSelector`. -/
structure ProbeSelector where
  ProbeIdentificationPair : ProbeIdentificationPair
deriving DecidableEq, Repr

/-- The struct `manager.BestEffort`, a selector made of selectors. -/
structure BestEffort where
  Selectors : List ProbeSelector
deriving DecidableEq, Repr

/-- What a call to the selection leaves behind: the resolver, the world, the
events and the returned selector. -/
structure SelectResult (W : Type) where
  tcr : Resolver
  world : W
  log : List Event
  ret : BestEffort

/-- The loop of the selection over the entries still to visit; `acc` is
`activatedProbes.Selectors`. -/
def selectLoop {W : Type} (d : Driver W) :
    List (ProgramKey × Probe) → W → List ProbeSelector → List ProbeSelector × W × List Event
  | [], w, acc => (acc, w, [])
  | (key, tcProbe) :: rest, w, acc =>
    let r := d.IsRunning w tcProbe
    let out := selectLoop d rest r.1
      (if r.2 then acc ++ [{ ProbeIdentificationPair := tcProbe.ProbeIdentificationPair }]
        else acc)
    (out.1, out.2.1, Event.isRunning key tcProbe r.2 :: out.2.2)

/-- SelectTCProbes selects TC probes. -/
def SelectTCProbes {W : Type} (d : Driver W) (tcr : Resolver) (w : W) : SelectResult W :=
  let out := selectLoop d tcr.programs w []
  { tcr := tcr, world := out.2.1, log := out.2.2, ret := { Selectors := out.1 } }

/-! ## Stats: `SendTCProgramsStats` -/

/-- One call `statsdClient.Gauge(name, value, tags, rate)`. The value is the
`float64` of a map length, kept as the natural number it converts; the rate
`1.0` is kept as `1`. -/
structure GaugeCall where
  name : String
  value : Nat
  tags : List String
  rate : Nat
deriving DecidableEq, Repr

/-- What a call to the stats leaves behind: the resolver and the calls made on
the statsd client, whose answers are discarded. -/
structure StatsResult where
  tcr : Resolver
  gauges : List GaugeCall
deriving DecidableEq, Repr

/-- SendTCProgramsStats sends TC programs stats. `MetricTCProgram` is the
constant `metrics.MetricTCProgram`. -/
def SendTCProgramsStats (MetricTCProgram : String) (tcr : Resolver) : StatsResult :=
  let val := tcr.programs.length
  if val > 0 then
    { tcr := tcr, gauges := [{ name := MetricTCProgram, value := val, tags := [], rate := 1 }] }
  else
    { tcr := tcr, gauges := [] }

/-! ## Reading the log -/

/-- The entry and answer of a call to `IsRunning`. -/
def Event.runningReport : Event → Option ((ProgramKey × Probe) × Bool)
  | .isRunning key probe res => some ((key, probe), res)
  | _ => none

/-- The answers of `IsRunning`, in order. -/
def runningReports (log : List Event) : List ((ProgramKey × Probe) × Bool) :=
  log.filterMap Event.runningReport

/-- Whether an event is the successful call to `CloneProgram` that created the
entry `e`. -/
def Event.createdEntry (e : ProgramKey × Probe) : Event → Bool
  | .clone key _ probe _ none => decide (key = e.1) && decide (probe = e.2)
  | _ => false

/-- Whether an event is a successful call to `CloneProgram` for the key
`key`. -/
def Event.isClonedKey (key : ProgramKey) : Event → Bool
  | .clone k _ _ _ none => decide (k = key)
  | _ => false

/-- Whether an event is a failed call to `CloneProgram` for the key `key`. -/
def Event.isFailedKey (key : ProgramKey) : Event → Bool
  | .clone k _ _ _ (some _) => decide (k = key)
  | _ => false


/-- Whether an event is a call to `CloneProgram`. -/
def Event.isClone : Event → Bool
  | .clone _ _ _ _ _ => true
  | _ => false

/-- Whether an event is a call to `CloneProgram` that returned an error. -/
def Event.isFailedClone : Event → Bool
  | .clone _ _ _ _ (some _) => true
  | _ => false

/-- Whether an event is a call to `CloneProgram` that returned a
link-not-found error. -/
def Event.isFatalClone : Event → Bool
  | .clone _ _ _ _ (some err) => err.asLinkNotFound
  | _ => false

/-- The key of the template an event of setup handled, when the event is the
skip of a template or the attempt to clone it. -/
def Event.processedKey : Event → Option ProgramKey
  | .skip key => some key
  | .clone key _ _ _ _ => some key
  | _ => none

/-- The keys of the templates that setup handled, in order. -/
def processedKeys (log : List Event) : List ProgramKey :=
  log.filterMap Event.processedKey

/-- The wrapped error that setup collects for a failed call to `CloneProgram`:
the identification pair of the template and the cause. -/
def Event.cloneFailure : Event → Option CloneFailure
  | .clone key _ _ _ (some err) => some ⟨⟨key.UID, key.FuncName⟩, err⟩
  | _ => none

/-- The wrapped errors of the failed calls to `CloneProgram`, in order. -/
def cloneFailures (log : List Event) : List CloneFailure :=
  log.filterMap Event.cloneFailure

/-- The entry and identification pair of a call to `DetachHook`. -/
def Event.detachCall : Event → Option (ProgramKey × ProbeIdentificationPair)
  | .detachHook key pair _ => some (key, pair)
  | _ => none

/-- The calls to `DetachHook`, in order. -/
def detachCalls (log : List Event) : List (ProgramKey × ProbeIdentificationPair) :=
  log.filterMap Event.detachCall

/-- The entry and answer of a call to `IsTCFilterActive`. -/
def Event.activeReport : Event → Option ((ProgramKey × Probe) × Bool)
  | .isTCFilterActive key probe res => some ((key, probe), res)
  | _ => none

/-- The answers of `IsTCFilterActive`, in order. -/
def activeReports (log : List Event) : List ((ProgramKey × Probe) × Bool) :=
  log.filterMap Event.activeReport

/-- Whether an event is the successful resolution of the link of the entry
`e` to a link with a non-empty hardware address and a name that `isLazy` does
not flag. -/
def Event.resolvesLive (isLazy : String → Bool) (e : ProgramKey × Probe) : Event → Bool
  | .resolveLink key probe (.ok link) =>
    decide (key = e.1) && decide (probe = e.2)
      && decide (link.Attrs.HardwareAddr ≠ []) && !isLazy link.Attrs.Name
  | _ => false

/-- Whether, according to the log, the entry `e` was reported active and its
link resolved to one with a non-empty hardware address and a name that
`isLazy` does not flag. -/
def countsAsLive (isLazy : String → Bool) (log : List Event) (e : ProgramKey × Probe) : Bool :=
  decide (Event.isTCFilterActive e.1 e.2 true ∈ log) && log.any (Event.resolvesLive isLazy e)

/-! ## Example data

A catalog shaped like `probes.GetTCProbes`, a device, and drivers over a world
that counts the calls made so far. -/

/-- An example template for the function `name` in the direction `dir`. -/
def exTemplate (name : String) (dir : TrafficType) : Probe :=
  { ProbeIdentificationPair := { UID := "security", EBPFFuncName := name }
    CopyProgram := false
    KeepProgramSpec := true
    IfIndex := 0
    IfIndexNetns := 0
    IfIndexNetnsID := 0
    NetworkDirection := dir
    TCFilterPrio := 0
    TCFilterHandle := 0 }

/-- An example of the declarations that live outside the resolver. -/
def exExt : Externals :=
  { GetTCProbes := fun withNetworkIngress withRawPacket =>
      [exTemplate "classifier_egress" 65523]
        ++ (if withRawPacket then [exTemplate "classifier_raw_packet_egress" 65523] else [])
        ++ (if withNetworkIngress then [exTemplate "classifier_ingress" 65522] else [])
    RawPacketTCProgram := ["classifier_raw_packet_egress", "classifier_raw_packet_ingress"]
    SecurityAgentUID := "security"
    GetKey := fun dev => toString dev.IfIndex ++ "_" ++ toString dev.NetNS }

/-- An example configuration with every feature enabled. -/
def exConfig : Config :=
  { NetworkIngressEnabled := true
    NetworkRawPacketEnabled := true
    NetworkClassifierPriority := 10
    NetworkClassifierHandle := 51966
    RawNetworkClassifierHandle := 51967 }

/-- An example device. -/
def exDevice : NetDevice := { Name := "eth0", NetNS := 100, IfIndex := 7 }

/-- An example driver: `cloneRes` decides the outcome of `CloneProgram` from
the function name, `active` the answer of `IsTCFilterActive` and `IsRunning`
and `link` the result of `ResolveLink`; `DetachHook` fails for odd worlds;
every call that reaches the kernel advances the world by one. -/
def exDriver (cloneRes : String → Option GoError) (active : Probe → Bool)
    (link : Probe → ResolveResult) : Driver Nat :=
  { CloneProgram := fun w _ p _ => (w + 1, cloneRes p.ProbeIdentificationPair.EBPFFuncName)
    DetachHook := fun w _ => (w + 1, if w % 2 = 1 then some (GoError.other "detach") else none)
    IsRunning := fun w p => (w, active p)
    IsTCFilterActive := fun w p => (w + 1, active p)
    ResolveLink := fun w p => (w + 1, link p)
    ID := fun w _ => w }

/-- A driver whose calls all succeed. -/
def exDriverOk : Driver Nat :=
  exDriver (fun _ => none) (fun _ => true)
    (fun _ => ResolveResult.ok ⟨⟨"eth0", [2, 66, 172, 17, 0, 2]⟩⟩)

/-- A driver whose `CloneProgram` fails with a recoverable error for the first
template of the example catalog and with a link-not-found error for the
second. -/
def exDriverFatal : Driver Nat :=
  exDriver
    (fun name =>
      if name = "classifier_egress" then some (GoError.other "device or resource busy")
      else if name = "classifier_raw_packet_egress" then some (GoError.linkNotFound "Link not found")
      else none)
    (fun _ => true)
    (fun _ => ResolveResult.ok ⟨⟨"eth0", [2, 66, 172, 17, 0, 2]⟩⟩)

/-- A driver whose `CloneProgram` fails with a recoverable error for the second
template of the example catalog only. -/
def exDriverRecoverable : Driver Nat :=
  exDriver
    (fun name =>
      if name = "classifier_raw_packet_egress" then some (GoError.other "file exists")
      else none)
    (fun _ => true)
    (fun _ => ResolveResult.ok ⟨⟨"eth0", [2, 66, 172, 17, 0, 2]⟩⟩)

/-- The empty resolver with the example configuration. -/
def exResolver : Resolver := NewResolver exConfig

/-- A second example device, in another namespace. -/
def exDevice2 : NetDevice := { Name := "veth1", NetNS := 200, IfIndex := 9 }

/-- The resolver after a successful setup of the egress and ingress
classifiers (raw packet disabled) on the one device `exDevice`. -/
def exResolverOneDevice : Resolver :=
  (SetupNewTCClassifierWithNetNSHandle exExt exDriverOk
    (NewResolver { exConfig with NetworkRawPacketEnabled := false }) exDevice 3 0).tcr

/-- The resolver after a successful setup of the whole example catalog on
`exDevice` and then on `exDevice2`. -/
def exResolverTwoDevices : Resolver :=
  (SetupNewTCClassifierWithNetNSHandle exExt exDriverOk
    (SetupNewTCClassifierWithNetNSHandle exExt exDriverOk exResolver exDevice 3 0).tcr
    exDevice2 4 3).tcr

/-- A driver for which the ingress classifiers are no longer active, and the
links of the namespace 200 are named `veth1`. -/
def exDriverStale : Driver Nat :=
  exDriver (fun _ => none)
    (fun p => decide (p.ProbeIdentificationPair.EBPFFuncName ≠ "classifier_ingress"))
    (fun p =>
      if p.IfIndexNetnsID = 200 then ResolveResult.ok ⟨⟨"veth1", [2, 66, 172, 17, 0, 3]⟩⟩
      else ResolveResult.ok ⟨⟨"eth0", [2, 66, 172, 17, 0, 2]⟩⟩)

/-- A driver whose filters are all active and whose `ResolveLink` fails: the
interface vanished between the activity check and the resolution. -/
def exDriverNoLink : Driver Nat :=
  exDriver (fun _ => none) (fun _ => true)
    (fun _ => ResolveResult.error (GoError.linkNotFound "Link not found"))

/-- An example key: the function `classifier` on `exDevice` in the direction
`dir`. -/
def exKey (dir : TrafficType) : ProgramKey :=
  { UID := "security", FuncName := "classifier", NetDevice := exDevice, NetworkDirection := dir }

/-- The key `exKey 65522` after the interface was renamed. -/
def exKeyRenamed : ProgramKey :=
  { exKey 65522 with NetDevice := { exDevice with Name := "eth0-renamed" } }

/-- The key `exKey 65522` on the device `exDevice2`. -/
def exKeyOther : ProgramKey :=
  { exKey 65522 with NetDevice := exDevice2 }

/-- An example lazy-deletion predicate: the interface `veth1` is pending
deletion. -/
def exIsLazy (name : String) : Bool := decide (name = "veth1")

/-- Whether the entries of a map that share the interface index and the
namespace of their devices also share the device name. -/
def NameConsistent (m : ProgramMap) : Prop :=
  ∀ e1 ∈ m, ∀ e2 ∈ m,
    e1.1.NetDevice.IfIndex = e2.1.NetDevice.IfIndex →
    e1.1.NetDevice.NetNS = e2.1.NetDevice.NetNS →
    e1.1.NetDevice.Name = e2.1.NetDevice.Name

instance (m : ProgramMap) : Decidable (NameConsistent m) := by
  unfold NameConsistent; infer_instance

/-- A driver whose `CloneProgram` succeeds for the first template of the
example catalog, fails with a recoverable error for the second and with a
link-not-found error for the third. -/
def exDriverMixed : Driver Nat :=
  exDriver
    (fun name =>
      if name = "classifier_egress" then none
      else if name = "classifier_raw_packet_egress" then
        some (GoError.other "device or resource busy")
      else some (GoError.linkNotFound "Link not found"))
    (fun _ => true)
    (fun _ => ResolveResult.ok ⟨⟨"eth0", [2, 66, 172, 17, 0, 2]⟩⟩)

/-- A driver that keeps the identification pairs in use and the number of
calls to `CloneProgram`: it refuses a pair that is in use, fails for the
ingress classifier during its first two calls, and attaches otherwise;
`DetachHook` releases the pair. -/
def exDriverPairs : Driver (List ProbeIdentificationPair × Nat) :=
  { CloneProgram := fun w _ p _ =>
      if p.ProbeIdentificationPair ∈ w.1 then
        ((w.1, w.2 + 1), some (GoError.other "identification pair in use"))
      else if p.ProbeIdentificationPair.EBPFFuncName = "classifier_ingress" ∧ w.2 < 2 then
        ((w.1, w.2 + 1), some (GoError.other "device or resource busy"))
      else
        ((p.ProbeIdentificationPair :: w.1, w.2 + 1), none)
    DetachHook := fun w pair => ((w.1.erase pair, w.2), none)
    IsRunning := fun w p => (w, decide (p.ProbeIdentificationPair ∈ w.1))
    IsTCFilterActive := fun w p => (w, decide (p.ProbeIdentificationPair ∈ w.1))
    ResolveLink := fun w _ => (w, ResolveResult.ok ⟨⟨"eth0", [2, 66, 172, 17, 0, 2]⟩⟩)
    ID := fun w _ => w.2 }

/-- The device `exDevice` after it was renamed. -/
def exDeviceRenamed : NetDevice := { exDevice with Name := "eth0-renamed" }

/-- The outcome of a setup on `exDevice`, during which the clone of the
ingress classifier fails, followed by a setup on the renamed device, both
through `exDriverPairs` and with the egress and ingress classifiers as
catalog. -/
def exSetupRenamed : SetupResult (List ProbeIdentificationPair × Nat) :=
  SetupNewTCClassifierWithNetNSHandle exExt exDriverPairs
    (SetupNewTCClassifierWithNetNSHandle exExt exDriverPairs
      (NewResolver { exConfig with NetworkRawPacketEnabled := false }) exDevice 3 ([], 0)).tcr
    exDeviceRenamed 4
    (SetupNewTCClassifierWithNetNSHandle exExt exDriverPairs
      (NewResolver { exConfig with NetworkRawPacketEnabled := false }) exDevice 3 ([], 0)).world

end TC

/-!
# Serverless trigger extractors (`pkg/serverless/trigger/extractor.go`)

Go strings are modelled by `String`; the library functions `strings.Split`,
`strings.HasPrefix` and `fmt.Sprintf` are modelled on the lists of characters,
for the uses the extractors make of them (a one-character separator, the verb
`%v` applied to strings).
-/

namespace Trigger

/-! ## Library functions -/

/-- The test `strings.HasPrefix(s, pre)`. -/
def HasPrefix (s pre : String) : Bool :=
  pre.data.isPrefixOf s.data

/-- The expansion of a format in which the only verb is `%v` and every operand
is a string: each `%v` is replaced by the next operand, and by
`%!v(MISSING)` when the operands are exhausted. -/
def sprintfChars : List Char → List String → List Char
  | [], _ => []
  | [c], _ => [c]
  | c :: c2 :: rest, args =>
    if c = '%' ∧ c2 = 'v' then
      match args with
      | a :: more => a.data ++ sprintfChars rest more
      | [] => "%!v(MISSING)".data ++ sprintfChars rest []
    else
      c :: sprintfChars (c2 :: rest) args

/-- The function `fmt.Sprintf`, for the verb `%v` and string operands. -/
def Sprintf (format : String) (args : List String) : String :=
  String.mk (sprintfChars format.data args)

/-- The pieces of a list of characters between the occurrences of `sep`. -/
def splitChars (sep : Char) : List Char → List (List Char)
  | [] => [[]]
  | c :: cs =>
    if c = sep then
      [] :: splitChars sep cs
    else
      match splitChars sep cs with
      | [] => [[c]]
      | hd :: tl => (c :: hd) :: tl

/-- The function `strings.Split(s, sep)` for a separator of one character. -/
def Split (s : String) (sep : Char) : List String :=
  (splitChars sep s.data).map String.mk

/-! ## ARN construction -/

/-- GetAWSPartitionByRegion parses an AWS region and returns an AWS
partition. -/
def GetAWSPartitionByRegion (region : String) : String :=
  if HasPrefix region "us-gov-" then
    "aws-us-gov"
  else if HasPrefix region "cn-" then
    "aws-cn"
  else
    "aws"

/-- The fields of `events.APIGatewayProxyRequestContext` read by the ARN
extractor. -/
structure APIGatewayProxyRequestContext where
  APIID : String
  Stage : String
deriving DecidableEq, Repr

/-- The field of `events.APIGatewayProxyRequest` read by the ARN extractor. -/
structure APIGatewayProxyRequest where
  RequestContext : APIGatewayProxyRequestContext
deriving DecidableEq, Repr

/-- The fields of `events.APIGatewayV2HTTPRequestContext` read by the ARN
extractor. -/
structure APIGatewayV2HTTPRequestContext where
  APIID : String
  Stage : String
deriving DecidableEq, Repr

/-- The field of `events.APIGatewayV2HTTPRequest` read by the ARN extractor. -/
structure APIGatewayV2HTTPRequest where
  RequestContext : APIGatewayV2HTTPRequestContext
deriving DecidableEq, Repr

/-- The fields of `events.APIGatewayWebsocketProxyRequestContext` read by the
ARN extractor. -/
structure APIGatewayWebsocketProxyRequestContext where
  APIID : String
  Stage : String
deriving DecidableEq, Repr

/-- The field of `events.APIGatewayWebsocketProxyRequest` read by the ARN
extractor. -/
structure APIGatewayWebsocketProxyRequest where
  RequestContext : APIGatewayWebsocketProxyRequestContext
deriving DecidableEq, Repr

/-- ExtractAPIGatewayEventARN returns an ARN from an APIGatewayProxyRequest. -/
def ExtractAPIGatewayEventARN (event : APIGatewayProxyRequest) (region : String) : String :=
  let requestContext := event.RequestContext
  Sprintf "arn:%v:apigateway:%v::/restapis/%v/stages/%v"
    [GetAWSPartitionByRegion region, region, requestContext.APIID, requestContext.Stage]

/-- ExtractAPIGatewayV2EventARN returns an ARN from an
APIGatewayV2HTTPRequest. -/
def ExtractAPIGatewayV2EventARN (event : APIGatewayV2HTTPRequest) (region : String) : String :=
  let requestContext := event.RequestContext
  Sprintf "arn:%v:apigateway:%v::/restapis/%v/stages/%v"
    [GetAWSPartitionByRegion region, region, requestContext.APIID, requestContext.Stage]

/-- ExtractAPIGatewayWebSocketEventARN returns an ARN from an
APIGatewayWebsocketProxyRequest. -/
def ExtractAPIGatewayWebSocketEventARN (event : APIGatewayWebsocketProxyRequest)
    (region : String) : String :=
  let requestContext := event.RequestContext
  Sprintf "arn:%v:apigateway:%v::/restapis/%v/stages/%v"
    [GetAWSPartitionByRegion region, region, requestContext.APIID, requestContext.Stage]

/-! ## Status code of a response -/

/-- The dynamic value that `json.Unmarshal` stores in a field of type
`interface{}`: nil for an absent or null field, otherwise a bool, a float64
(over an abstract type `F` of floats), a string, a slice or a map. -/
inductive Dynamic (F : Type) where
  | nil
  | bool (b : Bool)
  | float64 (f : F)
  | string (s : String)
  | slice
  | map
deriving DecidableEq, Repr

/-- The rendering of the dynamic type of a value by the verb `%T`. -/
def Dynamic.typeName {F : Type} : Dynamic F → String
  | .nil => "<nil>"
  | .bool _ => "bool"
  | .float64 _ => "float64"
  | .string _ => "string"
  | .slice => "[]interface \x7b\x7d"
  | .map => "map[string]interface \x7b\x7d"

/-- GetStatusCodeFromHTTPResponse parses a generic payload and returns a
status code, if it contains one. Returns an empty string if it does not, or
an error in case of json parsing error. The decoder
`json.Unmarshal(rawPayload, &response)` is the parameter `Unmarshal`, which
returns its error or the value left in `response.StatusCode`; `FormatFloat`
is `strconv.FormatFloat(actual, 'f', -1, 64)`. The result is the returned
string and the returned error (`none` is nil). -/
def GetStatusCodeFromHTTPResponse {P F : Type} (Unmarshal : P → Except String (Dynamic F))
    (FormatFloat : F → String) (rawPayload : P) : String × Option String :=
  match Unmarshal rawPayload with
  | .error err => ("", some err)
  | .ok statusCode =>
    match statusCode with
    | .nil => ("", none)
    | .float64 actual => (FormatFloat actual, none)
    | .string actual => (actual, none)
    | other => ("", some (Sprintf "Received unknown type %v for statusCode" [other.typeName]))

/-! ## ARN parsing -/

/-- ParseArn parses an AWS ARN and returns the region and account. The result
is the three returned strings and the returned error (`none` is nil). -/
def ParseArn (arn : String) : String × String × String × Option String :=
  let arnTokens := Split arn ':'
  if h : arnTokens.length < 5 then
    ("", "", "", some (Sprintf "Malformed arn %v provided" [arn]))
  else if h7 : arnTokens.length ≥ 7 then
    (arnTokens.get ⟨3, by omega⟩, arnTokens.get ⟨4, by omega⟩, arnTokens.get ⟨6, by omega⟩, none)
  else
    (arnTokens.get ⟨3, by omega⟩, arnTokens.get ⟨4, by omega⟩, "", none)

/-! ## Tags of a custom authorizer event -/

/-- The pieces of a list of characters between the first occurrences of `sep`,
at most `n` of them, the last one being the unsplit rest. -/
def splitNChars (sep : Char) : Nat → List Char → List (List Char)
  | 0, _ => []
  | 1, l => [l]
  | _ + 2, [] => [[]]
  | n + 2, c :: cs =>
    if c = sep then
      [] :: splitNChars sep (n + 1) cs
    else
      match splitNChars sep (n + 2) cs with
      | [] => [[c]]
      | hd :: tl => (c :: hd) :: tl

/-- The function `strings.SplitN(s, sep, n)` for a separator of one character
and `n ≥ 0`. -/
def SplitN (s : String) (sep : Char) (n : Nat) : List String :=
  (splitNChars sep n s.data).map String.mk

/-- The struct `arn.ARN` of the AWS SDK. -/
structure ARN where
  Partition : String
  Service : String
  Region : String
  AccountID : String
  Resource : String
deriving DecidableEq, Repr

/-- The field of `events.APIGatewayCustomAuthorizerRequest` read by the
extractors. -/
structure APIGatewayCustomAuthorizerRequest where
  MethodArn : String
deriving DecidableEq, Repr

/-- The Go map `map[string]string` of tags, in insertion order. -/
abbrev TagMap := List (String × String)

/-- The assignment `m[k] = v` on a tag map. -/
def TagMap.set : TagMap → String → String → TagMap
  | [], key, v => [(key, v)]
  | (k, x) :: rest, key, v =>
    if k = key then (k, v) :: rest else (k, x) :: TagMap.set rest key v

/-- GetTagsFromAPIGatewayCustomAuthorizerEvent returns a tagset containing
http tags from an APIGatewayCustomAuthorizerRequest. The parser `arn.Parse`
of the AWS SDK is the parameter `Parse`; the result `none` is the nil map. -/
def GetTagsFromAPIGatewayCustomAuthorizerEvent (Parse : String → Except String ARN)
    (event : APIGatewayCustomAuthorizerRequest) : Option TagMap :=
  let httpTags : TagMap := []
  match Parse event.MethodArn with
  | .ok methodArn =>
    let parts := SplitN methodArn.Resource '/' 4
    if h : parts.length ≠ 4 then
      none
    else
      let httpTags := httpTags.set "http.method" (parts.get ⟨2, by omega⟩)
      let httpTags := httpTags.set "http.url_details.path" ("/" ++ parts.get ⟨3, by omega⟩)
      some httpTags
  | .error _ => some httpTags

/-- The function `arn.Parse` as the AWS SDK defines it: the prefix `arn:`, then
six sections separated by colons, the last one being the resource. -/
def arnParse (arn : String) : Except String ARN :=
  if ¬ HasPrefix arn "arn:" then
    .error "arn: invalid prefix"
  else
    match SplitN arn ':' 6 with
    | [_, partition, service, region, accountID, resource] =>
      .ok { Partition := partition, Service := service, Region := region,
            AccountID := accountID, Resource := resource }
    | _ => .error "arn: not enough sections"

/-! ## Example data -/

/-- An example decoder, defined on four payloads and failing on every other
one: a numeric status code, a string one, none, and a boolean one. -/
def exUnmarshal (rawPayload : String) : Except String (Dynamic Nat) :=
  if rawPayload = "\x7b\"statusCode\": 200\x7d" then .ok (.float64 200)
  else if rawPayload = "\x7b\"statusCode\": \"404\"\x7d" then .ok (.string "404")
  else if rawPayload = "\x7b\"body\": \"ok\"\x7d" then .ok .nil
  else if rawPayload = "\x7b\"statusCode\": true\x7d" then .ok (.bool true)
  else .error "ReadObject: expect \x7b or , or \x7d or n"

/-- An example rendering of the floats of `exUnmarshal`. -/
def exFormatFloat (f : Nat) : String := toString f

end Trigger

/-!
# gRPC status code of a span (`pkg/trace/stats/aggregation.go`)

The maps `meta` and `metrics` are only looked up, so they are functions from
keys to optional values. `strconv.ParseUint` and the formatting functions are
modelled on the characters; `strings.ToUpper` and the conversion of a float
to `uint64` are parameters.
-/

namespace Stats

/-- The value of a decimal digit, when the character is one. -/
def digitValue (c : Char) : Option Nat :=
  if 48 ≤ c.toNat ∧ c.toNat ≤ 57 then some (c.toNat - 48) else none

/-- The value of a list of decimal digits read after the value `acc`, when
every character is a digit. -/
def parseDigits : List Char → Nat → Option Nat
  | [], acc => some acc
  | c :: cs, acc =>
    match digitValue c with
    | some v => parseDigits cs (acc * 10 + v)
    | none => none

/-- The function `strconv.ParseUint(s, 10, 32)`: the value when `s` is a
non-empty string of decimal digits whose value fits 32 bits, `none` when it
returns an error. -/
def ParseUint32 (s : String) : Option Nat :=
  if s.data = [] then
    none
  else
    match parseDigits s.data 0 with
    | some v => if v < 2 ^ 32 then some v else none
    | none => none

/-- The functions `strconv.FormatUint(c, 10)`, `strconv.FormatInt(c, 10)` and
`strconv.Itoa(c)` on a value that is not negative. -/
def FormatUint (c : Nat) : String := toString c

/-- The constant `codes.Canceled` of gRPC. -/
def Canceled : Nat := 1

/-- The table `code.Code_value` of the gRPC status names. -/
def Code_value (name : String) : Option Nat :=
  if name = "OK" then some 0
  else if name = "CANCELLED" then some 1
  else if name = "UNKNOWN" then some 2
  else if name = "INVALID_ARGUMENT" then some 3
  else if name = "DEADLINE_EXCEEDED" then some 4
  else if name = "NOT_FOUND" then some 5
  else if name = "ALREADY_EXISTS" then some 6
  else if name = "PERMISSION_DENIED" then some 7
  else if name = "UNAUTHENTICATED" then some 16
  else if name = "RESOURCE_EXHAUSTED" then some 8
  else if name = "FAILED_PRECONDITION" then some 9
  else if name = "ABORTED" then some 10
  else if name = "OUT_OF_RANGE" then some 11
  else if name = "UNIMPLEMENTED" then some 12
  else if name = "INTERNAL" then some 13
  else if name = "UNAVAILABLE" then some 14
  else if name = "DATA_LOSS" then some 15
  else none

/-- The list `metaKeys` of `getGRPCStatusCode`: the possible keys to check, in
order. -/
def metaKeys : List String :=
  ["rpc.grpc.status_code", "grpc.code", "rpc.grpc.status.code", "grpc.status.code"]

/-- The first loop of `getGRPCStatusCode` over the keys still to check:
`some r` when the loop returns `r`, `none` when it runs to its end. -/
def metaLoop (ToUpper : String → String) (metaMap : String → Option String) :
    List String → Option String
  | [] => none
  | key :: rest =>
    match metaMap key with
    | some strC =>
      if strC ≠ "" then
        match ParseUint32 strC with
        | some c => some (FormatUint c)
        | none =>
          let strCUpper := ToUpper strC
          if strCUpper = "CANCELED" ∨ strCUpper = "CANCELLED" then
            some (FormatUint Canceled)
          else
            match Code_value strCUpper with
            | some codeNum => some (FormatUint codeNum)
            | none => some ""
      else
        metaLoop ToUpper metaMap rest
    | none => metaLoop ToUpper metaMap rest

/-- The second loop of `getGRPCStatusCode` over the keys still to check. -/
def metricsLoop {F : Type} (toUint64 : F → Nat) (metrics : String → Option F) :
    List String → Option String
  | [] => none
  | key :: rest =>
    match metrics key with
    | some code => some (FormatUint (toUint64 code))
    | none => metricsLoop toUint64 metrics rest

/-- The function `getGRPCStatusCode(meta, metrics)`; `metaMap` is the map
`meta`. -/
def getGRPCStatusCode {F : Type} (ToUpper : String → String) (toUint64 : F → Nat)
    (metaMap : String → Option String) (metrics : String → Option F) : String :=
  match metaLoop ToUpper metaMap metaKeys with
  | some r => r
  | none =>
    match metricsLoop toUint64 metrics metaKeys with
    | some r => r
    | none => ""

/-- An example of `strings.ToUpper`, exact on ASCII strings. -/
def exToUpper (s : String) : String :=
  String.mk (s.data.map (fun c =>
    if 97 ≤ c.toNat ∧ c.toNat ≤ 122 then Char.ofNat (c.toNat - 32) else c))

/-- An example `meta` map: no `rpc.grpc.status_code`, an empty `grpc.code`,
and the value `v` under `rpc.grpc.status.code`. -/
def exMeta (v : String) (key : String) : Option String :=
  if key = "grpc.code" then some ""
  else if key = "rpc.grpc.status.code" then some v
  else if key = "grpc.status.code" then some "14"
  else none

/-- An example `metrics` map, with floats kept as the integers they convert
to. -/
def exMetrics (key : String) : Option Nat :=
  if key = "grpc.code" then some 5 else none

end Stats

/-!
# NVML device collector (`pkg/collector/corechecks/gpu/nvidia/device.go`)

The NVML device is a state machine over an arbitrary world `W`: every method
takes the current world and returns the next one with its results. The values
returned by the device are unsigned integers, which the getters convert to
`float64`; a float is kept as the integer it converts. Every call to a getter
is logged with the name of its metric.
-/

namespace Nvidia

/-- The integer type `nvml.Return`. -/
abbrev Return := Nat

/-- The constant `nvml.SUCCESS`. -/
def SUCCESS : Return := 0

/-- The constant `nvml.ERROR_NOT_SUPPORTED`. -/
def ERROR_NOT_SUPPORTED : Return := 3

/-- The counters `nvml.PcieUtilCounter` used by the getters. -/
inductive PcieUtilCounter where
  | PCIE_UTIL_TX_BYTES
  | PCIE_UTIL_RX_BYTES
deriving DecidableEq, Repr

/-- The clocks `nvml.ClockType` used by the getters. -/
inductive ClockType where
  | CLOCK_GRAPHICS
  | CLOCK_SM
  | CLOCK_MEM
  | CLOCK_VIDEO
deriving DecidableEq, Repr

/-- The sensor `nvml.TemperatureSensors` used by the getters. -/
inductive TemperatureSensors where
  | TEMPERATURE_GPU
deriving DecidableEq, Repr

/-- The struct `nvml.Utilization`. -/
structure Utilization where
  Gpu : Nat
  Memory : Nat
deriving DecidableEq, Repr

/-- The methods of `nvml.Device` called by the getters. -/
structure Device (W : Type) where
  GetPcieThroughput : W → PcieUtilCounter → W × Nat × Return
  GetDecoderUtilization : W → W × Nat × Nat × Return
  GetUtilizationRates : W → W × Utilization × Return
  GetEncoderUtilization : W → W × Nat × Nat × Return
  GetFanSpeed : W → W × Nat × Return
  GetPowerManagementLimit : W → W × Nat × Return
  GetPowerUsage : W → W × Nat × Return
  GetPerformanceState : W → W × Nat × Return
  GetClockInfo : W → ClockType → W × Nat × Return
  GetMaxClockInfo : W → ClockType → W × Nat × Return
  GetTemperature : W → TemperatureSensors → W × Nat × Return
  GetTotalEnergyConsumption : W → W × Nat × Return

/-- deviceMetricGetter is a function type that receives a NVML device and
returns one or more values. -/
abbrev deviceMetricGetter (W : Type) := Device W → W → W × Nat × Return

/-- deviceMetric represents a metric that can be collected from an NVML
device, using the NVML API on that specific device. -/
structure deviceMetric (W : Type) where
  name : String
  getter : deviceMetricGetter W

def getRxPciThroughput {W : Type} : deviceMetricGetter W := fun dev w =>
  let r := dev.GetPcieThroughput w PcieUtilCounter.PCIE_UTIL_RX_BYTES
  (r.1, r.2.1, r.2.2)

def getTxPciThroughput {W : Type} : deviceMetricGetter W := fun dev w =>
  let r := dev.GetPcieThroughput w PcieUtilCounter.PCIE_UTIL_TX_BYTES
  (r.1, r.2.1, r.2.2)

def getDecoderUtilization {W : Type} : deviceMetricGetter W := fun dev w =>
  let r := dev.GetDecoderUtilization w
  (r.1, r.2.1, r.2.2.2)

def getDramActive {W : Type} : deviceMetricGetter W := fun dev w =>
  let r := dev.GetUtilizationRates w
  (r.1, r.2.1.Memory, r.2.2)

def getSMActive {W : Type} : deviceMetricGetter W := fun dev w =>
  let r := dev.GetUtilizationRates w
  (r.1, r.2.1.Gpu, r.2.2)

def getEncoderUtilization {W : Type} : deviceMetricGetter W := fun dev w =>
  let r := dev.GetEncoderUtilization w
  (r.1, r.2.1, r.2.2.2)

def getFanSpeed {W : Type} : deviceMetricGetter W := fun dev w =>
  dev.GetFanSpeed w

def getPowerManagementLimit {W : Type} : deviceMetricGetter W := fun dev w =>
  dev.GetPowerManagementLimit w

def getPowerUsage {W : Type} : deviceMetricGetter W := fun dev w =>
  dev.GetPowerUsage w

def getPerformanceState {W : Type} : deviceMetricGetter W := fun dev w =>
  dev.GetPerformanceState w

def getCurrentSMClockSpeed {W : Type} : deviceMetricGetter W := fun dev w =>
  dev.GetClockInfo w ClockType.CLOCK_SM

def getCurrentMemoryClockSpeed {W : Type} : deviceMetricGetter W := fun dev w =>
  dev.GetClockInfo w ClockType.CLOCK_MEM

def getCurrentGraphicsClockSpeed {W : Type} : deviceMetricGetter W := fun dev w =>
  dev.GetClockInfo w ClockType.CLOCK_GRAPHICS

def getCurrentVideoClockSpeed {W : Type} : deviceMetricGetter W := fun dev w =>
  dev.GetClockInfo w ClockType.CLOCK_VIDEO

def getMaxSMClockSpeed {W : Type} : deviceMetricGetter W := fun dev w =>
  dev.GetMaxClockInfo w ClockType.CLOCK_SM

def getMaxMemoryClockSpeed {W : Type} : deviceMetricGetter W := fun dev w =>
  dev.GetMaxClockInfo w ClockType.CLOCK_MEM

def getMaxGraphicsClockSpeed {W : Type} : deviceMetricGetter W := fun dev w =>
  dev.GetMaxClockInfo w ClockType.CLOCK_GRAPHICS

def getMaxVideoClockSpeed {W : Type} : deviceMetricGetter W := fun dev w =>
  dev.GetMaxClockInfo w ClockType.CLOCK_VIDEO

def getTemperature {W : Type} : deviceMetricGetter W := fun dev w =>
  dev.GetTemperature w TemperatureSensors.TEMPERATURE_GPU

def getTotalEnergyConsumption {W : Type} : deviceMetricGetter W := fun dev w =>
  dev.GetTotalEnergyConsumption w

/-- The variable `allDeviceMetrics`. -/
def allDeviceMetrics {W : Type} : List (deviceMetric W) :=
  [ ⟨"pci.throughput.tx", getTxPciThroughput⟩,
    ⟨"pci.throughput.rx", getRxPciThroughput⟩,
    ⟨"decoder_utiliation", getDecoderUtilization⟩,
    ⟨"dram_active", getDramActive⟩,
    ⟨"encoder_utilization", getEncoderUtilization⟩,
    ⟨"fan_speed", getFanSpeed⟩,
    ⟨"power.management_limit", getPowerManagementLimit⟩,
    ⟨"power.usage", getPowerUsage⟩,
    ⟨"performance_state", getPerformanceState⟩,
    ⟨"clock.speed.sm", getCurrentSMClockSpeed⟩,
    ⟨"clock.speed.memory", getCurrentMemoryClockSpeed⟩,
    ⟨"clock.speed.graphics", getCurrentGraphicsClockSpeed⟩,
    ⟨"clock.speed.video", getCurrentVideoClockSpeed⟩,
    ⟨"clock.speed.sm.max", getMaxSMClockSpeed⟩,
    ⟨"clock.speed.memory.max", getMaxMemoryClockSpeed⟩,
    ⟨"clock.speed.graphics.max", getMaxGraphicsClockSpeed⟩,
    ⟨"clock.speed.video.max", getMaxVideoClockSpeed⟩,
    ⟨"temperature", getTemperature⟩,
    ⟨"total_energy_consumption", getTotalEnergyConsumption⟩,
    ⟨"sm_active", getSMActive⟩ ]

/-- The struct `deviceCollector`. -/
structure deviceCollector (W : Type) where
  device : Device W
  tags : List String
  metricGetters : List (deviceMetric W)

/-- The struct `Metric` of the package, with the fields that `Collect` sets. -/
structure Metric where
  Name : String
  Value : Nat
  Tags : List String
deriving DecidableEq, Repr

/-- One call to the getter of the metric `name`, with the value and the code
it returned. -/
structure GetterCall where
  name : String
  value : Nat
  ret : Return
deriving DecidableEq, Repr

/-- The wrapped error
`fmt.Errorf("failed to get metric %s: %s", name, nvml.ErrorString(ret))`. -/
structure MetricFailure where
  name : String
  ret : Return
deriving DecidableEq, Repr

/-- The function `multierror.Append(err, e)` on an `error` that is nil or a
`*multierror.Error`. -/
def multierrorAppend (err : Option (List MetricFailure)) (e : MetricFailure) :
    Option (List MetricFailure) :=
  match err with
  | none => some [e]
  | some errs => some (errs ++ [e])

/-- What a call to `Collect` leaves behind: the returned metrics, the returned
`error` (`none` is nil), the world and the calls made to the getters. -/
structure CollectResult (W : Type) where
  values : List Metric
  err : Option (List MetricFailure)
  world : W
  log : List GetterCall

/-- The loop of `Collect` over the getters still to call. -/
def collectLoop {W : Type} (device : Device W) (tags : List String) :
    List (deviceMetric W) → W → List Metric → Option (List MetricFailure) → CollectResult W
  | [], w, values, err => { values := values, err := err, world := w, log := [] }
  | metric :: rest, w, values, err =>
    let r := metric.getter device w
    let value := r.2.1
    let ret := r.2.2
    let out :=
      if ret ≠ SUCCESS then
        collectLoop device tags rest r.1 values
          (multierrorAppend err { name := metric.name, ret := ret })
      else
        collectLoop device tags rest r.1
          (values ++ [{ Name := metric.name, Value := value, Tags := tags }]) err
    { out with log := { name := metric.name, value := value, ret := ret } :: out.log }

/-- Collect collects all the metrics from the given NVML device. -/
def Collect {W : Type} (c : deviceCollector W) (w : W) : CollectResult W :=
  collectLoop c.device c.tags c.metricGetters w [] none

/-- The method `Add` of `common.StringSet`, a set kept in insertion order. -/
def StringSetAdd (set : List String) (name : String) : List String :=
  if name ∈ set then set else set ++ [name]

/-- The first loop of `removeUnsupportedGetters` over the getters still to
call: the set of names to remove, the world and the calls made. -/
def probeLoop {W : Type} (device : Device W) :
    List (deviceMetric W) → W → List String → List String × W × List GetterCall
  | [], w, metricsToRemove => (metricsToRemove, w, [])
  | metric :: rest, w, metricsToRemove =>
    let r := metric.getter device w
    let ret := r.2.2
    let out := probeLoop device rest r.1
      (if ret = ERROR_NOT_SUPPORTED then StringSetAdd metricsToRemove metric.name
        else metricsToRemove)
    (out.1, out.2.1, { name := metric.name, value := r.2.1, ret := ret } :: out.2.2)

/-- The second loop of `removeUnsupportedGetters` over the names still to
remove; `slices.DeleteFunc` keeps the elements for which the function is
false, in order. -/
def removeLoop {W : Type} : List String → List (deviceMetric W) → List (deviceMetric W)
  | [], metricGetters => metricGetters
  | toRemove :: rest, metricGetters =>
    removeLoop rest (metricGetters.filter (fun m => !decide (m.name = toRemove)))

/-- The method `removeUnsupportedGetters`: the collector with its getters
updated, the world and the calls made. -/
def removeUnsupportedGetters {W : Type} (c : deviceCollector W) (w : W) :
    deviceCollector W × W × List GetterCall :=
  let probed := probeLoop c.device c.metricGetters w []
  ({ c with metricGetters := removeLoop probed.1 c.metricGetters }, probed.2.1, probed.2.2)

/-- The errors that `newDeviceCollector` returns. -/
inductive NewCollectorError where
  | errUnsupportedDevice
deriving DecidableEq, Repr

/-- What a call to `newDeviceCollector` leaves behind: the returned collector
(`none` is nil), the returned `error` (`none` is nil), the world and the
calls made to the getters. -/
structure NewCollectorResult (W : Type) where
  collector : Option (deviceCollector W)
  err : Option NewCollectorError
  world : W
  log : List GetterCall

/-- The function `newDeviceCollector`. -/
def newDeviceCollector {W : Type} (device : Device W) (tags : List String) (w : W) :
    NewCollectorResult W :=
  let c : deviceCollector W := { device := device, tags := tags, metricGetters := [] }
  let c := { c with metricGetters := c.metricGetters ++ allDeviceMetrics }
  let r := removeUnsupportedGetters c w
  if r.1.metricGetters.length = 0 then
    { collector := none, err := some NewCollectorError.errUnsupportedDevice
      world := r.2.1, log := r.2.2 }
  else
    { collector := some r.1, err := none, world := r.2.1, log := r.2.2 }

/-- The metrics of `allDeviceMetrics` for which the log holds no call that
returned `ERROR_NOT_SUPPORTED`, in their order. -/
def supportedMetrics {W : Type} (log : List GetterCall) : List (deviceMetric W) :=
  allDeviceMetrics.filter (fun m =>
    !(log.any (fun g => decide (g.name = m.name) && decide (g.ret = ERROR_NOT_SUPPORTED))))

/-- An example device over a world that counts the calls: no fan and no
energy counter (not supported), a temperature sensor that fails with the
code 999 (unknown error), every other call succeeds with the world as
value. -/
def exDevice : Device Nat :=
  { GetPcieThroughput := fun w _ => (w + 1, w, SUCCESS)
    GetDecoderUtilization := fun w => (w + 1, w, 0, SUCCESS)
    GetUtilizationRates := fun w => (w + 1, ⟨w, w⟩, SUCCESS)
    GetEncoderUtilization := fun w => (w + 1, w, 0, SUCCESS)
    GetFanSpeed := fun w => (w + 1, 0, ERROR_NOT_SUPPORTED)
    GetPowerManagementLimit := fun w => (w + 1, w, SUCCESS)
    GetPowerUsage := fun w => (w + 1, w, SUCCESS)
    GetPerformanceState := fun w => (w + 1, w, SUCCESS)
    GetClockInfo := fun w _ => (w + 1, w, SUCCESS)
    GetMaxClockInfo := fun w _ => (w + 1, w, SUCCESS)
    GetTemperature := fun w _ => (w + 1, 0, 999)
    GetTotalEnergyConsumption := fun w => (w + 1, 0, ERROR_NOT_SUPPORTED) }

end Nvidia

namespace TC

/-! ## Lemmas on the program map -/

theorem ProgramMap.get?_set_self (m : ProgramMap) (k : ProgramKey) (v : Probe) :
    (ProgramMap.set m k v).get? k = some v := by
  induction m with
  | nil => simp [ProgramMap.set, ProgramMap.get?]
  | cons hd tl ih =>
    obtain ⟨k1, p1⟩ := hd
    by_cases h : k1 = k
    · simp [ProgramMap.set, ProgramMap.get?, h]
    · simp [ProgramMap.set, ProgramMap.get?, h, ih]

theorem ProgramMap.get?_set_isSome (m : ProgramMap) (k k2 : ProgramKey) (v : Probe)
    (h : (m.get? k2).isSome) : ((ProgramMap.set m k v).get? k2).isSome := by
  induction m with
  | nil => simp [ProgramMap.get?] at h
  | cons hd tl ih =>
    obtain ⟨k1, p1⟩ := hd
    by_cases h1 : k1 = k
    · subst h1
      by_cases h2 : k1 = k2
      · simp [ProgramMap.set, ProgramMap.get?, h2]
      · simp [ProgramMap.get?, h2] at h
        simp [ProgramMap.set, ProgramMap.get?, h2, h]
    · by_cases h2 : k1 = k2
      · subst h2
        simp [ProgramMap.set, ProgramMap.get?, h1]
      · simp [ProgramMap.get?, h2] at h
        simp [ProgramMap.set, ProgramMap.get?, h1, h2, ih h]

theorem ProgramMap.get?_eq_none_iff (m : ProgramMap) (k : ProgramKey) :
    m.get? k = none ↔ k ∉ m.keys := by
  induction m with
  | nil => simp [ProgramMap.get?, ProgramMap.keys]
  | cons hd tl ih =>
    obtain ⟨k1, p1⟩ := hd
    by_cases h : k1 = k
    · simp [ProgramMap.get?, ProgramMap.keys, h]
    · have h2 : ¬ k = k1 := fun h2 => h h2.symm
      simp only [ProgramMap.keys] at ih
      simp [ProgramMap.get?, ProgramMap.keys, h, h2, ih]

theorem ProgramMap.set_of_absent (m : ProgramMap) (k : ProgramKey) (v : Probe)
    (h : m.get? k = none) : ProgramMap.set m k v = m ++ [(k, v)] := by
  induction m with
  | nil => simp [ProgramMap.set]
  | cons hd tl ih =>
    obtain ⟨k1, p1⟩ := hd
    by_cases h1 : k1 = k
    · simp [ProgramMap.get?, h1] at h
    · simp [ProgramMap.get?, h1] at h
      simp [ProgramMap.set, h1, ih h]

theorem ProgramMap.keys_set (m : ProgramMap) (k : ProgramKey) (v : Probe) :
    (ProgramMap.set m k v).keys = if m.get? k = none then m.keys ++ [k] else m.keys := by
  induction m with
  | nil => simp [ProgramMap.set, ProgramMap.get?, ProgramMap.keys]
  | cons hd tl ih =>
    obtain ⟨k1, p1⟩ := hd
    by_cases h1 : k1 = k
    · simp [ProgramMap.set, ProgramMap.get?, ProgramMap.keys, h1]
    · simp only [ProgramMap.keys] at ih
      by_cases h2 : ProgramMap.get? tl k = none
      · simp [ProgramMap.set, ProgramMap.get?, ProgramMap.keys, h1, ih, h2]
      · simp [ProgramMap.set, ProgramMap.get?, ProgramMap.keys, h1, ih, h2]

theorem ProgramMap.WF_set (m : ProgramMap) (k : ProgramKey) (v : Probe) (h : m.WF) :
    (ProgramMap.set m k v).WF := by
  unfold ProgramMap.WF at *
  rw [ProgramMap.keys_set]
  by_cases h2 : m.get? k = none
  · simp only [h2, if_true]
    have h3 := (ProgramMap.get?_eq_none_iff m k).mp h2
    exact List.Nodup.append h (List.nodup_singleton k) (by simpa using h3)
  · simp [h2, h]

/-! ## Lemmas on setup -/

section SetupLemmas

variable {W : Type} (ext : Externals) (d : Driver W) (cfg : Config) (device : NetDevice)
  (netnsFd : Nat)

theorem setupStep_skip (st : SetupState W) (t : Probe) (p : Probe)
    (h : st.programs.get? (progKeyOf device t) = some p) :
    setupStep ext d cfg device netnsFd st t
      = { state := st, log := [Event.skip (progKeyOf device t)], ret := none } := by
  simp [setupStep, h]

theorem setupStep_fatal (st : SetupState W) (t : Probe) (w : W) (err : GoError)
    (h : st.programs.get? (progKeyOf device t) = none)
    (hc : d.CloneProgram st.world ext.SecurityAgentUID (newProbeOf ext cfg device netnsFd t)
      (netnsEditorOf device) = (w, some err))
    (hl : err.asLinkNotFound = true) :
    setupStep ext d cfg device netnsFd st t
      = { state := { st with world := w }
          log := [Event.clone (progKeyOf device t) ext.SecurityAgentUID
            (newProbeOf ext cfg device netnsFd t) (netnsEditorOf device) (some err)]
          ret := some err } := by
  simp [setupStep, h, hc, hl]

theorem setupStep_recoverable (st : SetupState W) (t : Probe) (w : W) (err : GoError)
    (h : st.programs.get? (progKeyOf device t) = none)
    (hc : d.CloneProgram st.world ext.SecurityAgentUID (newProbeOf ext cfg device netnsFd t)
      (netnsEditorOf device) = (w, some err))
    (hl : err.asLinkNotFound = false) :
    setupStep ext d cfg device netnsFd st t
      = { state := { st with
            world := w
            combinedErr := st.combinedErr ++ [⟨t.ProbeIdentificationPair, err⟩] }
          log := [Event.clone (progKeyOf device t) ext.SecurityAgentUID
            (newProbeOf ext cfg device netnsFd t) (netnsEditorOf device) (some err)]
          ret := none } := by
  simp [setupStep, h, hc, hl]

theorem setupStep_cloned (st : SetupState W) (t : Probe) (w : W)
    (h : st.programs.get? (progKeyOf device t) = none)
    (hc : d.CloneProgram st.world ext.SecurityAgentUID (newProbeOf ext cfg device netnsFd t)
      (netnsEditorOf device) = (w, none)) :
    setupStep ext d cfg device netnsFd st t
      = { state := { st with
            programs := st.programs.set (progKeyOf device t) (newProbeOf ext cfg device netnsFd t)
            world := w }
          log := [Event.clone (progKeyOf device t) ext.SecurityAgentUID
              (newProbeOf ext cfg device netnsFd t) (netnsEditorOf device) none,
            Event.addProgramNameMapping (d.ID w (newProbeOf ext cfg device netnsFd t))
              (newProbeOf ext cfg device netnsFd t).ProbeIdentificationPair.EBPFFuncName "cws"]
          ret := none } := by
  simp [setupStep, h, hc]

/-- The four ways one iteration of setup can go. -/
theorem setupStep_cases (st : SetupState W) (t : Probe) :
    (∃ p, st.programs.get? (progKeyOf device t) = some p
      ∧ setupStep ext d cfg device netnsFd st t
        = { state := st, log := [Event.skip (progKeyOf device t)], ret := none })
    ∨ (∃ w err, st.programs.get? (progKeyOf device t) = none
      ∧ d.CloneProgram st.world ext.SecurityAgentUID (newProbeOf ext cfg device netnsFd t)
          (netnsEditorOf device) = (w, some err)
      ∧ err.asLinkNotFound = true
      ∧ setupStep ext d cfg device netnsFd st t
        = { state := { st with world := w }
            log := [Event.clone (progKeyOf device t) ext.SecurityAgentUID
              (newProbeOf ext cfg device netnsFd t) (netnsEditorOf device) (some err)]
            ret := some err })
    ∨ (∃ w err, st.programs.get? (progKeyOf device t) = none
      ∧ d.CloneProgram st.world ext.SecurityAgentUID (newProbeOf ext cfg device netnsFd t)
          (netnsEditorOf device) = (w, some err)
      ∧ err.asLinkNotFound = false
      ∧ setupStep ext d cfg device netnsFd st t
        = { state := { st with
              world := w
              combinedErr := st.combinedErr ++ [⟨t.ProbeIdentificationPair, err⟩] }
            log := [Event.clone (progKeyOf device t) ext.SecurityAgentUID
              (newProbeOf ext cfg device netnsFd t) (netnsEditorOf device) (some err)]
            ret := none })
    ∨ (∃ w, st.programs.get? (progKeyOf device t) = none
      ∧ d.CloneProgram st.world ext.SecurityAgentUID (newProbeOf ext cfg device netnsFd t)
          (netnsEditorOf device) = (w, none)
      ∧ setupStep ext d cfg device netnsFd st t
        = { state := { st with
              programs := st.programs.set (progKeyOf device t)
                (newProbeOf ext cfg device netnsFd t)
              world := w }
            log := [Event.clone (progKeyOf device t) ext.SecurityAgentUID
                (newProbeOf ext cfg device netnsFd t) (netnsEditorOf device) none,
              Event.addProgramNameMapping (d.ID w (newProbeOf ext cfg device netnsFd t))
                (newProbeOf ext cfg device netnsFd t).ProbeIdentificationPair.EBPFFuncName "cws"]
            ret := none }) := by
  cases h : st.programs.get? (progKeyOf device t) with
  | some p => exact Or.inl ⟨p, rfl, setupStep_skip ext d cfg device netnsFd st t p h⟩
  | none =>
    cases hc : d.CloneProgram st.world ext.SecurityAgentUID (newProbeOf ext cfg device netnsFd t)
      (netnsEditorOf device) with
    | mk w res =>
      cases res with
      | none =>
        exact Or.inr (Or.inr (Or.inr
          ⟨w, rfl, rfl, setupStep_cloned ext d cfg device netnsFd st t w h hc⟩))
      | some err =>
        cases hl : err.asLinkNotFound with
        | true =>
          exact Or.inr (Or.inl
            ⟨w, err, rfl, rfl, hl, setupStep_fatal ext d cfg device netnsFd st t w err h hc hl⟩)
        | false =>
          exact Or.inr (Or.inr (Or.inl
            ⟨w, err, rfl, rfl, hl,
              setupStep_recoverable ext d cfg device netnsFd st t w err h hc hl⟩))

theorem setupStep_WF (st : SetupState W) (t : Probe) (h : st.programs.WF) :
    (setupStep ext d cfg device netnsFd st t).state.programs.WF := by
  rcases setupStep_cases ext d cfg device netnsFd st t with
    ⟨p, _, e⟩ | ⟨w, err, _, _, _, e⟩ | ⟨w, err, _, _, _, e⟩ | ⟨w, _, _, e⟩
  all_goals rw [e]
  · exact h
  · exact h
  · exact h
  · exact ProgramMap.WF_set _ _ _ h

theorem setupStep_mono (st : SetupState W) (t : Probe) (k : ProgramKey)
    (h : (st.programs.get? k).isSome) :
    ((setupStep ext d cfg device netnsFd st t).state.programs.get? k).isSome := by
  rcases setupStep_cases ext d cfg device netnsFd st t with
    ⟨p, _, e⟩ | ⟨w, err, _, _, _, e⟩ | ⟨w, err, _, _, _, e⟩ | ⟨w, _, _, e⟩
  all_goals rw [e]
  · exact h
  · exact h
  · exact h
  · exact ProgramMap.get?_set_isSome _ _ _ _ h

theorem setupStep_clean (st : SetupState W) (t : Probe)
    (h : ∀ ev ∈ (setupStep ext d cfg device netnsFd st t).log, ev.isFailedClone = false) :
    (setupStep ext d cfg device netnsFd st t).ret = none
    ∧ (setupStep ext d cfg device netnsFd st t).state.combinedErr = st.combinedErr
    ∧ ((setupStep ext d cfg device netnsFd st t).state.programs.get?
        (progKeyOf device t)).isSome := by
  rcases setupStep_cases ext d cfg device netnsFd st t with
    ⟨p, hp, e⟩ | ⟨w, err, _, _, _, e⟩ | ⟨w, err, _, _, _, e⟩ | ⟨w, _, _, e⟩
  all_goals rw [e] at h ⊢
  · simp [hp]
  · simp [Event.isFailedClone] at h
  · simp [Event.isFailedClone] at h
  · simp [ProgramMap.get?_set_self]

theorem setupStep_present (st : SetupState W) (t : Probe)
    (h : (st.programs.get? (progKeyOf device t)).isSome) :
    setupStep ext d cfg device netnsFd st t
      = { state := st, log := [Event.skip (progKeyOf device t)], ret := none } := by
  obtain ⟨p, hp⟩ := Option.isSome_iff_exists.mp h
  exact setupStep_skip ext d cfg device netnsFd st t p hp

theorem setupLoop_WF (ts : List Probe) (st : SetupState W) (h : st.programs.WF) :
    (setupLoop ext d cfg device netnsFd ts st).state.programs.WF := by
  induction ts generalizing st with
  | nil => exact h
  | cons t rest ih =>
    simp only [setupLoop]
    split
    · exact setupStep_WF ext d cfg device netnsFd st t h
    · exact ih _ (setupStep_WF ext d cfg device netnsFd st t h)

theorem setupLoop_mono (ts : List Probe) (st : SetupState W) (k : ProgramKey)
    (h : (st.programs.get? k).isSome) :
    ((setupLoop ext d cfg device netnsFd ts st).state.programs.get? k).isSome := by
  induction ts generalizing st with
  | nil => exact h
  | cons t rest ih =>
    simp only [setupLoop]
    split
    · exact setupStep_mono ext d cfg device netnsFd st t k h
    · exact ih _ (setupStep_mono ext d cfg device netnsFd st t k h)

theorem setupLoop_clean (ts : List Probe) (st : SetupState W)
    (h : ∀ ev ∈ (setupLoop ext d cfg device netnsFd ts st).log, ev.isFailedClone = false) :
    (setupLoop ext d cfg device netnsFd ts st).ret = none
    ∧ (setupLoop ext d cfg device netnsFd ts st).state.combinedErr = st.combinedErr
    ∧ ∀ t ∈ ts, ((setupLoop ext d cfg device netnsFd ts st).state.programs.get?
        (progKeyOf device t)).isSome := by
  induction ts generalizing st with
  | nil => simp [setupLoop]
  | cons t rest ih =>
    simp only [setupLoop] at h ⊢
    split
    · next err he =>
      simp only [he] at h
      have := (setupStep_clean ext d cfg device netnsFd st t h).1
      simp [he] at this
    · next he =>
      simp only [he, List.mem_append] at h
      have h1 := setupStep_clean ext d cfg device netnsFd st t (fun ev hev => h ev (Or.inl hev))
      have h2 := ih (setupStep ext d cfg device netnsFd st t).state
        (fun ev hev => h ev (Or.inr hev))
      refine ⟨h2.1, h2.2.1.trans h1.2.1, ?_⟩
      intro u hu
      rcases List.mem_cons.mp hu with hu | hu
      · subst hu
        exact setupLoop_mono ext d cfg device netnsFd rest _ _ h1.2.2
      · exact h2.2.2 u hu

theorem setupLoop_present (ts : List Probe) (st : SetupState W)
    (h : ∀ t ∈ ts, (st.programs.get? (progKeyOf device t)).isSome) :
    setupLoop ext d cfg device netnsFd ts st
      = { state := st, log := ts.map (fun t => Event.skip (progKeyOf device t)), ret := none } := by
  induction ts with
  | nil => rfl
  | cons t rest ih =>
    have h1 := setupStep_present ext d cfg device netnsFd st t (h t (List.mem_cons_self t rest))
    have h2 := ih (fun u hu => h u (List.mem_cons_of_mem t hu))
    simp [setupLoop, h1, h2]

theorem setupLoop_append (pre rest : List Probe) (st : SetupState W)
    (h : (setupLoop ext d cfg device netnsFd pre st).ret = none) :
    setupLoop ext d cfg device netnsFd (pre ++ rest) st
      = { state := (setupLoop ext d cfg device netnsFd rest
            (setupLoop ext d cfg device netnsFd pre st).state).state
          log := (setupLoop ext d cfg device netnsFd pre st).log
            ++ (setupLoop ext d cfg device netnsFd rest
              (setupLoop ext d cfg device netnsFd pre st).state).log
          ret := (setupLoop ext d cfg device netnsFd rest
            (setupLoop ext d cfg device netnsFd pre st).state).ret } := by
  induction pre generalizing st with
  | nil => simp [setupLoop]
  | cons t ts ih =>
    rw [List.cons_append]
    simp only [setupLoop] at h ⊢
    cases he : (setupStep ext d cfg device netnsFd st t).ret with
    | some err => simp [he] at h
    | none =>
      simp only [he] at h ⊢
      rw [ih _ h]
      simp

theorem setupStep_processedKeys (st : SetupState W) (t : Probe) :
    processedKeys (setupStep ext d cfg device netnsFd st t).log = [progKeyOf device t] := by
  rcases setupStep_cases ext d cfg device netnsFd st t with
    ⟨p, _, e⟩ | ⟨w, err, _, _, _, e⟩ | ⟨w, err, _, _, _, e⟩ | ⟨w, _, _, e⟩
  all_goals rw [e]
  all_goals simp [processedKeys, Event.processedKey]

theorem setupLoop_processedKeys (ts : List Probe) (st : SetupState W)
    (h : (setupLoop ext d cfg device netnsFd ts st).ret = none) :
    processedKeys (setupLoop ext d cfg device netnsFd ts st).log
      = ts.map (progKeyOf device) := by
  induction ts generalizing st with
  | nil => simp [setupLoop, processedKeys]
  | cons t rest ih =>
    simp only [setupLoop] at h ⊢
    cases he : (setupStep ext d cfg device netnsFd st t).ret with
    | some err => simp [he] at h
    | none =>
      simp only [he] at h ⊢
      have h1 := setupStep_processedKeys ext d cfg device netnsFd st t
      have h2 := ih _ h
      simp only [processedKeys] at h1 h2 ⊢
      simp [List.filterMap_append, h1, h2]

theorem setupStep_noFatal (st : SetupState W) (t : Probe)
    (h : ∀ ev ∈ (setupStep ext d cfg device netnsFd st t).log, ev.isFatalClone = false) :
    (setupStep ext d cfg device netnsFd st t).ret = none
    ∧ (setupStep ext d cfg device netnsFd st t).state.combinedErr
      = st.combinedErr ++ cloneFailures (setupStep ext d cfg device netnsFd st t).log := by
  rcases setupStep_cases ext d cfg device netnsFd st t with
    ⟨p, hp, e⟩ | ⟨w, err, _, _, hl, e⟩ | ⟨w, err, _, _, hl, e⟩ | ⟨w, _, _, e⟩
  all_goals rw [e] at h ⊢
  · simp [cloneFailures, Event.cloneFailure]
  · simp [Event.isFatalClone, hl] at h
  · simp [cloneFailures, Event.cloneFailure, progKeyOf]
  · simp [cloneFailures, Event.cloneFailure]

theorem setupLoop_noFatal (ts : List Probe) (st : SetupState W)
    (h : ∀ ev ∈ (setupLoop ext d cfg device netnsFd ts st).log, ev.isFatalClone = false) :
    (setupLoop ext d cfg device netnsFd ts st).ret = none
    ∧ (setupLoop ext d cfg device netnsFd ts st).state.combinedErr
      = st.combinedErr ++ cloneFailures (setupLoop ext d cfg device netnsFd ts st).log := by
  induction ts generalizing st with
  | nil => simp [setupLoop, cloneFailures]
  | cons t rest ih =>
    simp only [setupLoop] at h ⊢
    cases he : (setupStep ext d cfg device netnsFd st t).ret with
    | some err =>
      simp only [he] at h
      have := (setupStep_noFatal ext d cfg device netnsFd st t h).1
      simp [he] at this
    | none =>
      simp only [he, List.mem_append] at h ⊢
      have h1 := setupStep_noFatal ext d cfg device netnsFd st t (fun ev hev => h ev (Or.inl hev))
      have h2 := ih (setupStep ext d cfg device netnsFd st t).state
        (fun ev hev => h ev (Or.inr hev))
      refine ⟨h2.1, ?_⟩
      rw [h2.2, h1.2]
      simp [cloneFailures, List.filterMap_append]

theorem cloneFailures_length (log : List Event) :
    (cloneFailures log).length = log.countP Event.isFailedClone := by
  induction log with
  | nil => rfl
  | cons ev rest ih =>
    simp only [cloneFailures] at ih
    cases ev with
    | clone key uid probe editors res =>
      cases res with
      | none => simp [cloneFailures, Event.cloneFailure, Event.isFailedClone, ih]
      | some err => simp [cloneFailures, Event.cloneFailure, Event.isFailedClone, ih]
    | _ => simp [cloneFailures, Event.cloneFailure, Event.isFailedClone, ih]

theorem cloneFailures_eq_nil_iff (log : List Event) :
    cloneFailures log = [] ↔ ∀ ev ∈ log, ev.isFailedClone = false := by
  rw [← List.length_eq_zero, cloneFailures_length, List.countP_eq_zero]
  simp

/-- A call to setup on a resolver that already holds the key of every template
of the catalog only skips. -/
theorem setup_all_present (tcr : Resolver) (w : W)
    (h : ∀ t ∈ ext.GetTCProbes tcr.config.NetworkIngressEnabled
        tcr.config.NetworkRawPacketEnabled,
      (tcr.programs.get? (progKeyOf device t)).isSome) :
    SetupNewTCClassifierWithNetNSHandle ext d tcr device netnsFd w
      = { tcr := tcr
          world := w
          log := (ext.GetTCProbes tcr.config.NetworkIngressEnabled
            tcr.config.NetworkRawPacketEnabled).map (fun t => Event.skip (progKeyOf device t))
          err := none } := by
  unfold SetupNewTCClassifierWithNetNSHandle
  rw [setupLoop_present ext d tcr.config device netnsFd _ _ h]
  simp [ErrorOrNil]

end SetupLemmas

/-! ## Theorems on setup -/

/-- C1 (idempotent setup). After a call to setup in which no call to
`CloneProgram` failed (every template was skipped or cloned), a second call
for the same device on the resulting resolver, with any driver, world and
namespace handle, leaves the resolver unchanged, makes no call to
`CloneProgram` (it skips every template of the catalog, in order, and leaves
the world alone) and returns nil; and a map with one entry per key has one
entry per key after both calls. -/
theorem setup_idempotent {W W2 : Type} (ext : Externals) (d : Driver W) (d2 : Driver W2)
    (tcr : Resolver) (device : NetDevice) (netnsFd netnsFd2 : Nat) (w : W) (w2 : W2)
    (h : ∀ ev ∈ (SetupNewTCClassifierWithNetNSHandle ext d tcr device netnsFd w).log,
      ev.isFailedClone = false) :
    (SetupNewTCClassifierWithNetNSHandle ext d2
        (SetupNewTCClassifierWithNetNSHandle ext d tcr device netnsFd w).tcr
        device netnsFd2 w2).tcr
      = (SetupNewTCClassifierWithNetNSHandle ext d tcr device netnsFd w).tcr
    ∧ (∀ ev ∈ (SetupNewTCClassifierWithNetNSHandle ext d2
        (SetupNewTCClassifierWithNetNSHandle ext d tcr device netnsFd w).tcr
        device netnsFd2 w2).log, ev.isClone = false)
    ∧ (SetupNewTCClassifierWithNetNSHandle ext d2
        (SetupNewTCClassifierWithNetNSHandle ext d tcr device netnsFd w).tcr
        device netnsFd2 w2).log
      = (ext.GetTCProbes tcr.config.NetworkIngressEnabled tcr.config.NetworkRawPacketEnabled).map
          (fun t => Event.skip (progKeyOf device t))
    ∧ (SetupNewTCClassifierWithNetNSHandle ext d2
        (SetupNewTCClassifierWithNetNSHandle ext d tcr device netnsFd w).tcr
        device netnsFd2 w2).err = none
    ∧ (SetupNewTCClassifierWithNetNSHandle ext d2
        (SetupNewTCClassifierWithNetNSHandle ext d tcr device netnsFd w).tcr
        device netnsFd2 w2).world = w2
    ∧ (tcr.programs.WF →
        (SetupNewTCClassifierWithNetNSHandle ext d tcr device netnsFd w).tcr.programs.WF
        ∧ (SetupNewTCClassifierWithNetNSHandle ext d2
            (SetupNewTCClassifierWithNetNSHandle ext d tcr device netnsFd w).tcr
            device netnsFd2 w2).tcr.programs.WF) := by
  have hc := setupLoop_clean ext d tcr.config device netnsFd
    (ext.GetTCProbes tcr.config.NetworkIngressEnabled tcr.config.NetworkRawPacketEnabled)
    { programs := tcr.programs, world := w, combinedErr := [] } h
  have hwf : tcr.programs.WF →
      (SetupNewTCClassifierWithNetNSHandle ext d tcr device netnsFd w).tcr.programs.WF :=
    fun hw => setupLoop_WF ext d tcr.config device netnsFd _ _ hw
  have e2 := setup_all_present ext d2 device netnsFd2
    (SetupNewTCClassifierWithNetNSHandle ext d tcr device netnsFd w).tcr w2 hc.2.2
  have hcfg : (SetupNewTCClassifierWithNetNSHandle ext d tcr device netnsFd w).tcr.config
      = tcr.config := rfl
  rw [hcfg] at e2
  rw [e2]
  refine ⟨rfl, ?_, rfl, rfl, rfl, fun hw => ⟨hwf hw, hwf hw⟩⟩
  intro ev hev
  simp only [List.mem_map] at hev
  obtain ⟨t, _, rfl⟩ := hev
  rfl

/-- Witness of C1 on the example catalog: three templates cloned by a
driver that never fails, then a second call through a driver that would fail. -/
theorem setup_idempotent_witness :
    (∀ ev ∈ (SetupNewTCClassifierWithNetNSHandle exExt exDriverOk exResolver exDevice 3 0).log,
      ev.isFailedClone = false)
    ∧ (SetupNewTCClassifierWithNetNSHandle exExt exDriverFatal
        (SetupNewTCClassifierWithNetNSHandle exExt exDriverOk exResolver exDevice 3 0).tcr
        exDevice 4 7).tcr
      = (SetupNewTCClassifierWithNetNSHandle exExt exDriverOk exResolver exDevice 3 0).tcr
    ∧ (SetupNewTCClassifierWithNetNSHandle exExt exDriverFatal
        (SetupNewTCClassifierWithNetNSHandle exExt exDriverOk exResolver exDevice 3 0).tcr
        exDevice 4 7).err = none :=
  ⟨by decide,
    (setup_idempotent exExt exDriverOk exDriverFatal exResolver exDevice 3 4 0 7 (by decide)).1,
    (setup_idempotent exExt exDriverOk exDriverFatal exResolver exDevice 3 4 0 7
      (by decide)).2.2.2.1⟩

/-- C3 (fatal short-circuit). Let the catalog be `pre ++ t :: post`. If the
loop of setup runs through `pre` without returning, the key of `t` is not in
the map at that point, and `CloneProgram` for `t` returns an error `err` that
is a link-not-found error, then setup returns exactly `err` (not the
aggregate, whatever errors were collected during `pre`), its log is the log
of `pre` followed by the failed call for `t` and nothing else, the templates
it handled are exactly those of `pre ++ [t]` in catalog order, and the map is
the one the loop had built after `pre`. -/
theorem setup_fatal_short_circuit {W : Type} (ext : Externals) (d : Driver W) (tcr : Resolver)
    (device : NetDevice) (netnsFd : Nat) (w w1 : W) (pre post : List Probe) (t : Probe)
    (err : GoError)
    (hcat : ext.GetTCProbes tcr.config.NetworkIngressEnabled tcr.config.NetworkRawPacketEnabled
      = pre ++ t :: post)
    (hpre : (setupLoop ext d tcr.config device netnsFd pre
      { programs := tcr.programs, world := w, combinedErr := [] }).ret = none)
    (habsent : (setupLoop ext d tcr.config device netnsFd pre
      { programs := tcr.programs, world := w, combinedErr := [] }).state.programs.get?
        (progKeyOf device t) = none)
    (hclone : d.CloneProgram
      (setupLoop ext d tcr.config device netnsFd pre
        { programs := tcr.programs, world := w, combinedErr := [] }).state.world
      ext.SecurityAgentUID (newProbeOf ext tcr.config device netnsFd t) (netnsEditorOf device)
        = (w1, some err))
    (hfatal : err.asLinkNotFound = true) :
    (SetupNewTCClassifierWithNetNSHandle ext d tcr device netnsFd w).err
      = some (SetupError.direct err)
    ∧ (SetupNewTCClassifierWithNetNSHandle ext d tcr device netnsFd w).log
      = (setupLoop ext d tcr.config device netnsFd pre
          { programs := tcr.programs, world := w, combinedErr := [] }).log
        ++ [Event.clone (progKeyOf device t) ext.SecurityAgentUID
          (newProbeOf ext tcr.config device netnsFd t) (netnsEditorOf device) (some err)]
    ∧ processedKeys (SetupNewTCClassifierWithNetNSHandle ext d tcr device netnsFd w).log
      = (pre ++ [t]).map (progKeyOf device)
    ∧ (SetupNewTCClassifierWithNetNSHandle ext d tcr device netnsFd w).tcr.programs
      = (setupLoop ext d tcr.config device netnsFd pre
          { programs := tcr.programs, world := w, combinedErr := [] }).state.programs
    ∧ (SetupNewTCClassifierWithNetNSHandle ext d tcr device netnsFd w).world = w1 := by
  have hstep := setupStep_fatal ext d tcr.config device netnsFd _ t w1 err habsent hclone hfatal
  have hk := setupLoop_processedKeys ext d tcr.config device netnsFd pre _ hpre
  have hrun : setupLoop ext d tcr.config device netnsFd (pre ++ t :: post)
      { programs := tcr.programs, world := w, combinedErr := [] }
      = { state := { (setupLoop ext d tcr.config device netnsFd pre
              { programs := tcr.programs, world := w, combinedErr := [] }).state with world := w1 }
          log := (setupLoop ext d tcr.config device netnsFd pre
              { programs := tcr.programs, world := w, combinedErr := [] }).log
            ++ [Event.clone (progKeyOf device t) ext.SecurityAgentUID
              (newProbeOf ext tcr.config device netnsFd t) (netnsEditorOf device) (some err)]
          ret := some err } := by
    rw [setupLoop_append ext d tcr.config device netnsFd pre (t :: post) _ hpre]
    simp [setupLoop, hstep]
  unfold SetupNewTCClassifierWithNetNSHandle
  rw [hcat, hrun]
  refine ⟨rfl, rfl, ?_, rfl, rfl⟩
  simp only [processedKeys] at hk ⊢
  simp [List.filterMap_append, hk, Event.processedKey]

/-- Witness of C3 on the example catalog: the first template fails with a
recoverable error, the second with a link-not-found error, the third is never
attempted. -/
theorem setup_fatal_short_circuit_witness :
    (SetupNewTCClassifierWithNetNSHandle exExt exDriverFatal exResolver exDevice 3 0).err
      = some (SetupError.direct (GoError.linkNotFound "Link not found"))
    ∧ processedKeys
        (SetupNewTCClassifierWithNetNSHandle exExt exDriverFatal exResolver exDevice 3 0).log
      = ([exTemplate "classifier_egress" 65523]
          ++ [exTemplate "classifier_raw_packet_egress" 65523]).map (progKeyOf exDevice) :=
  ⟨(setup_fatal_short_circuit exExt exDriverFatal exResolver exDevice 3 0 2
      [exTemplate "classifier_egress" 65523] [exTemplate "classifier_ingress" 65522]
      (exTemplate "classifier_raw_packet_egress" 65523) (GoError.linkNotFound "Link not found")
      (by decide) (by decide) (by decide) (by decide) (by decide)).1,
   (setup_fatal_short_circuit exExt exDriverFatal exResolver exDevice 3 0 2
      [exTemplate "classifier_egress" 65523] [exTemplate "classifier_ingress" 65522]
      (exTemplate "classifier_raw_packet_egress" 65523) (GoError.linkNotFound "Link not found")
      (by decide) (by decide) (by decide) (by decide) (by decide)).2.2.1⟩

/-! ## Lemmas on the namespace flush -/

section FlushLemmas

variable {W : Type} (d : Driver W) (namespaceID : Nat)

theorem flushLoop_programs (l : List (ProgramKey × Probe)) (st : FlushState W) :
    (flushLoop d namespaceID l st).1.programs
      = st.programs.filter (fun e =>
          !(decide (e.1.NetDevice.NetNS = namespaceID) && decide (e.1 ∈ l.map Prod.fst))) := by
  induction l generalizing st with
  | nil => simp [flushLoop]
  | cons hd tl ih =>
    obtain ⟨k, p⟩ := hd
    by_cases hk : k.NetDevice.NetNS = namespaceID
    · simp only [flushLoop, hk, if_true]
      rw [ih]
      simp only [ProgramMap.delete, List.filter_filter]
      apply List.filter_congr
      intro e _
      by_cases hek : e.1 = k
      · simp [hek, hk]
      · have hb : (e.1 == k) = false := by simpa using hek
        simp [hb, hek]
    · simp only [flushLoop, hk, if_false]
      rw [ih]
      apply List.filter_congr
      intro e _
      by_cases hek : e.1 = k
      · simp [hek, hk]
      · have hb : (e.1 == k) = false := by simpa using hek
        simp [hb, hek]

theorem flushLoop_detachCalls (l : List (ProgramKey × Probe)) (st : FlushState W) :
    detachCalls (flushLoop d namespaceID l st).2
      = (l.filter (fun e => decide (e.1.NetDevice.NetNS = namespaceID))).map
          (fun e => (e.1, e.2.ProbeIdentificationPair)) := by
  induction l generalizing st with
  | nil => simp [flushLoop, detachCalls]
  | cons hd tl ih =>
    obtain ⟨k, p⟩ := hd
    simp only [detachCalls] at ih
    by_cases hk : k.NetDevice.NetNS = namespaceID
    · simp [flushLoop, hk, detachCalls, Event.detachCall, ih]
    · simp [flushLoop, hk, detachCalls, ih]

theorem flush_programs (tcr : Resolver) (w : W) :
    (FlushNetworkNamespaceID d tcr namespaceID w).tcr.programs
      = tcr.programs.filter (fun e => decide (e.1.NetDevice.NetNS ≠ namespaceID)) := by
  unfold FlushNetworkNamespaceID
  simp only [flushLoop_programs]
  apply List.filter_congr
  intro e he
  have hmem : e.1 ∈ List.map Prod.fst tcr.programs := List.mem_map_of_mem Prod.fst he
  simp [hmem]

end FlushLemmas

/-! ## Theorems on the namespace flush and on name resolution -/

/-- C2 (flush completeness). For every resolver, namespace ID and driver,
no entry of the map left by `FlushNetworkNamespaceID` has a device of that
namespace. -/
theorem flush_complete {W : Type} (d : Driver W) (tcr : Resolver) (namespaceID : Nat) (w : W) :
    ∀ e ∈ (FlushNetworkNamespaceID d tcr namespaceID w).tcr.programs,
      e.1.NetDevice.NetNS ≠ namespaceID := by
  intro e he
  rw [flush_programs] at he
  simpa using (List.mem_filter.mp he).2

/-- Witness of C2: after the flush of the namespace 100 on six entries over
two devices, the egress classifier of the device of the namespace 200 is
still in the map, and its namespace is not 100. -/
theorem flush_complete_witness :
    (progKeyOf exDevice2 (exTemplate "classifier_egress" 65523),
        newProbeOf exExt exConfig exDevice2 4 (exTemplate "classifier_egress" 65523))
      ∈ (FlushNetworkNamespaceID exDriverOk exResolverTwoDevices 100 0).tcr.programs
    ∧ (progKeyOf exDevice2 (exTemplate "classifier_egress" 65523)).NetDevice.NetNS ≠ 100 :=
  ⟨by decide,
    flush_complete exDriverOk exResolverTwoDevices 100 0
      (progKeyOf exDevice2 (exTemplate "classifier_egress" 65523),
        newProbeOf exExt exConfig exDevice2 4 (exTemplate "classifier_egress" 65523))
      (by decide)⟩

/-- C9 (flush is total and swallows detach failures). The calls to
`DetachHook` made by `FlushNetworkNamespaceID` are, in iteration order, one
per entry of the namespace, each with the identification pair of that entry,
and the map that is left is the prior map without the entries of the
namespace, whatever `DetachHook` returns. The function is total and its
result has no error component. -/
theorem flush_detaches_once_and_removes {W : Type} (d : Driver W) (tcr : Resolver)
    (namespaceID : Nat) (w : W) :
    detachCalls (FlushNetworkNamespaceID d tcr namespaceID w).log
      = (tcr.programs.filter (fun e => decide (e.1.NetDevice.NetNS = namespaceID))).map
          (fun e => (e.1, e.2.ProbeIdentificationPair))
    ∧ (FlushNetworkNamespaceID d tcr namespaceID w).tcr.programs
      = tcr.programs.filter (fun e => decide (e.1.NetDevice.NetNS ≠ namespaceID))
    ∧ (FlushNetworkNamespaceID d tcr namespaceID w).tcr.config = tcr.config :=
  ⟨flushLoop_detachCalls d namespaceID tcr.programs _, flush_programs d namespaceID tcr w, rfl⟩

theorem resolveLoop_spec (ifIndex netNS : Nat) (l : List (ProgramKey × Probe)) :
    ((resolveLoop ifIndex netNS l).2 = true
      ↔ ∃ e ∈ l, e.1.NetDevice.IfIndex = ifIndex ∧ e.1.NetDevice.NetNS = netNS)
    ∧ ((resolveLoop ifIndex netNS l).2 = true →
      ∃ e ∈ l, e.1.NetDevice.IfIndex = ifIndex ∧ e.1.NetDevice.NetNS = netNS
        ∧ (resolveLoop ifIndex netNS l).1 = e.1.NetDevice.Name)
    ∧ ((resolveLoop ifIndex netNS l).2 = false → resolveLoop ifIndex netNS l = ("", false)) := by
  induction l with
  | nil => simp [resolveLoop]
  | cons hd tl ih =>
    obtain ⟨k, p⟩ := hd
    by_cases h : k.NetDevice.IfIndex = ifIndex ∧ k.NetDevice.NetNS = netNS
    · simp only [resolveLoop, h, and_self, if_true]
      refine ⟨⟨fun _ => ⟨(k, p), List.mem_cons_self _ _, h⟩, fun _ => trivial⟩, ?_, ?_⟩
      · intro _
        exact ⟨(k, p), List.mem_cons_self _ _, h.1, h.2, rfl⟩
      · intro hf
        simp at hf
    · simp only [resolveLoop, h, if_false]
      obtain ⟨ih1, ih2, ih3⟩ := ih
      refine ⟨?_, ?_, ih3⟩
      · rw [ih1]
        constructor
        · rintro ⟨e, he, hm⟩
          exact ⟨e, List.mem_cons_of_mem _ he, hm⟩
        · rintro ⟨e, he, hm⟩
          rcases List.mem_cons.mp he with rfl | he
          · exact absurd hm h
          · exact ⟨e, he, hm⟩
      · intro ht
        obtain ⟨e, he, hm⟩ := ih2 ht
        exact ⟨e, List.mem_cons_of_mem _ he, hm⟩

/-- C10 (name resolution). `ResolveNetworkDeviceIfName` reports found exactly
when the map has an entry whose device has the given interface index and
namespace; when it reports found, the name it returns is the device name
stored in the key of such an entry; otherwise it returns the empty name and
false. The result is a pair of a name and a flag only: the function reads
the resolver, returns no error and no new state. -/
theorem resolve_name_spec (tcr : Resolver) (ifIndex netNS : Nat) :
    ((ResolveNetworkDeviceIfName tcr ifIndex netNS).2 = true
      ↔ ∃ e ∈ tcr.programs, e.1.NetDevice.IfIndex = ifIndex ∧ e.1.NetDevice.NetNS = netNS)
    ∧ ((ResolveNetworkDeviceIfName tcr ifIndex netNS).2 = true →
      ∃ e ∈ tcr.programs, e.1.NetDevice.IfIndex = ifIndex ∧ e.1.NetDevice.NetNS = netNS
        ∧ (ResolveNetworkDeviceIfName tcr ifIndex netNS).1 = e.1.NetDevice.Name)
    ∧ ((¬ ∃ e ∈ tcr.programs, e.1.NetDevice.IfIndex = ifIndex ∧ e.1.NetDevice.NetNS = netNS) →
      ResolveNetworkDeviceIfName tcr ifIndex netNS = ("", false)) := by
  obtain ⟨h1, h2, h3⟩ := resolveLoop_spec ifIndex netNS tcr.programs
  refine ⟨h1, h2, ?_⟩
  intro hn
  apply h3
  cases hb : (resolveLoop ifIndex netNS tcr.programs).2 with
  | false => rfl
  | true => exact absurd (h1.mp hb) hn

/-! ## Lemmas on the staleness sweep -/

theorem HardwareAddrString_eq_empty (a : List Nat) : HardwareAddrString a = "" ↔ a = [] := by
  cases a with
  | nil => simp [HardwareAddrString]
  | cons b rest =>
    simp only [HardwareAddrString, hexByte, reduceCtorEq, iff_false]
    intro h
    have h2 := congrArg String.data h
    simp at h2

theorem CountMap.get_incr (c : CountMap) (k n : Nat) :
    (CountMap.incr c k).get n = if k = n then c.get n + 1 else c.get n := by
  induction c with
  | nil =>
    by_cases h : k = n <;> simp [CountMap.incr, CountMap.get, h]
  | cons hd tl ih =>
    obtain ⟨k1, v1⟩ := hd
    by_cases h1 : k1 = k
    · subst h1
      by_cases h : k1 = n <;> simp [CountMap.incr, CountMap.get, h]
    · by_cases h2 : k1 = n
      · subst h2
        have h3 : ¬ k = k1 := fun h3 => h1 h3.symm
        simp [CountMap.incr, CountMap.get, h1, h3]
      · simp [CountMap.incr, CountMap.get, h1, h2, ih]

section SweepLemmas

variable {W : Type} (d : Driver W) (isLazy : String → Bool)

theorem sweepLoop_inactive (k : ProgramKey) (p : Probe) (rest : List (ProgramKey × Probe))
    (st : FlushState W) (c : CountMap) (ha : (d.IsTCFilterActive st.world p).2 = false) :
    sweepLoop d isLazy ((k, p) :: rest) st c
      = { state := (sweepLoop d isLazy rest
            { programs := st.programs.delete k
              world := (d.DetachHook (d.IsTCFilterActive st.world p).1
                p.ProbeIdentificationPair).1 } c).state
          log := Event.isTCFilterActive k p false
            :: Event.removeProgramID (d.ID (d.IsTCFilterActive st.world p).1 p) "cws"
            :: Event.detachHook k p.ProbeIdentificationPair
                (d.DetachHook (d.IsTCFilterActive st.world p).1 p.ProbeIdentificationPair).2
            :: (sweepLoop d isLazy rest
                { programs := st.programs.delete k
                  world := (d.DetachHook (d.IsTCFilterActive st.world p).1
                    p.ProbeIdentificationPair).1 } c).log
          counts := (sweepLoop d isLazy rest
            { programs := st.programs.delete k
              world := (d.DetachHook (d.IsTCFilterActive st.world p).1
                p.ProbeIdentificationPair).1 } c).counts } := by
  simp [sweepLoop, ha]

theorem sweepLoop_unresolved (k : ProgramKey) (p : Probe) (rest : List (ProgramKey × Probe))
    (st : FlushState W) (c : CountMap) (err : GoError)
    (ha : (d.IsTCFilterActive st.world p).2 = true)
    (hl : (d.ResolveLink (d.IsTCFilterActive st.world p).1 p).2 = ResolveResult.error err) :
    sweepLoop d isLazy ((k, p) :: rest) st c
      = { state := { st with world := (d.ResolveLink (d.IsTCFilterActive st.world p).1 p).1 }
          log := [Event.isTCFilterActive k p true,
            Event.resolveLink k p (ResolveResult.error err)]
          counts := none } := by
  simp [sweepLoop, ha, hl]

theorem sweepLoop_addressed (k : ProgramKey) (p : Probe) (rest : List (ProgramKey × Probe))
    (st : FlushState W) (c : CountMap) (link : Link)
    (ha : (d.IsTCFilterActive st.world p).2 = true)
    (hl : (d.ResolveLink (d.IsTCFilterActive st.world p).1 p).2 = ResolveResult.ok link)
    (hh : link.Attrs.HardwareAddr ≠ []) :
    sweepLoop d isLazy ((k, p) :: rest) st c
      = { state := (sweepLoop d isLazy rest
            { st with world := (d.ResolveLink (d.IsTCFilterActive st.world p).1 p).1 }
            (if !isLazy link.Attrs.Name then c.incr k.NetDevice.NetNS else c)).state
          log := Event.isTCFilterActive k p true
            :: Event.resolveLink k p (ResolveResult.ok link)
            :: Event.isLazy link.Attrs.Name (isLazy link.Attrs.Name)
            :: (sweepLoop d isLazy rest
                { st with world := (d.ResolveLink (d.IsTCFilterActive st.world p).1 p).1 }
                (if !isLazy link.Attrs.Name then c.incr k.NetDevice.NetNS else c)).log
          counts := (sweepLoop d isLazy rest
            { st with world := (d.ResolveLink (d.IsTCFilterActive st.world p).1 p).1 }
            (if !isLazy link.Attrs.Name then c.incr k.NetDevice.NetNS else c)).counts } := by
  have hs : ¬ HardwareAddrString link.Attrs.HardwareAddr = "" :=
    fun h => hh ((HardwareAddrString_eq_empty _).mp h)
  simp [sweepLoop, ha, hl, hs]

theorem sweepLoop_unaddressed (k : ProgramKey) (p : Probe) (rest : List (ProgramKey × Probe))
    (st : FlushState W) (c : CountMap) (link : Link)
    (ha : (d.IsTCFilterActive st.world p).2 = true)
    (hl : (d.ResolveLink (d.IsTCFilterActive st.world p).1 p).2 = ResolveResult.ok link)
    (hh : link.Attrs.HardwareAddr = []) :
    sweepLoop d isLazy ((k, p) :: rest) st c
      = { state := (sweepLoop d isLazy rest
            { st with world := (d.ResolveLink (d.IsTCFilterActive st.world p).1 p).1 } c).state
          log := Event.isTCFilterActive k p true
            :: Event.resolveLink k p (ResolveResult.ok link)
            :: (sweepLoop d isLazy rest
                { st with world := (d.ResolveLink (d.IsTCFilterActive st.world p).1 p).1 } c).log
          counts := (sweepLoop d isLazy rest
            { st with world := (d.ResolveLink (d.IsTCFilterActive st.world p).1 p).1 }
            c).counts } := by
  have hs : HardwareAddrString link.Attrs.HardwareAddr = "" :=
    (HardwareAddrString_eq_empty _).mpr hh
  simp [sweepLoop, ha, hl, hs]

theorem ProgramMap.delete_middle (kept rest : List (ProgramKey × Probe)) (k : ProgramKey)
    (p : Probe) (h : ProgramMap.WF (kept ++ (k, p) :: rest)) :
    ProgramMap.delete (kept ++ (k, p) :: rest) k = kept ++ rest := by
  have h1 : (kept.map Prod.fst ++ k :: rest.map Prod.fst).Nodup := by
    simpa [ProgramMap.WF, ProgramMap.keys] using h
  obtain ⟨_, h3, h4⟩ := List.nodup_append.mp h1
  have hk1 : k ∉ kept.map Prod.fst := fun hm => h4 hm (List.mem_cons_self _ _)
  have hk2 : k ∉ rest.map Prod.fst := (List.nodup_cons.mp h3).1
  have e1 : kept.filter (fun e => !decide (e.1 = k)) = kept := by
    apply List.filter_eq_self.mpr
    intro e he
    have : e.1 ≠ k := fun hek => hk1 (hek ▸ List.mem_map_of_mem Prod.fst he)
    simpa using this
  have e2 : rest.filter (fun e => !decide (e.1 = k)) = rest := by
    apply List.filter_eq_self.mpr
    intro e he
    have : e.1 ≠ k := fun hek => hk2 (hek ▸ List.mem_map_of_mem Prod.fst he)
    simpa using this
  simp [ProgramMap.delete, List.filter_append, List.filter_cons, e1, e2]

theorem ProgramMap.WF_remove_middle (kept rest : List (ProgramKey × Probe)) (k : ProgramKey)
    (p : Probe) (h : ProgramMap.WF (kept ++ (k, p) :: rest)) : ProgramMap.WF (kept ++ rest) := by
  have h1 : (kept.map Prod.fst ++ k :: rest.map Prod.fst).Nodup := by
    simpa [ProgramMap.WF, ProgramMap.keys] using h
  have h2 : (kept.map Prod.fst ++ rest.map Prod.fst).Nodup :=
    h1.sublist (List.Sublist.append_left (List.sublist_cons_self _ _) _)
  simpa [ProgramMap.WF, ProgramMap.keys] using h2

theorem sweepLoop_conservation (l kept : List (ProgramKey × Probe)) (st : FlushState W)
    (c c2 : CountMap) (hst : st.programs = kept ++ l) (hwf : ProgramMap.WF (kept ++ l))
    (hret : (sweepLoop d isLazy l st c).counts = some c2) :
    (activeReports (sweepLoop d isLazy l st c).log).map Prod.fst = l
    ∧ (sweepLoop d isLazy l st c).state.programs
      = kept ++ ((activeReports (sweepLoop d isLazy l st c).log).filter
          (fun r => r.2)).map Prod.fst := by
  induction l generalizing kept st c with
  | nil => simp [sweepLoop, activeReports, hst]
  | cons hd tl ih =>
    obtain ⟨k, p⟩ := hd
    cases ha : (d.IsTCFilterActive st.world p).2 with
    | false =>
      rw [sweepLoop_inactive d isLazy k p tl st c ha] at hret ⊢
      have hdel : st.programs.delete k = kept ++ tl := by
        rw [hst]; exact ProgramMap.delete_middle kept tl k p hwf
      obtain ⟨i1, i2⟩ := ih kept
        { programs := st.programs.delete k
          world := (d.DetachHook (d.IsTCFilterActive st.world p).1
            p.ProbeIdentificationPair).1 } c hdel
        (ProgramMap.WF_remove_middle kept tl k p hwf) hret
      simp only [activeReports] at i1 i2 ⊢
      simp [Event.activeReport, i1, i2]
    | true =>
      cases hl : (d.ResolveLink (d.IsTCFilterActive st.world p).1 p).2 with
      | error err =>
        rw [sweepLoop_unresolved d isLazy k p tl st c err ha hl] at hret
        simp at hret
      | ok link =>
        have hst2 : st.programs = (kept ++ [(k, p)]) ++ tl := by simp [hst]
        have hwf2 : ProgramMap.WF ((kept ++ [(k, p)]) ++ tl) := by simpa using hwf
        by_cases hh : link.Attrs.HardwareAddr = []
        · rw [sweepLoop_unaddressed d isLazy k p tl st c link ha hl hh] at hret ⊢
          obtain ⟨i1, i2⟩ := ih (kept ++ [(k, p)])
            { programs := st.programs
              world := (d.ResolveLink (d.IsTCFilterActive st.world p).1 p).1 } c hst2 hwf2 hret
          simp only [activeReports] at i1 i2 ⊢
          simp [Event.activeReport, i1, i2]
        · rw [sweepLoop_addressed d isLazy k p tl st c link ha hl hh] at hret ⊢
          obtain ⟨i1, i2⟩ := ih (kept ++ [(k, p)])
            { programs := st.programs
              world := (d.ResolveLink (d.IsTCFilterActive st.world p).1 p).1 } _ hst2 hwf2 hret
          simp only [activeReports] at i1 i2 ⊢
          refine ⟨?_, ?_⟩
          · simpa [Event.activeReport] using i1
          · simpa [Event.activeReport] using i2

theorem countsAsLive_of_events (log : List Event) (k : ProgramKey) (p : Probe) (link : Link)
    (h1 : Event.isTCFilterActive k p true ∈ log)
    (h2 : Event.resolveLink k p (ResolveResult.ok link) ∈ log)
    (hh : link.Attrs.HardwareAddr ≠ []) (hz : isLazy link.Attrs.Name = false) :
    countsAsLive isLazy log (k, p) = true := by
  unfold countsAsLive
  simp only [Bool.and_eq_true, decide_eq_true_eq, List.any_eq_true]
  exact ⟨h1, _, h2, by simp [Event.resolvesLive, hh, hz]⟩

theorem sweepLoop_count_bound (n : Nat) (l : List (ProgramKey × Probe)) (st : FlushState W)
    (c c2 : CountMap) (full : List Event)
    (hret : (sweepLoop d isLazy l st c).counts = some c2)
    (hsub : ∀ ev ∈ (sweepLoop d isLazy l st c).log, ev ∈ full) :
    c2.get n ≤ c.get n + (l.filter (fun e =>
      decide (e.1.NetDevice.NetNS = n) && countsAsLive isLazy full e)).length := by
  induction l generalizing st c with
  | nil =>
    simp only [sweepLoop, Option.some.injEq] at hret
    simp [hret]
  | cons hd tl ih =>
    obtain ⟨k, p⟩ := hd
    have hmono : (tl.filter (fun e =>
          decide (e.1.NetDevice.NetNS = n) && countsAsLive isLazy full e)).length
        ≤ (((k, p) :: tl).filter (fun e =>
          decide (e.1.NetDevice.NetNS = n) && countsAsLive isLazy full e)).length :=
      (List.Sublist.filter _ (List.sublist_cons_self (k, p) tl)).length_le
    cases ha : (d.IsTCFilterActive st.world p).2 with
    | false =>
      rw [sweepLoop_inactive d isLazy k p tl st c ha] at hret hsub
      have := ih _ c hret (fun ev hev => hsub ev (by simp [hev]))
      omega
    | true =>
      cases hl : (d.ResolveLink (d.IsTCFilterActive st.world p).1 p).2 with
      | error err =>
        rw [sweepLoop_unresolved d isLazy k p tl st c err ha hl] at hret
        simp at hret
      | ok link =>
        by_cases hh : link.Attrs.HardwareAddr = []
        · rw [sweepLoop_unaddressed d isLazy k p tl st c link ha hl hh] at hret hsub
          have := ih _ c hret (fun ev hev => hsub ev (by simp [hev]))
          omega
        · rw [sweepLoop_addressed d isLazy k p tl st c link ha hl hh] at hret hsub
          have hi := ih _ _ hret (fun ev hev => hsub ev
            (List.mem_cons_of_mem _ (List.mem_cons_of_mem _ (List.mem_cons_of_mem _ hev))))
          cases hz : isLazy link.Attrs.Name with
          | true =>
            simp only [hz, Bool.not_true, Bool.false_eq_true, if_false] at hi
            omega
          | false =>
            simp only [hz, Bool.not_false, if_true, CountMap.get_incr] at hi
            by_cases hn : k.NetDevice.NetNS = n
            · have hlive : countsAsLive isLazy full (k, p) = true :=
                countsAsLive_of_events isLazy full k p link (hsub _ (by simp))
                  (hsub _ (by simp)) hh hz
              have hlen : (((k, p) :: tl).filter (fun e =>
                    decide (e.1.NetDevice.NetNS = n) && countsAsLive isLazy full e)).length
                  = (tl.filter (fun e =>
                    decide (e.1.NetDevice.NetNS = n) && countsAsLive isLazy full e)).length + 1 := by
                simp [List.filter_cons, hn, hlive]
              simp only [hn, if_true] at hi
              omega
            · simp only [hn, if_false] at hi
              omega

/-- The sweep returns a count map exactly when no call to `ResolveLink` failed:
a failed resolution is always followed by the panic on the nil link. -/
theorem sweepLoop_counts_none_iff (l : List (ProgramKey × Probe)) (st : FlushState W)
    (c : CountMap) :
    (sweepLoop d isLazy l st c).counts = none
      ↔ ∃ k p err, Event.resolveLink k p (ResolveResult.error err)
          ∈ (sweepLoop d isLazy l st c).log := by
  induction l generalizing st c with
  | nil => simp [sweepLoop]
  | cons hd tl ih =>
    obtain ⟨k, p⟩ := hd
    cases ha : (d.IsTCFilterActive st.world p).2 with
    | false =>
      rw [sweepLoop_inactive d isLazy k p tl st c ha]
      simp [ih]
    | true =>
      cases hl : (d.ResolveLink (d.IsTCFilterActive st.world p).1 p).2 with
      | error err =>
        rw [sweepLoop_unresolved d isLazy k p tl st c err ha hl]
        simp
      | ok link =>
        by_cases hh : link.Attrs.HardwareAddr = []
        · rw [sweepLoop_unaddressed d isLazy k p tl st c link ha hl hh]
          simp [ih]
        · rw [sweepLoop_addressed d isLazy k p tl st c link ha hl hh]
          simp only [ih]
          simp

end SweepLemmas

section SweepSplitLemmas

variable {W : Type} (d : Driver W) (isLazy : String → Bool)

theorem ProgramMap.delete_sublist (m : ProgramMap) (k : ProgramKey) :
    (ProgramMap.delete m k).Sublist m := by
  unfold ProgramMap.delete
  exact List.filter_sublist _

theorem ProgramMap.not_mem_delete (m : ProgramMap) (k : ProgramKey) (p : Probe) :
    (k, p) ∉ ProgramMap.delete m k := by
  unfold ProgramMap.delete
  intro h
  have := (List.mem_filter.mp h).2
  simp at this

theorem ProgramMap.mem_delete_of_ne (m : ProgramMap) (k : ProgramKey) (x : ProgramKey × Probe)
    (hx : x ∈ m) (hk : x.1 ≠ k) : x ∈ ProgramMap.delete m k := by
  unfold ProgramMap.delete
  exact List.mem_filter.mpr ⟨hx, by simpa using hk⟩

/-- The sweep adds no entry and changes none: the map it leaves is a
sublist of the map it started from. -/
theorem sweepLoop_sublist (l : List (ProgramKey × Probe)) (st : FlushState W) (c : CountMap) :
    (sweepLoop d isLazy l st c).state.programs.Sublist st.programs := by
  induction l generalizing st c with
  | nil => simp [sweepLoop]
  | cons hd tl ih =>
    obtain ⟨k, p⟩ := hd
    cases ha : (d.IsTCFilterActive st.world p).2 with
    | false =>
      rw [sweepLoop_inactive d isLazy k p tl st c ha]
      exact (ih _ c).trans (ProgramMap.delete_sublist _ _)
    | true =>
      cases hl : (d.ResolveLink (d.IsTCFilterActive st.world p).1 p).2 with
      | error err =>
        rw [sweepLoop_unresolved d isLazy k p tl st c err ha hl]
      | ok link =>
        by_cases hh : link.Attrs.HardwareAddr = []
        · rw [sweepLoop_unaddressed d isLazy k p tl st c link ha hl hh]
          exact ih _ c
        · rw [sweepLoop_addressed d isLazy k p tl st c link ha hl hh]
          exact ih _ _

/-- The sweep over `l` keeps the entries whose key is not a key of `l`. -/
theorem sweepLoop_keeps_others (l : List (ProgramKey × Probe)) (st : FlushState W)
    (c : CountMap) (x : ProgramKey × Probe) (hx : x ∈ st.programs)
    (hk : x.1 ∉ l.map Prod.fst) :
    x ∈ (sweepLoop d isLazy l st c).state.programs := by
  induction l generalizing st c with
  | nil => simpa [sweepLoop] using hx
  | cons hd tl ih =>
    obtain ⟨k, p⟩ := hd
    have hk1 : x.1 ≠ k := fun h => hk (by simp [h])
    have hk2 : x.1 ∉ tl.map Prod.fst := fun h => hk (by simp [h])
    cases ha : (d.IsTCFilterActive st.world p).2 with
    | false =>
      rw [sweepLoop_inactive d isLazy k p tl st c ha]
      exact ih _ c (ProgramMap.mem_delete_of_ne _ _ _ hx hk1) hk2
    | true =>
      cases hl : (d.ResolveLink (d.IsTCFilterActive st.world p).1 p).2 with
      | error err =>
        rw [sweepLoop_unresolved d isLazy k p tl st c err ha hl]
        exact hx
      | ok link =>
        by_cases hh : link.Attrs.HardwareAddr = []
        · rw [sweepLoop_unaddressed d isLazy k p tl st c link ha hl hh]
          exact ih _ c hx hk2
        · rw [sweepLoop_addressed d isLazy k p tl st c link ha hl hh]
          exact ih _ _ hx hk2

/-- The world, the calls and the counts of the sweep do not depend on the
map it deletes from. -/
theorem sweepLoop_programs_irrelevant (l : List (ProgramKey × Probe)) (m1 m2 : ProgramMap)
    (w : W) (c : CountMap) :
    (sweepLoop d isLazy l { programs := m1, world := w } c).state.world
      = (sweepLoop d isLazy l { programs := m2, world := w } c).state.world
    ∧ (sweepLoop d isLazy l { programs := m1, world := w } c).log
      = (sweepLoop d isLazy l { programs := m2, world := w } c).log
    ∧ (sweepLoop d isLazy l { programs := m1, world := w } c).counts
      = (sweepLoop d isLazy l { programs := m2, world := w } c).counts := by
  induction l generalizing m1 m2 w c with
  | nil => simp [sweepLoop]
  | cons hd tl ih =>
    obtain ⟨k, p⟩ := hd
    cases ha : (d.IsTCFilterActive w p).2 with
    | false =>
      rw [sweepLoop_inactive d isLazy k p tl { programs := m1, world := w } c ha,
        sweepLoop_inactive d isLazy k p tl { programs := m2, world := w } c ha]
      obtain ⟨i1, i2, i3⟩ := ih (ProgramMap.delete m1 k) (ProgramMap.delete m2 k)
        (d.DetachHook (d.IsTCFilterActive w p).1 p.ProbeIdentificationPair).1 c
      refine ⟨i1, ?_, i3⟩
      dsimp only at i2 ⊢
      rw [i2]
    | true =>
      cases hl : (d.ResolveLink (d.IsTCFilterActive w p).1 p).2 with
      | error err =>
        rw [sweepLoop_unresolved d isLazy k p tl { programs := m1, world := w } c err ha hl,
          sweepLoop_unresolved d isLazy k p tl { programs := m2, world := w } c err ha hl]
        exact ⟨rfl, rfl, rfl⟩
      | ok link =>
        by_cases hh : link.Attrs.HardwareAddr = []
        · rw [sweepLoop_unaddressed d isLazy k p tl { programs := m1, world := w } c link ha hl hh,
            sweepLoop_unaddressed d isLazy k p tl { programs := m2, world := w } c link ha hl hh]
          obtain ⟨i1, i2, i3⟩ := ih m1 m2 (d.ResolveLink (d.IsTCFilterActive w p).1 p).1 c
          refine ⟨i1, ?_, i3⟩
          dsimp only at i2 ⊢
          rw [i2]
        · rw [sweepLoop_addressed d isLazy k p tl { programs := m1, world := w } c link ha hl hh,
            sweepLoop_addressed d isLazy k p tl { programs := m2, world := w } c link ha hl hh]
          obtain ⟨i1, i2, i3⟩ := ih m1 m2 (d.ResolveLink (d.IsTCFilterActive w p).1 p).1
            (if !isLazy link.Attrs.Name then c.incr k.NetDevice.NetNS else c)
          refine ⟨i1, ?_, i3⟩
          dsimp only at i2 ⊢
          rw [i2]

/-- The sweep over `pre ++ rest`, when the sweep over `pre` returns counts,
continues over `rest` from the state and the counts that it leaves. -/
theorem sweepLoop_append_some (pre rest : List (ProgramKey × Probe)) (st : FlushState W)
    (c c1 : CountMap) (h : (sweepLoop d isLazy pre st c).counts = some c1) :
    (sweepLoop d isLazy (pre ++ rest) st c).state
      = (sweepLoop d isLazy rest (sweepLoop d isLazy pre st c).state c1).state
    ∧ (sweepLoop d isLazy (pre ++ rest) st c).counts
      = (sweepLoop d isLazy rest (sweepLoop d isLazy pre st c).state c1).counts := by
  induction pre generalizing st c with
  | nil =>
    simp only [sweepLoop, Option.some.injEq] at h
    simp [sweepLoop, h]
  | cons hd tl ih =>
    obtain ⟨k, p⟩ := hd
    rw [List.cons_append]
    cases ha : (d.IsTCFilterActive st.world p).2 with
    | false =>
      rw [sweepLoop_inactive d isLazy k p tl st c ha] at h ⊢
      rw [sweepLoop_inactive d isLazy k p (tl ++ rest) st c ha]
      exact ih _ c h
    | true =>
      cases hl : (d.ResolveLink (d.IsTCFilterActive st.world p).1 p).2 with
      | error err =>
        rw [sweepLoop_unresolved d isLazy k p tl st c err ha hl] at h
        simp at h
      | ok link =>
        by_cases hh : link.Attrs.HardwareAddr = []
        · rw [sweepLoop_unaddressed d isLazy k p tl st c link ha hl hh] at h ⊢
          rw [sweepLoop_unaddressed d isLazy k p (tl ++ rest) st c link ha hl hh]
          exact ih _ c h
        · rw [sweepLoop_addressed d isLazy k p tl st c link ha hl hh] at h ⊢
          rw [sweepLoop_addressed d isLazy k p (tl ++ rest) st c link ha hl hh]
          exact ih _ _ h

/-- The sweep over `pre ++ rest`, when the sweep over `pre` panics, stops
where the sweep over `pre` stops. -/
theorem sweepLoop_append_none (pre rest : List (ProgramKey × Probe)) (st : FlushState W)
    (c : CountMap) (h : (sweepLoop d isLazy pre st c).counts = none) :
    (sweepLoop d isLazy (pre ++ rest) st c).state = (sweepLoop d isLazy pre st c).state
    ∧ (sweepLoop d isLazy (pre ++ rest) st c).counts = none := by
  induction pre generalizing st c with
  | nil => simp [sweepLoop] at h
  | cons hd tl ih =>
    obtain ⟨k, p⟩ := hd
    rw [List.cons_append]
    cases ha : (d.IsTCFilterActive st.world p).2 with
    | false =>
      rw [sweepLoop_inactive d isLazy k p tl st c ha] at h ⊢
      rw [sweepLoop_inactive d isLazy k p (tl ++ rest) st c ha]
      exact ih _ c h
    | true =>
      cases hl : (d.ResolveLink (d.IsTCFilterActive st.world p).1 p).2 with
      | error err =>
        rw [sweepLoop_unresolved d isLazy k p tl st c err ha hl,
          sweepLoop_unresolved d isLazy k p (tl ++ rest) st c err ha hl]
        exact ⟨rfl, rfl⟩
      | ok link =>
        by_cases hh : link.Attrs.HardwareAddr = []
        · rw [sweepLoop_unaddressed d isLazy k p tl st c link ha hl hh] at h ⊢
          rw [sweepLoop_unaddressed d isLazy k p (tl ++ rest) st c link ha hl hh]
          exact ih _ c h
        · rw [sweepLoop_addressed d isLazy k p tl st c link ha hl hh] at h ⊢
          rw [sweepLoop_addressed d isLazy k p (tl ++ rest) st c link ha hl hh]
          exact ih _ _ h

/-- The entry at the head of the sweep stays exactly when `IsTCFilterActive`
answers true for its probe, provided no later entry has its key. -/
theorem sweepLoop_head (k : ProgramKey) (p : Probe) (post : List (ProgramKey × Probe))
    (st : FlushState W) (c : CountMap) (hx : (k, p) ∈ st.programs)
    (hk : k ∉ post.map Prod.fst) :
    (k, p) ∈ (sweepLoop d isLazy ((k, p) :: post) st c).state.programs
      ↔ (d.IsTCFilterActive st.world p).2 = true := by
  cases ha : (d.IsTCFilterActive st.world p).2 with
  | false =>
    rw [sweepLoop_inactive d isLazy k p post st c ha]
    simp only [Bool.false_eq_true, iff_false]
    intro hin
    exact ProgramMap.not_mem_delete st.programs k p ((sweepLoop_sublist d isLazy post _ c).subset hin)
  | true =>
    simp only [iff_true]
    cases hl : (d.ResolveLink (d.IsTCFilterActive st.world p).1 p).2 with
    | error err =>
      rw [sweepLoop_unresolved d isLazy k p post st c err ha hl]
      exact hx
    | ok link =>
      by_cases hh : link.Attrs.HardwareAddr = []
      · rw [sweepLoop_unaddressed d isLazy k p post st c link ha hl hh]
        exact sweepLoop_keeps_others d isLazy post _ c (k, p) hx hk
      · rw [sweepLoop_addressed d isLazy k p post st c link ha hl hh]
        exact sweepLoop_keeps_others d isLazy post _ _ (k, p) hx hk

end SweepSplitLemmas

/-! ## Theorems on the staleness sweep -/

/-- C5 (sweep conservation). For every map with one entry per key and every
driver, the map that `FlushInactiveProbes` leaves is a sublist of the prior
map: no entry is added and the entries left have their key and probe
unchanged. For a prior map `pre ++ e :: post`, when the sweep gets past
`pre`, the entry `e` is in the map that is left exactly when
`IsTCFilterActive` answers true for its probe in the world left by the sweep
of `pre`: the entries whose filter is reported inactive are gone and those
reported active stay. When the call returns, the sweep has got past every
entry, so that the map left is exactly the list of the prior entries whose
filter was reported active, and `IsTCFilterActive` was asked once per entry,
in iteration order. When the sweep does not get past `pre`, the entries after
`pre` are not asked about and stay. On the example map of six entries with a
driver for which the two ingress classifiers are not active, the four others
stay. -/
theorem sweep_conservation {W : Type} (d : Driver W) (isLazy : String → Bool) (tcr : Resolver)
    (w : W) (hwf : tcr.programs.WF) :
    (FlushInactiveProbes d isLazy tcr w).tcr.programs.Sublist tcr.programs
    ∧ (∀ (pre post : List (ProgramKey × Probe)) (e : ProgramKey × Probe),
        tcr.programs = pre ++ e :: post →
        (FlushInactiveProbes d isLazy { tcr with programs := pre } w).ret ≠ none →
        (e ∈ (FlushInactiveProbes d isLazy tcr w).tcr.programs
          ↔ (d.IsTCFilterActive
              (FlushInactiveProbes d isLazy { tcr with programs := pre } w).world e.2).2 = true))
    ∧ ((FlushInactiveProbes d isLazy tcr w).ret ≠ none →
        ∀ (pre post : List (ProgramKey × Probe)) (e : ProgramKey × Probe),
          tcr.programs = pre ++ e :: post →
          (FlushInactiveProbes d isLazy { tcr with programs := pre } w).ret ≠ none)
    ∧ (∀ (pre post : List (ProgramKey × Probe)) (e : ProgramKey × Probe),
        tcr.programs = pre ++ e :: post →
        (FlushInactiveProbes d isLazy { tcr with programs := pre } w).ret = none →
        e ∈ (FlushInactiveProbes d isLazy tcr w).tcr.programs)
    ∧ (∀ counts, (FlushInactiveProbes d isLazy tcr w).ret = some counts →
        (activeReports (FlushInactiveProbes d isLazy tcr w).log).map Prod.fst = tcr.programs
        ∧ (FlushInactiveProbes d isLazy tcr w).tcr.programs
          = ((activeReports (FlushInactiveProbes d isLazy tcr w).log).filter
              (fun r => r.2)).map Prod.fst)
    ∧ ((FlushInactiveProbes exDriverStale exIsLazy exResolverTwoDevices 0).tcr.programs.map
          (fun e => (e.1.FuncName, e.1.NetDevice.Name))
        = [("classifier_egress", "eth0"), ("classifier_raw_packet_egress", "eth0"),
           ("classifier_egress", "veth1"), ("classifier_raw_packet_egress", "veth1")]) := by
  have hsplit : ∀ (pre post : List (ProgramKey × Probe)) (e : ProgramKey × Probe),
      tcr.programs = pre ++ e :: post →
      e ∈ (sweepLoop d isLazy pre { programs := tcr.programs, world := w } []).state.programs
      ∧ e.1 ∉ post.map Prod.fst
      ∧ (sweepLoop d isLazy pre { programs := tcr.programs, world := w } []).state.world
        = (FlushInactiveProbes d isLazy { tcr with programs := pre } w).world
      ∧ (sweepLoop d isLazy pre { programs := tcr.programs, world := w } []).counts
        = (FlushInactiveProbes d isLazy { tcr with programs := pre } w).ret := by
    intro pre post e hs
    have h1 : (pre.map Prod.fst ++ e.1 :: post.map Prod.fst).Nodup := by
      have := hwf
      rw [hs] at this
      simpa [ProgramMap.WF, ProgramMap.keys] using this
    obtain ⟨_, n2, n3⟩ := List.nodup_append.mp h1
    have hpre : e.1 ∉ pre.map Prod.fst := fun hm => n3 hm (List.mem_cons_self _ _)
    have hpost : e.1 ∉ post.map Prod.fst := (List.nodup_cons.mp n2).1
    obtain ⟨i1, _, i3⟩ := sweepLoop_programs_irrelevant d isLazy pre tcr.programs pre w []
    refine ⟨?_, hpost, i1, i3⟩
    apply sweepLoop_keeps_others d isLazy pre _ [] e _ hpre
    show e ∈ tcr.programs
    rw [hs]
    exact List.mem_append_right _ (List.mem_cons_self _ _)
  refine ⟨?_, ?_, ?_, ?_, ?_, by decide⟩
  · exact sweepLoop_sublist d isLazy tcr.programs { programs := tcr.programs, world := w } []
  · intro pre post e hs hreach
    obtain ⟨m1, m2, m3, m4⟩ := hsplit pre post e hs
    rw [← m4] at hreach
    obtain ⟨c1, hc1⟩ := Option.ne_none_iff_exists'.mp hreach
    have happ := (sweepLoop_append_some d isLazy pre (e :: post)
      { programs := tcr.programs, world := w } [] c1 hc1).1
    have hfin : (FlushInactiveProbes d isLazy tcr w).tcr.programs
        = (sweepLoop d isLazy (e :: post)
            (sweepLoop d isLazy pre { programs := tcr.programs, world := w } []).state
            c1).state.programs := by
      show (sweepLoop d isLazy tcr.programs { programs := tcr.programs, world := w }
        []).state.programs = _
      rw [← happ, ← hs]
    rw [hfin, ← m3]
    obtain ⟨k, p⟩ := e
    exact sweepLoop_head d isLazy k p post _ c1 m1 m2
  · intro hret pre post e hs hnone
    obtain ⟨_, _, _, m4⟩ := hsplit pre post e hs
    rw [← m4] at hnone
    have happ := (sweepLoop_append_none d isLazy pre (e :: post)
      { programs := tcr.programs, world := w } [] hnone).2
    apply hret
    show (sweepLoop d isLazy tcr.programs { programs := tcr.programs, world := w } []).counts
      = none
    rw [← happ, ← hs]
  · intro pre post e hs hnone
    obtain ⟨m1, _, _, m4⟩ := hsplit pre post e hs
    rw [← m4] at hnone
    have happ := (sweepLoop_append_none d isLazy pre (e :: post)
      { programs := tcr.programs, world := w } [] hnone).1
    show e ∈ (sweepLoop d isLazy tcr.programs { programs := tcr.programs, world := w }
      []).state.programs
    have hl : sweepLoop d isLazy tcr.programs { programs := tcr.programs, world := w } []
        = sweepLoop d isLazy (pre ++ e :: post) { programs := tcr.programs, world := w } [] := by
      rw [← hs]
    rw [hl, happ]
    exact m1
  · intro counts hret
    have h := sweepLoop_conservation d isLazy tcr.programs []
      { programs := tcr.programs, world := w } [] counts rfl (by simpa using hwf) hret
    simpa [FlushInactiveProbes] using h

/-- Witness of C5: six entries on two devices, the two ingress classifiers
are no longer active and are removed, the four others stay. -/
theorem sweep_conservation_witness :
    exResolverTwoDevices.programs.WF
    ∧ (FlushInactiveProbes exDriverStale exIsLazy exResolverTwoDevices 0).ret = some [(100, 2)]
    ∧ (FlushInactiveProbes exDriverStale exIsLazy exResolverTwoDevices
        0).tcr.programs.Sublist exResolverTwoDevices.programs
    ∧ (FlushInactiveProbes exDriverStale exIsLazy exResolverTwoDevices 0).tcr.programs
      = ((activeReports (FlushInactiveProbes exDriverStale exIsLazy exResolverTwoDevices 0).log).filter
          (fun r => r.2)).map Prod.fst :=
  ⟨by decide, by decide,
    (sweep_conservation exDriverStale exIsLazy exResolverTwoDevices 0 (by decide)).1,
    ((sweep_conservation exDriverStale exIsLazy exResolverTwoDevices 0
      (by decide)).2.2.2.2.1 [(100, 2)] (by decide)).2⟩

/-- C6 (sweep live-count bound). Whenever `FlushInactiveProbes` returns a map
of counts, the count of every namespace `n` (0 when `n` is absent) is at most
the number of prior entries of namespace `n` that were reported active and
whose link resolved to one with a non-empty hardware address and a name that
`isLazy` does not flag. -/
theorem sweep_count_bound {W : Type} (d : Driver W) (isLazy : String → Bool) (tcr : Resolver)
    (w : W) (counts : CountMap) (n : Nat)
    (hret : (FlushInactiveProbes d isLazy tcr w).ret = some counts) :
    counts.get n ≤ (tcr.programs.filter (fun e =>
      decide (e.1.NetDevice.NetNS = n)
        && countsAsLive isLazy (FlushInactiveProbes d isLazy tcr w).log e)).length := by
  have h := sweepLoop_count_bound d isLazy n tcr.programs
    { programs := tcr.programs, world := w } [] counts
    (FlushInactiveProbes d isLazy tcr w).log hret (fun ev hev => hev)
  simpa [CountMap.get] using h

/-- Witness of C6: in the namespace 100 the count 2 is bounded by the two
entries that are active, addressed and not lazily deleted. -/
theorem sweep_count_bound_witness :
    (FlushInactiveProbes exDriverStale exIsLazy exResolverTwoDevices 0).ret = some [(100, 2)]
    ∧ CountMap.get [(100, 2)] 100 ≤ (exResolverTwoDevices.programs.filter (fun e =>
        decide (e.1.NetDevice.NetNS = 100)
          && countsAsLive exIsLazy
            (FlushInactiveProbes exDriverStale exIsLazy exResolverTwoDevices 0).log e)).length :=
  ⟨by decide,
    sweep_count_bound exDriverStale exIsLazy exResolverTwoDevices 0 [(100, 2)] 100 (by decide)⟩

/-- C7 (the sweep on an unresolvable link), evaluated on two active entries
whose `ResolveLink` fails: the call does not return a count map. It asks
`IsTCFilterActive` and `ResolveLink` for the first entry and then panics on
the nil link, before the second entry is visited. -/
theorem sweep_unresolvable_link_panics :
    (FlushInactiveProbes exDriverNoLink exIsLazy exResolverOneDevice 0).ret = none
    ∧ (FlushInactiveProbes exDriverNoLink exIsLazy exResolverOneDevice 0).log.length = 2
    ∧ exResolverOneDevice.programs.length = 2 := by
  decide

/-- C8 (what the sweep counts), evaluated on one interface that carries an
egress and an ingress program, both active, addressed and not lazily deleted:
the count returned for its namespace is 2, the number of programs, while the
entries of that namespace name a single device. -/
theorem sweep_counts_programs_not_interfaces :
    (FlushInactiveProbes exDriverOk exIsLazy exResolverOneDevice 0).ret = some [(100, 2)]
    ∧ (exResolverOneDevice.programs.map (fun e => e.1.NetDevice)).dedup = [exDevice] := by
  decide

/-! ## Lemmas on what setup adds to the map -/

theorem ProgramMap.get?_append_of_some (m added : ProgramMap) (k : ProgramKey) (p : Probe)
    (h : m.get? k = some p) : ProgramMap.get? (m ++ added) k = some p := by
  induction m with
  | nil => simp [ProgramMap.get?] at h
  | cons hd tl ih =>
    obtain ⟨k1, p1⟩ := hd
    by_cases h1 : k1 = k
    · simp only [ProgramMap.get?, h1, if_true] at h
      simp [ProgramMap.get?, h1, h]
    · simp only [ProgramMap.get?, h1, if_false] at h
      simp [ProgramMap.get?, h1, ih h]

theorem ProgramMap.get?_append_of_none (m added : ProgramMap) (k : ProgramKey)
    (h : m.get? k = none) : ProgramMap.get? (m ++ added) k = ProgramMap.get? added k := by
  induction m with
  | nil => rfl
  | cons hd tl ih =>
    obtain ⟨k1, p1⟩ := hd
    by_cases h1 : k1 = k
    · simp [ProgramMap.get?, h1] at h
    · simp only [ProgramMap.get?, h1, if_false] at h
      simp [ProgramMap.get?, h1, ih h]

section AddedLemmas

variable {W : Type} (ext : Externals) (d : Driver W) (cfg : Config) (device : NetDevice)
  (netnsFd : Nat)

/-- The entries that the loop of setup adds come after the entries it found,
and each is the key and the new probe of a template of the list whose call to
`CloneProgram` succeeded. -/
theorem setupLoop_added (ts : List Probe) (st : SetupState W) :
    ∃ added : ProgramMap,
      (setupLoop ext d cfg device netnsFd ts st).state.programs = st.programs ++ added
      ∧ ∀ e ∈ added, ∃ t ∈ ts,
          e = (progKeyOf device t, newProbeOf ext cfg device netnsFd t)
          ∧ Event.clone (progKeyOf device t) ext.SecurityAgentUID
              (newProbeOf ext cfg device netnsFd t) (netnsEditorOf device) none
            ∈ (setupLoop ext d cfg device netnsFd ts st).log := by
  induction ts generalizing st with
  | nil => exact ⟨[], by simp [setupLoop], by simp⟩
  | cons t rest ih =>
    rcases setupStep_cases ext d cfg device netnsFd st t with
      ⟨p, _, e⟩ | ⟨w, err, _, _, _, e⟩ | ⟨w, err, _, _, _, e⟩ | ⟨w, habs, _, e⟩
    · obtain ⟨added, h1, h2⟩ := ih st
      refine ⟨added, by simp [setupLoop, e, h1], ?_⟩
      intro x hx
      obtain ⟨u, hu, hxe, hlog⟩ := h2 x hx
      exact ⟨u, List.mem_cons_of_mem _ hu, hxe, by simp [setupLoop, e, hlog]⟩
    · exact ⟨[], by simp [setupLoop, e], by simp⟩
    · obtain ⟨added, h1, h2⟩ := ih
        { st with
          world := w
          combinedErr := st.combinedErr ++ [⟨t.ProbeIdentificationPair, err⟩] }
      refine ⟨added, by simp [setupLoop, e, h1], ?_⟩
      intro x hx
      obtain ⟨u, hu, hxe, hlog⟩ := h2 x hx
      exact ⟨u, List.mem_cons_of_mem _ hu, hxe, by simp [setupLoop, e, hlog]⟩
    · obtain ⟨added, h1, h2⟩ := ih
        { st with
          programs := st.programs.set (progKeyOf device t) (newProbeOf ext cfg device netnsFd t)
          world := w }
      rw [ProgramMap.set_of_absent _ _ _ habs] at h1 h2
      refine ⟨(progKeyOf device t, newProbeOf ext cfg device netnsFd t) :: added, ?_, ?_⟩
      · simp only [setupLoop, e]
        rw [ProgramMap.set_of_absent _ _ _ habs, h1]
        simp
      · intro x hx
        rcases List.mem_cons.mp hx with rfl | hx
        · exact ⟨t, List.mem_cons_self _ _, rfl, by simp [setupLoop, e]⟩
        · obtain ⟨u, hu, hxe, hlog⟩ := h2 x hx
          refine ⟨u, List.mem_cons_of_mem _ hu, hxe, ?_⟩
          simp only [setupLoop, e]
          rw [ProgramMap.set_of_absent _ _ _ habs]
          simp [hlog]

/-- A key for which the loop of setup logged a failed call to `CloneProgram`
was not in the map when the loop started. -/
theorem setupLoop_failed_absent (ts : List Probe) (st : SetupState W) (key : ProgramKey)
    (h : ∃ ev ∈ (setupLoop ext d cfg device netnsFd ts st).log, ev.isFailedKey key = true) :
    st.programs.get? key = none := by
  induction ts generalizing st with
  | nil => simp [setupLoop] at h
  | cons t rest ih =>
    have back : ∀ st2 : SetupState W,
        (setupStep ext d cfg device netnsFd st t).state = st2 →
        (∃ ev ∈ (setupLoop ext d cfg device netnsFd rest st2).log, ev.isFailedKey key = true) →
        st.programs.get? key = none := by
      intro st2 hst2 hex
      have h1 := ih st2 hex
      cases h2 : st.programs.get? key with
      | none => rfl
      | some p =>
        have h3 := setupStep_mono ext d cfg device netnsFd st t key (by simp [h2])
        rw [hst2, h1] at h3
        simp at h3
    rcases setupStep_cases ext d cfg device netnsFd st t with
      ⟨p, _, e⟩ | ⟨w, err, habs, _, _, e⟩ | ⟨w, err, habs, _, _, e⟩ | ⟨w, habs, _, e⟩
    · simp only [setupLoop, e, List.singleton_append, List.mem_cons] at h
      obtain ⟨ev, hev | hev, hf⟩ := h
      · subst hev
        simp [Event.isFailedKey] at hf
      · exact back _ (by rw [e]) ⟨ev, hev, hf⟩
    · simp only [setupLoop, e, List.mem_singleton] at h
      obtain ⟨ev, hev, hf⟩ := h
      subst hev
      simp only [Event.isFailedKey, decide_eq_true_eq] at hf
      rw [← hf]
      exact habs
    · simp only [setupLoop, e, List.singleton_append, List.mem_cons] at h
      obtain ⟨ev, hev | hev, hf⟩ := h
      · subst hev
        simp only [Event.isFailedKey, decide_eq_true_eq] at hf
        rw [← hf]
        exact habs
      · exact back _ (by rw [e]) ⟨ev, hev, hf⟩
    · simp only [setupLoop, e, List.cons_append, List.nil_append, List.mem_cons] at h
      obtain ⟨ev, hev | hev | hev, hf⟩ := h
      · subst hev
        simp [Event.isFailedKey] at hf
      · subst hev
        simp [Event.isFailedKey] at hf
      · exact back _ (by rw [e]) ⟨ev, hev, hf⟩

/-- The templates that the loop of setup handled are an initial part of the
list, in order. -/
theorem setupLoop_processedKeys_sublist (ts : List Probe) (st : SetupState W) :
    (processedKeys (setupLoop ext d cfg device netnsFd ts st).log).Sublist
      (ts.map (progKeyOf device)) := by
  induction ts generalizing st with
  | nil => simp [setupLoop, processedKeys]
  | cons t rest ih =>
    have h1 := setupStep_processedKeys ext d cfg device netnsFd st t
    simp only [setupLoop]
    cases he : (setupStep ext d cfg device netnsFd st t).ret with
    | some err =>
      simp only [h1, List.map_cons]
      exact List.cons_sublist_cons.mpr (List.nil_sublist _)
    | none =>
      have h2 := ih (setupStep ext d cfg device netnsFd st t).state
      simp only [processedKeys] at h1 h2 ⊢
      simp only [List.filterMap_append, h1, List.map_cons, List.singleton_append]
      exact List.cons_sublist_cons.mpr h2

end AddedLemmas

/-- In a log whose handled keys are pairwise distinct, no key has both a failed
and a successful call to `CloneProgram`. -/
theorem no_failed_and_cloned (log : List Event) (key : ProgramKey)
    (hnd : (processedKeys log).Nodup)
    (hf : ∃ ev ∈ log, ev.isFailedKey key = true)
    (hc : ∃ ev ∈ log, ev.isClonedKey key = true) : False := by
  have hmem : ∀ (l : List Event),
      (∃ ev ∈ l, ev.isFailedKey key = true ∨ ev.isClonedKey key = true) →
      key ∈ processedKeys l := by
    intro l hl
    obtain ⟨ev, hev, hk⟩ := hl
    simp only [processedKeys, List.mem_filterMap]
    refine ⟨ev, hev, ?_⟩
    cases ev with
    | clone k uid probe editors res =>
      cases res with
      | none =>
        simp only [Event.isFailedKey, Event.isClonedKey, decide_eq_true_eq, false_or,
          Bool.false_eq_true] at hk
        simp [Event.processedKey, hk]
      | some err =>
        simp only [Event.isFailedKey, Event.isClonedKey, decide_eq_true_eq, or_false,
          Bool.false_eq_true] at hk
        simp [Event.processedKey, hk]
    | _ => simp [Event.isFailedKey, Event.isClonedKey] at hk
  induction log with
  | nil => simp at hf
  | cons ev rest ih =>
    obtain ⟨e1, he1, hf1⟩ := hf
    obtain ⟨e2, he2, hc2⟩ := hc
    have hkey : ∀ e : Event, (e.isFailedKey key = true ∨ e.isClonedKey key = true) →
        e.processedKey = some key := by
      intro e he
      cases e with
      | clone k uid probe editors res =>
        cases res with
        | none =>
          simp only [Event.isFailedKey, Event.isClonedKey, decide_eq_true_eq, false_or,
            Bool.false_eq_true] at he
          simp [Event.processedKey, he]
        | some err =>
          simp only [Event.isFailedKey, Event.isClonedKey, decide_eq_true_eq, or_false,
            Bool.false_eq_true] at he
          simp [Event.processedKey, he]
      | _ => simp [Event.isFailedKey, Event.isClonedKey] at he
    rcases List.mem_cons.mp he1 with h1 | h1
    · rcases List.mem_cons.mp he2 with h2 | h2
      · subst h1
        subst h2
        cases e2 with
        | clone k uid probe editors res =>
          cases res <;> simp [Event.isFailedKey, Event.isClonedKey] at hf1 hc2
        | _ => simp [Event.isFailedKey] at hf1
      · subst h1
        have hk1 := hkey e1 (Or.inl hf1)
        have hin := hmem rest ⟨e2, h2, Or.inr hc2⟩
        simp only [processedKeys, List.filterMap_cons, hk1] at hnd
        exact (List.nodup_cons.mp hnd).1 hin
    · rcases List.mem_cons.mp he2 with h2 | h2
      · subst h2
        have hk2 := hkey e2 (Or.inr hc2)
        have hin := hmem rest ⟨e1, h1, Or.inl hf1⟩
        simp only [processedKeys, List.filterMap_cons, hk2] at hnd
        exact (List.nodup_cons.mp hnd).1 hin
      · apply ih _ ⟨e1, h1, hf1⟩ ⟨e2, h2, hc2⟩
        simp only [processedKeys, List.filterMap_cons] at hnd
        cases hp : ev.processedKey with
        | none => simpa [processedKeys, hp] using hnd
        | some k =>
          rw [hp] at hnd
          exact (List.nodup_cons.mp hnd).2

/-! ## Theorems on what setup adds and on what the other operations keep -/

/-- C12 (the registry never fabricates entries). After any call to setup,
every entry of the map either was in the map before the call or is the key
built from a template of the catalog and the supplied device, with the new
probe of that template, for which the log of this call holds a successful
call to `CloneProgram`. A key whose call to `CloneProgram` failed, and for
which no call succeeded during this call, has no entry; when the keys of the
catalog are pairwise distinct, that is every key whose call failed. -/
theorem setup_never_fabricates {W : Type} (ext : Externals) (d : Driver W) (tcr : Resolver)
    (device : NetDevice) (netnsFd : Nat) (w : W) :
    (∀ e ∈ (SetupNewTCClassifierWithNetNSHandle ext d tcr device netnsFd w).tcr.programs,
      e ∈ tcr.programs
      ∨ ∃ t ∈ ext.GetTCProbes tcr.config.NetworkIngressEnabled
            tcr.config.NetworkRawPacketEnabled,
          e = (progKeyOf device t, newProbeOf ext tcr.config device netnsFd t)
          ∧ Event.clone (progKeyOf device t) ext.SecurityAgentUID
              (newProbeOf ext tcr.config device netnsFd t) (netnsEditorOf device) none
            ∈ (SetupNewTCClassifierWithNetNSHandle ext d tcr device netnsFd w).log)
    ∧ (∀ key : ProgramKey,
        (∃ ev ∈ (SetupNewTCClassifierWithNetNSHandle ext d tcr device netnsFd w).log,
          ev.isFailedKey key = true) →
        (¬ ∃ ev ∈ (SetupNewTCClassifierWithNetNSHandle ext d tcr device netnsFd w).log,
          ev.isClonedKey key = true) →
        (SetupNewTCClassifierWithNetNSHandle ext d tcr device netnsFd w).tcr.programs.get? key
          = none)
    ∧ (((ext.GetTCProbes tcr.config.NetworkIngressEnabled
          tcr.config.NetworkRawPacketEnabled).map (progKeyOf device)).Nodup →
        ∀ key : ProgramKey,
          (∃ ev ∈ (SetupNewTCClassifierWithNetNSHandle ext d tcr device netnsFd w).log,
            ev.isFailedKey key = true) →
          (SetupNewTCClassifierWithNetNSHandle ext d tcr device netnsFd w).tcr.programs.get? key
            = none) := by
  obtain ⟨added, h1, h2⟩ := setupLoop_added ext d tcr.config device netnsFd
    (ext.GetTCProbes tcr.config.NetworkIngressEnabled tcr.config.NetworkRawPacketEnabled)
    { programs := tcr.programs, world := w, combinedErr := [] }
  have hprog : (SetupNewTCClassifierWithNetNSHandle ext d tcr device netnsFd w).tcr.programs
      = tcr.programs ++ added := h1
  have part2 : ∀ key : ProgramKey,
      (∃ ev ∈ (SetupNewTCClassifierWithNetNSHandle ext d tcr device netnsFd w).log,
        ev.isFailedKey key = true) →
      (¬ ∃ ev ∈ (SetupNewTCClassifierWithNetNSHandle ext d tcr device netnsFd w).log,
        ev.isClonedKey key = true) →
      (SetupNewTCClassifierWithNetNSHandle ext d tcr device netnsFd w).tcr.programs.get? key
        = none := by
    intro key hf hc
    have habs := setupLoop_failed_absent ext d tcr.config device netnsFd _
      { programs := tcr.programs, world := w, combinedErr := [] } key hf
    rw [hprog, ProgramMap.get?_append_of_none _ _ _ habs, ProgramMap.get?_eq_none_iff]
    intro hin
    simp only [ProgramMap.keys, List.mem_map] at hin
    obtain ⟨e, he, hek⟩ := hin
    obtain ⟨t, _, het, hlog⟩ := h2 e he
    apply hc
    refine ⟨_, hlog, ?_⟩
    rw [het] at hek
    simpa [Event.isClonedKey] using hek
  refine ⟨?_, part2, ?_⟩
  · intro e he
    rw [hprog] at he
    rcases List.mem_append.mp he with h | h
    · exact Or.inl h
    · exact Or.inr (h2 e h)
  · intro hnd key hf
    apply part2 key hf
    intro hc
    have hsub := setupLoop_processedKeys_sublist ext d tcr.config device netnsFd
      (ext.GetTCProbes tcr.config.NetworkIngressEnabled tcr.config.NetworkRawPacketEnabled)
      { programs := tcr.programs, world := w, combinedErr := [] }
    exact no_failed_and_cloned _ key (hnd.sublist hsub) hf hc

/-- C16 (entry lifetime). Setup only appends to the map: the map after the
call is the map before the call followed by the added entries, so every key
present before the call holds the same probe afterwards, whether setup
returns nil, the aggregate or the link-not-found error. `SelectTCProbes` and
`SendTCProgramsStats` leave the resolver as it was, and
`ResolveNetworkDeviceIfName` returns a name and a flag only. -/
theorem entries_persist {W : Type} (ext : Externals) (d : Driver W) (tcr : Resolver)
    (device : NetDevice) (netnsFd : Nat) (w : W) (MetricTCProgram : String) :
    (∃ added : ProgramMap,
      (SetupNewTCClassifierWithNetNSHandle ext d tcr device netnsFd w).tcr.programs
        = tcr.programs ++ added)
    ∧ (∀ (key : ProgramKey) (probe : Probe), tcr.programs.get? key = some probe →
        (SetupNewTCClassifierWithNetNSHandle ext d tcr device netnsFd w).tcr.programs.get? key
          = some probe)
    ∧ (SetupNewTCClassifierWithNetNSHandle ext d tcr device netnsFd w).tcr.config = tcr.config
    ∧ (SelectTCProbes d tcr w).tcr = tcr
    ∧ (SendTCProgramsStats MetricTCProgram tcr).tcr = tcr := by
  obtain ⟨added, h1, _⟩ := setupLoop_added ext d tcr.config device netnsFd
    (ext.GetTCProbes tcr.config.NetworkIngressEnabled tcr.config.NetworkRawPacketEnabled)
    { programs := tcr.programs, world := w, combinedErr := [] }
  have hprog : (SetupNewTCClassifierWithNetNSHandle ext d tcr device netnsFd w).tcr.programs
      = tcr.programs ++ added := h1
  refine ⟨⟨added, hprog⟩, ?_, rfl, rfl, ?_⟩
  · intro key probe hk
    rw [hprog]
    exact ProgramMap.get?_append_of_some _ _ _ _ hk
  · unfold SendTCProgramsStats
    by_cases h : tcr.programs.length > 0 <;> simp [h]

/-- C11 (the scenario). From the empty resolver, with a catalog of two
templates whose keys differ and a driver whose `CloneProgram` always
succeeds: setup on a device leaves exactly the two entries of the templates
and returns nil; a second setup on the same device leaves the same map and
returns nil; the flush of the namespace of the device then leaves no entry,
and the lookup of the device by interface index and namespace returns the
empty name and false. The device of the claim is the instance of the
witness. -/
theorem setup_flush_scenario {W : Type} (ext : Externals) (d : Driver W) (cfg : Config)
    (device : NetDevice) (netnsFd netnsFd2 : Nat) (w w2 w3 : W) (t1 t2 : Probe)
    (hcat : ext.GetTCProbes cfg.NetworkIngressEnabled cfg.NetworkRawPacketEnabled = [t1, t2])
    (hdist : (t1.ProbeIdentificationPair.UID, t1.ProbeIdentificationPair.EBPFFuncName,
        t1.NetworkDirection)
      ≠ (t2.ProbeIdentificationPair.UID, t2.ProbeIdentificationPair.EBPFFuncName,
        t2.NetworkDirection))
    (hok : ∀ (x : W) (uid : String) (p : Probe) (eds : List ConstantEditor),
      (d.CloneProgram x uid p eds).2 = none) :
    (SetupNewTCClassifierWithNetNSHandle ext d (NewResolver cfg) device netnsFd w).tcr.programs
      = [(progKeyOf device t1, newProbeOf ext cfg device netnsFd t1),
         (progKeyOf device t2, newProbeOf ext cfg device netnsFd t2)]
    ∧ (SetupNewTCClassifierWithNetNSHandle ext d (NewResolver cfg) device netnsFd w).tcr.programs.length
      = 2
    ∧ (SetupNewTCClassifierWithNetNSHandle ext d (NewResolver cfg) device netnsFd w).err = none
    ∧ (SetupNewTCClassifierWithNetNSHandle ext d
        (SetupNewTCClassifierWithNetNSHandle ext d (NewResolver cfg) device netnsFd w).tcr
        device netnsFd2 w2).tcr.programs
      = (SetupNewTCClassifierWithNetNSHandle ext d (NewResolver cfg) device netnsFd w).tcr.programs
    ∧ (SetupNewTCClassifierWithNetNSHandle ext d
        (SetupNewTCClassifierWithNetNSHandle ext d (NewResolver cfg) device netnsFd w).tcr
        device netnsFd2 w2).err = none
    ∧ (FlushNetworkNamespaceID d
        (SetupNewTCClassifierWithNetNSHandle ext d
          (SetupNewTCClassifierWithNetNSHandle ext d (NewResolver cfg) device netnsFd w).tcr
          device netnsFd2 w2).tcr device.NetNS w3).tcr.programs = []
    ∧ ResolveNetworkDeviceIfName
        (FlushNetworkNamespaceID d
          (SetupNewTCClassifierWithNetNSHandle ext d
            (SetupNewTCClassifierWithNetNSHandle ext d (NewResolver cfg) device netnsFd w).tcr
            device netnsFd2 w2).tcr device.NetNS w3).tcr
        device.IfIndex device.NetNS = ("", false) := by
  have hkeys : progKeyOf device t1 ≠ progKeyOf device t2 := by
    intro h
    apply hdist
    simp only [progKeyOf, ProgramKey.mk.injEq] at h
    simp [h.1, h.2.1, h.2.2.2]
  have hclone : ∀ (x : W) (uid : String) (p : Probe) (eds : List ConstantEditor),
      d.CloneProgram x uid p eds = ((d.CloneProgram x uid p eds).1, none) := by
    intro x uid p eds
    exact Prod.ext rfl (hok x uid p eds)
  have s1 := setupStep_cloned ext d cfg device netnsFd
    { programs := [], world := w, combinedErr := [] } t1 _ rfl (hclone _ _ _ _)
  have s2 := setupStep_cloned ext d cfg device netnsFd
    { programs := [(progKeyOf device t1, newProbeOf ext cfg device netnsFd t1)]
      world := (d.CloneProgram w ext.SecurityAgentUID (newProbeOf ext cfg device netnsFd t1)
        (netnsEditorOf device)).1
      combinedErr := [] } t2 _ (by simp [ProgramMap.get?, hkeys]) (hclone _ _ _ _)
  have hrun : (setupLoop ext d cfg device netnsFd [t1, t2]
        { programs := [], world := w, combinedErr := [] }).state.programs
        = [(progKeyOf device t1, newProbeOf ext cfg device netnsFd t1),
           (progKeyOf device t2, newProbeOf ext cfg device netnsFd t2)]
      ∧ (setupLoop ext d cfg device netnsFd [t1, t2]
        { programs := [], world := w, combinedErr := [] }).ret = none
      ∧ (setupLoop ext d cfg device netnsFd [t1, t2]
        { programs := [], world := w, combinedErr := [] }).state.combinedErr = [] := by
    simp only [setupLoop, s1, ProgramMap.set]
    simp only [s2, ProgramMap.set, hkeys, if_false]
    simp
  have h1 : (SetupNewTCClassifierWithNetNSHandle ext d (NewResolver cfg) device netnsFd
        w).tcr.programs
      = [(progKeyOf device t1, newProbeOf ext cfg device netnsFd t1),
         (progKeyOf device t2, newProbeOf ext cfg device netnsFd t2)] := by
    simp only [SetupNewTCClassifierWithNetNSHandle, NewResolver, hcat]
    exact hrun.1
  have herr : (SetupNewTCClassifierWithNetNSHandle ext d (NewResolver cfg) device netnsFd
      w).err = none := by
    simp only [SetupNewTCClassifierWithNetNSHandle, NewResolver, hcat, hrun.2.1, hrun.2.2]
    rfl
  have hcfg : (SetupNewTCClassifierWithNetNSHandle ext d (NewResolver cfg) device netnsFd
      w).tcr.config = cfg := rfl
  have h2 := setup_all_present ext d device netnsFd2
    (SetupNewTCClassifierWithNetNSHandle ext d (NewResolver cfg) device netnsFd w).tcr w2
    (by
      rw [hcfg, hcat, h1]
      intro t ht
      rcases List.mem_cons.mp ht with rfl | ht
      · simp [ProgramMap.get?]
      · rcases List.mem_cons.mp ht with rfl | ht
        · simp [ProgramMap.get?, hkeys]
        · simp at ht)
  rw [h2]
  refine ⟨h1, by rw [h1]; rfl, herr, rfl, rfl, ?_, ?_⟩
  · rw [flush_programs, h1]
    simp [progKeyOf]
  · unfold ResolveNetworkDeviceIfName
    rw [flush_programs, h1]
    simp [progKeyOf, resolveLoop]

/-- Witness of C11 on the device `eth0` of index 7 in the namespace 100, with
the egress and ingress classifiers as catalog. -/
theorem setup_flush_scenario_witness :
    (SetupNewTCClassifierWithNetNSHandle exExt exDriverOk
        (NewResolver { exConfig with NetworkRawPacketEnabled := false })
        { Name := "eth0", NetNS := 100, IfIndex := 7 } 3 0).tcr.programs.length = 2
    ∧ (FlushNetworkNamespaceID exDriverOk
        (SetupNewTCClassifierWithNetNSHandle exExt exDriverOk
          (SetupNewTCClassifierWithNetNSHandle exExt exDriverOk
            (NewResolver { exConfig with NetworkRawPacketEnabled := false })
            { Name := "eth0", NetNS := 100, IfIndex := 7 } 3 0).tcr
          { Name := "eth0", NetNS := 100, IfIndex := 7 } 4 2).tcr 100 2).tcr.programs = []
    ∧ ResolveNetworkDeviceIfName
        (FlushNetworkNamespaceID exDriverOk
          (SetupNewTCClassifierWithNetNSHandle exExt exDriverOk
            (SetupNewTCClassifierWithNetNSHandle exExt exDriverOk
              (NewResolver { exConfig with NetworkRawPacketEnabled := false })
              { Name := "eth0", NetNS := 100, IfIndex := 7 } 3 0).tcr
            { Name := "eth0", NetNS := 100, IfIndex := 7 } 4 2).tcr 100 2).tcr
        7 100 = ("", false) :=
  ⟨(setup_flush_scenario exExt exDriverOk { exConfig with NetworkRawPacketEnabled := false }
      { Name := "eth0", NetNS := 100, IfIndex := 7 } 3 4 0 2 2
      (exTemplate "classifier_egress" 65523) (exTemplate "classifier_ingress" 65522)
      (by decide) (by decide) (fun _ _ _ _ => rfl)).2.1,
   (setup_flush_scenario exExt exDriverOk { exConfig with NetworkRawPacketEnabled := false }
      { Name := "eth0", NetNS := 100, IfIndex := 7 } 3 4 0 2 2
      (exTemplate "classifier_egress" 65523) (exTemplate "classifier_ingress" 65522)
      (by decide) (by decide) (fun _ _ _ _ => rfl)).2.2.2.2.2.1,
   (setup_flush_scenario exExt exDriverOk { exConfig with NetworkRawPacketEnabled := false }
      { Name := "eth0", NetNS := 100, IfIndex := 7 } 3 4 0 2 2
      (exTemplate "classifier_egress" 65523) (exTemplate "classifier_ingress" 65522)
      (by decide) (by decide) (fun _ _ _ _ => rfl)).2.2.2.2.2.2⟩

/-! ## Theorems on the selection, the stats and the key string -/

theorem selectLoop_spec {W : Type} (d : Driver W) (l : List (ProgramKey × Probe)) (w : W)
    (acc : List ProbeSelector) :
    (runningReports (selectLoop d l w acc).2.2).map Prod.fst = l
    ∧ (selectLoop d l w acc).1
      = acc ++ ((runningReports (selectLoop d l w acc).2.2).filter (fun r => r.2)).map
          (fun r => { ProbeIdentificationPair := r.1.2.ProbeIdentificationPair }) := by
  induction l generalizing w acc with
  | nil => simp [selectLoop, runningReports]
  | cons hd tl ih =>
    obtain ⟨k, p⟩ := hd
    cases hr : (d.IsRunning w p).2 with
    | false =>
      obtain ⟨i1, i2⟩ := ih (d.IsRunning w p).1 acc
      simp only [runningReports] at i1 i2 ⊢
      simp only [selectLoop, hr, Bool.false_eq_true, if_false, List.filterMap_cons,
        Event.runningReport, List.map_cons, i1, List.filter_cons, true_and]
      exact i2
    | true =>
      obtain ⟨i1, i2⟩ := ih (d.IsRunning w p).1
        (acc ++ [{ ProbeIdentificationPair := p.ProbeIdentificationPair }])
      simp only [runningReports] at i1 i2 ⊢
      simp only [selectLoop, hr, if_true, List.filterMap_cons,
        Event.runningReport, List.map_cons, i1, List.filter_cons, true_and]
      rw [i2]
      simp

theorem selectLoop_cons {W : Type} (d : Driver W) (k : ProgramKey) (p : Probe)
    (rest : List (ProgramKey × Probe)) (w : W) (acc : List ProbeSelector) :
    (selectLoop d ((k, p) :: rest) w acc).1
      = acc ++ (if (d.IsRunning w p).2 then
            [{ ProbeIdentificationPair := p.ProbeIdentificationPair }] else [])
          ++ (selectLoop d rest (d.IsRunning w p).1 []).1
    ∧ (selectLoop d ((k, p) :: rest) w acc).2.1 = (selectLoop d rest (d.IsRunning w p).1 []).2.1
    ∧ (selectLoop d ((k, p) :: rest) w acc).2.2
      = Event.isRunning k p (d.IsRunning w p).2
        :: (selectLoop d rest (d.IsRunning w p).1 []).2.2 := by
  induction rest generalizing k p w acc with
  | nil =>
    cases hr : (d.IsRunning w p).2 <;> simp [selectLoop, hr]
  | cons hd tl ih =>
    obtain ⟨k2, p2⟩ := hd
    have step : ∀ acc2 : List ProbeSelector,
        selectLoop d ((k, p) :: (k2, p2) :: tl) w acc2
          = ((selectLoop d ((k2, p2) :: tl) (d.IsRunning w p).1
              (if (d.IsRunning w p).2 then
                acc2 ++ [{ ProbeIdentificationPair := p.ProbeIdentificationPair }]
              else acc2)).1,
             (selectLoop d ((k2, p2) :: tl) (d.IsRunning w p).1
              (if (d.IsRunning w p).2 then
                acc2 ++ [{ ProbeIdentificationPair := p.ProbeIdentificationPair }]
              else acc2)).2.1,
             Event.isRunning k p (d.IsRunning w p).2
              :: (selectLoop d ((k2, p2) :: tl) (d.IsRunning w p).1
                (if (d.IsRunning w p).2 then
                  acc2 ++ [{ ProbeIdentificationPair := p.ProbeIdentificationPair }]
                else acc2)).2.2) := by
      intro acc2
      rw [selectLoop]
    rw [step acc]
    obtain ⟨a1, a2, a3⟩ := ih k2 p2 (d.IsRunning w p).1
      (if (d.IsRunning w p).2 then
        acc ++ [{ ProbeIdentificationPair := p.ProbeIdentificationPair }] else acc)
    obtain ⟨b1, b2, b3⟩ := ih k2 p2 (d.IsRunning w p).1 []
    refine ⟨?_, ?_, ?_⟩
    · show (selectLoop d ((k2, p2) :: tl) (d.IsRunning w p).1 _).1 = _
      rw [a1, b1]
      cases hr : (d.IsRunning w p).2 <;> simp
    · show (selectLoop d ((k2, p2) :: tl) (d.IsRunning w p).1 _).2.1 = _
      rw [a2, b2]
    · show Event.isRunning k p (d.IsRunning w p).2
          :: (selectLoop d ((k2, p2) :: tl) (d.IsRunning w p).1 _).2.2 = _
      rw [a3, b3]

/-- The selection over `pre ++ e :: post` is the selection over `pre`, the
answer of `IsRunning` for the probe of `e` in the world that the loop over
`pre` leaves, and the selection over `post` from the world that this call
leaves. -/
theorem selectLoop_split {W : Type} (d : Driver W) (pre post : List (ProgramKey × Probe))
    (e : ProgramKey × Probe) (w : W) :
    (selectLoop d (pre ++ e :: post) w []).1
      = (selectLoop d pre w []).1
        ++ (if (d.IsRunning (selectLoop d pre w []).2.1 e.2).2 then
              [{ ProbeIdentificationPair := e.2.ProbeIdentificationPair }] else [])
        ++ (selectLoop d post (d.IsRunning (selectLoop d pre w []).2.1 e.2).1 []).1
    ∧ (selectLoop d (pre ++ e :: post) w []).2.1
      = (selectLoop d post (d.IsRunning (selectLoop d pre w []).2.1 e.2).1 []).2.1
    ∧ (selectLoop d (pre ++ e :: post) w []).2.2
      = (selectLoop d pre w []).2.2
        ++ Event.isRunning e.1 e.2 (d.IsRunning (selectLoop d pre w []).2.1 e.2).2
        :: (selectLoop d post (d.IsRunning (selectLoop d pre w []).2.1 e.2).1 []).2.2 := by
  induction pre generalizing w with
  | nil =>
    obtain ⟨k, p⟩ := e
    have h := selectLoop_cons d k p post w []
    simpa [selectLoop] using h
  | cons a pre ih =>
    obtain ⟨ka, pa⟩ := a
    obtain ⟨i1, i2, i3⟩ := ih (d.IsRunning w pa).1
    obtain ⟨c1, c2, c3⟩ := selectLoop_cons d ka pa (pre ++ e :: post) w []
    obtain ⟨d1, d2, d3⟩ := selectLoop_cons d ka pa pre w []
    rw [List.cons_append, c1, c2, c3, d1, d2, d3, i1, i2, i3]
    exact ⟨by simp, rfl, by simp⟩

/-- C13 (selection). `SelectTCProbes` asks `IsRunning` exactly once for every
entry of the map, in iteration order: for a map `pre ++ e :: post`, the
selectors it returns are those of the selection over `pre`, then one selector
with the identification pair of the probe of `e` when `IsRunning` answers
true for that probe in the world left by the selection over `pre` and none
when it answers false, then those of the selection over `post`. So the
selectors are, in that order, one per entry that answered true, each carrying
the identification pair of the probe of that entry, and none for the entries
that answered false; their number is the number of entries that answered
true; the resolver is left as it was. On the empty map nothing is asked and
nothing selected. On the example map of six entries with a driver for which
the two ingress classifiers do not run, the four others are selected. -/
theorem select_spec {W : Type} (d : Driver W) (tcr : Resolver) (w : W) :
    (runningReports (SelectTCProbes d tcr w).log).map Prod.fst = tcr.programs
    ∧ (SelectTCProbes d tcr w).ret.Selectors
      = ((runningReports (SelectTCProbes d tcr w).log).filter (fun r => r.2)).map
          (fun r => { ProbeIdentificationPair := r.1.2.ProbeIdentificationPair })
    ∧ (SelectTCProbes d tcr w).ret.Selectors.length
      = (runningReports (SelectTCProbes d tcr w).log).countP (fun r => r.2)
    ∧ (SelectTCProbes d tcr w).tcr = tcr
    ∧ (∀ (pre post : List (ProgramKey × Probe)) (e : ProgramKey × Probe),
        tcr.programs = pre ++ e :: post →
        (SelectTCProbes d tcr w).ret.Selectors
          = (SelectTCProbes d { tcr with programs := pre } w).ret.Selectors
            ++ (if (d.IsRunning (SelectTCProbes d { tcr with programs := pre } w).world e.2).2
                then [{ ProbeIdentificationPair := e.2.ProbeIdentificationPair }] else [])
            ++ (SelectTCProbes d { tcr with programs := post }
                (d.IsRunning (SelectTCProbes d { tcr with programs := pre } w).world
                  e.2).1).ret.Selectors
        ∧ (SelectTCProbes d tcr w).world
          = (SelectTCProbes d { tcr with programs := post }
              (d.IsRunning (SelectTCProbes d { tcr with programs := pre } w).world e.2).1).world
        ∧ (SelectTCProbes d tcr w).log
          = (SelectTCProbes d { tcr with programs := pre } w).log
            ++ Event.isRunning e.1 e.2
                (d.IsRunning (SelectTCProbes d { tcr with programs := pre } w).world e.2).2
            :: (SelectTCProbes d { tcr with programs := post }
                (d.IsRunning (SelectTCProbes d { tcr with programs := pre } w).world
                  e.2).1).log)
    ∧ (tcr.programs = [] →
        (SelectTCProbes d tcr w).ret.Selectors = [] ∧ (SelectTCProbes d tcr w).world = w
        ∧ (SelectTCProbes d tcr w).log = [])
    ∧ (exResolverTwoDevices.programs.map (fun e => (e.1.FuncName, e.1.NetDevice.Name))
        = [("classifier_egress", "eth0"), ("classifier_raw_packet_egress", "eth0"),
           ("classifier_ingress", "eth0"), ("classifier_egress", "veth1"),
           ("classifier_raw_packet_egress", "veth1"), ("classifier_ingress", "veth1")]
      ∧ (SelectTCProbes exDriverStale exResolverTwoDevices 0).ret.Selectors.map
          (fun x => (x.ProbeIdentificationPair.EBPFFuncName, x.ProbeIdentificationPair.UID))
        = [("classifier_egress", "security_classifier_egress_7_100"),
           ("classifier_raw_packet_egress", "security_classifier_raw_packet_egress_7_100"),
           ("classifier_egress", "security_classifier_egress_9_200"),
           ("classifier_raw_packet_egress",
            "security_classifier_raw_packet_egress_9_200")]) := by
  obtain ⟨h1, h2⟩ := selectLoop_spec d tcr.programs w []
  have h3 : (SelectTCProbes d tcr w).ret.Selectors
      = ((runningReports (SelectTCProbes d tcr w).log).filter (fun r => r.2)).map
          (fun r => { ProbeIdentificationPair := r.1.2.ProbeIdentificationPair }) := by
    simpa [SelectTCProbes] using h2
  refine ⟨h1, h3, ?_, rfl, ?_, ?_, by decide, by decide⟩
  · rw [h3, List.length_map, List.countP_eq_length_filter]
  · intro pre post e hs
    obtain ⟨s1, s2, s3⟩ := selectLoop_split d pre post e w
    unfold SelectTCProbes
    simp only [hs]
    exact ⟨s1, s2, s3⟩
  · intro hnil
    unfold SelectTCProbes
    rw [hnil]
    simp [selectLoop]

/-- C14 (stats). `SendTCProgramsStats` makes exactly one call to `Gauge`, for
the program-count metric, with the number of entries of the map as value, no
tag and rate 1, when that number is greater than 0, and no call when the map
is empty; the resolver is left as it was. -/
theorem stats_gauge_spec (MetricTCProgram : String) (tcr : Resolver) :
    ((SendTCProgramsStats MetricTCProgram tcr).gauges
        = [{ name := MetricTCProgram, value := tcr.programs.length, tags := [], rate := 1 }]
      ↔ 0 < tcr.programs.length)
    ∧ ((SendTCProgramsStats MetricTCProgram tcr).gauges = [] ↔ tcr.programs.length = 0)
    ∧ (SendTCProgramsStats MetricTCProgram tcr).tcr = tcr := by
  unfold SendTCProgramsStats
  by_cases h : tcr.programs.length > 0
  · have h2 : tcr.programs.length ≠ 0 := by omega
    simp [h, h2]
  · have h2 : tcr.programs.length = 0 := by omega
    simp [h2]

/-- C15, the claim as stated fails: two keys that differ only in the traffic
direction have the same `Key()`, and so have, with a `GetKey` that renders the
interface index and the namespace, two keys that differ only in the device
name. -/
theorem Key_collision :
    (exKey 65522).Key exExt = (exKey 65523).Key exExt
    ∧ exKey 65522 ≠ exKey 65523
    ∧ (exKey 65522).Key exExt = exKeyRenamed.Key exExt
    ∧ exKey 65522 ≠ exKeyRenamed := by
  decide

theorem String.append_right_inj_of_eq (a x y : String) : a ++ x = a ++ y ↔ x = y := by
  constructor
  · intro h
    have h2 := congrArg String.data h
    simp only [String.data_append] at h2
    exact String.ext (List.append_cancel_left h2)
  · intro h
    rw [h]

/-- C15, amended. The string `Key()` is made of the UID, the function name
and `NetDevice.GetKey()` only: two keys with the same UID and the same
function name have the same `Key()` exactly when `GetKey` gives the same
string for their devices, whatever their traffic directions. -/
theorem Key_eq_iff_GetKey_eq (ext : Externals) (a b : ProgramKey) (hu : a.UID = b.UID)
    (hf : a.FuncName = b.FuncName) :
    a.Key ext = b.Key ext ↔ ext.GetKey a.NetDevice = ext.GetKey b.NetDevice := by
  unfold ProgramKey.Key
  rw [hu, hf]
  exact String.append_right_inj_of_eq _ _ _

/-- Witness of the amended C15: the same function on two devices. -/
theorem Key_eq_iff_GetKey_eq_witness :
    (exKey 65522).UID = exKeyOther.UID
    ∧ (exKey 65522).FuncName = exKeyOther.FuncName
    ∧ ((exKey 65522).Key exExt = exKeyOther.Key exExt
      ↔ exExt.GetKey (exKey 65522).NetDevice = exExt.GetKey exKeyOther.NetDevice) :=
  ⟨by decide, by decide, Key_eq_iff_GetKey_eq exExt (exKey 65522) exKeyOther rfl rfl⟩

/-! ## Lemmas on the calls of setup and on the frame of the flush -/

section CallLemmas

variable {W : Type} (ext : Externals) (d : Driver W) (cfg : Config) (device : NetDevice)
  (netnsFd : Nat)

/-- Every call to `CloneProgram` in the log of the loop of setup is the call
for a template of the list, with the key, the new probe and the editors built
from that template and the device. -/
theorem setupLoop_clone_shape (ts : List Probe) (st : SetupState W) (ev : Event)
    (hev : ev ∈ (setupLoop ext d cfg device netnsFd ts st).log) (hc : ev.isClone = true) :
    ∃ t ∈ ts, ∃ res, ev = Event.clone (progKeyOf device t) ext.SecurityAgentUID
      (newProbeOf ext cfg device netnsFd t) (netnsEditorOf device) res := by
  induction ts generalizing st with
  | nil => simp [setupLoop] at hev
  | cons t rest ih =>
    have later : ∀ st2 : SetupState W,
        ev ∈ (setupLoop ext d cfg device netnsFd rest st2).log →
        ∃ u ∈ t :: rest, ∃ res, ev = Event.clone (progKeyOf device u) ext.SecurityAgentUID
          (newProbeOf ext cfg device netnsFd u) (netnsEditorOf device) res := by
      intro st2 h2
      obtain ⟨u, hu, res, hres⟩ := ih st2 h2
      exact ⟨u, List.mem_cons_of_mem _ hu, res, hres⟩
    rcases setupStep_cases ext d cfg device netnsFd st t with
      ⟨p, _, e⟩ | ⟨w, err, _, _, _, e⟩ | ⟨w, err, _, _, _, e⟩ | ⟨w, _, _, e⟩
    · simp only [setupLoop, e, List.singleton_append, List.mem_cons] at hev
      rcases hev with h | h
      · subst h
        simp [Event.isClone] at hc
      · exact later _ h
    · simp only [setupLoop, e, List.mem_singleton] at hev
      exact ⟨t, List.mem_cons_self _ _, some err, hev⟩
    · simp only [setupLoop, e, List.singleton_append, List.mem_cons] at hev
      rcases hev with h | h
      · exact ⟨t, List.mem_cons_self _ _, some err, h⟩
      · exact later _ h
    · simp only [setupLoop, e, List.cons_append, List.nil_append, List.mem_cons] at hev
      rcases hev with h | h | h
      · exact ⟨t, List.mem_cons_self _ _, none, h⟩
      · subst h
        simp [Event.isClone] at hc
      · exact later _ h

/-- A probe that the loop of setup found or stored under a key stays under
that key. -/
theorem setupLoop_keeps (ts : List Probe) (st : SetupState W) (key : ProgramKey) (probe : Probe)
    (h : st.programs.get? key = some probe) :
    (setupLoop ext d cfg device netnsFd ts st).state.programs.get? key = some probe := by
  obtain ⟨added, h1, _⟩ := setupLoop_added ext d cfg device netnsFd ts st
  rw [h1]
  exact ProgramMap.get?_append_of_some _ _ _ _ h

/-- The probe of every successful call to `CloneProgram` in the log of the
loop of setup is in the map the loop leaves, under the key of the call. -/
theorem setupLoop_cloned_present (ts : List Probe) (st : SetupState W) (key : ProgramKey)
    (uid : String) (probe : Probe) (eds : List ConstantEditor)
    (hev : Event.clone key uid probe eds none
      ∈ (setupLoop ext d cfg device netnsFd ts st).log) :
    (setupLoop ext d cfg device netnsFd ts st).state.programs.get? key = some probe := by
  induction ts generalizing st with
  | nil => simp [setupLoop] at hev
  | cons t rest ih =>
    rcases setupStep_cases ext d cfg device netnsFd st t with
      ⟨p, _, e⟩ | ⟨w, err, _, _, _, e⟩ | ⟨w, err, _, _, _, e⟩ | ⟨w, _, _, e⟩
    · simp only [setupLoop, e, List.singleton_append, List.mem_cons, reduceCtorEq,
        false_or] at hev
      simp only [setupLoop, e]
      exact ih _ hev
    · simp [setupLoop, e] at hev
    · simp only [setupLoop, e, List.singleton_append, List.mem_cons, Event.clone.injEq,
        reduceCtorEq, and_false, false_or] at hev
      simp only [setupLoop, e]
      exact ih _ hev
    · simp only [setupLoop, e, List.cons_append, List.nil_append, List.mem_cons,
        Event.clone.injEq, reduceCtorEq, false_or] at hev
      simp only [setupLoop, e]
      rcases hev with ⟨hk, _, hp, _⟩ | hev
      · apply setupLoop_keeps
        rw [hk, hp]
        exact ProgramMap.get?_set_self _ _ _
      · exact ih _ hev

/-- While the loop of setup has not returned, the errors it holds are the ones
it held at the start followed by one wrapped error per failed call. -/
theorem setupLoop_collected (ts : List Probe) (st : SetupState W)
    (h : (setupLoop ext d cfg device netnsFd ts st).ret = none) :
    (setupLoop ext d cfg device netnsFd ts st).state.combinedErr
      = st.combinedErr ++ cloneFailures (setupLoop ext d cfg device netnsFd ts st).log := by
  induction ts generalizing st with
  | nil => simp [setupLoop, cloneFailures]
  | cons t rest ih =>
    rcases setupStep_cases ext d cfg device netnsFd st t with
      ⟨p, _, e⟩ | ⟨w, err, _, _, _, e⟩ | ⟨w, err, _, _, _, e⟩ | ⟨w, _, _, e⟩
    · simp only [setupLoop, e] at h ⊢
      rw [ih _ h]
      simp [cloneFailures, Event.cloneFailure]
    · simp [setupLoop, e] at h
    · simp only [setupLoop, e] at h ⊢
      rw [ih _ h]
      simp [cloneFailures, Event.cloneFailure, progKeyOf]
    · simp only [setupLoop, e] at h ⊢
      rw [ih _ h]
      simp [cloneFailures, Event.cloneFailure]

end CallLemmas

section SetupSplitLemmas

variable {W : Type} (ext : Externals) (d : Driver W) (cfg : Config) (device : NetDevice)
  (netnsFd : Nat)

/-- When the key of the template is not in the map, the iteration logs the
call to `CloneProgram` with the answer of the driver. -/
theorem setupStep_log_clone (st : SetupState W) (t : Probe)
    (h : st.programs.get? (progKeyOf device t) = none) :
    Event.clone (progKeyOf device t) ext.SecurityAgentUID (newProbeOf ext cfg device netnsFd t)
        (netnsEditorOf device)
        (d.CloneProgram st.world ext.SecurityAgentUID (newProbeOf ext cfg device netnsFd t)
          (netnsEditorOf device)).2
      ∈ (setupStep ext d cfg device netnsFd st t).log := by
  rcases setupStep_cases ext d cfg device netnsFd st t with
    ⟨p, hp, _⟩ | ⟨w, err, _, hc, _, e⟩ | ⟨w, err, _, hc, _, e⟩ | ⟨w, _, hc, e⟩
  · rw [h] at hp
    simp at hp
  · rw [e, hc]
    simp
  · rw [e, hc]
    simp
  · rw [e, hc]
    simp

theorem setupLoop_cons_log (t : Probe) (rest : List Probe) (st : SetupState W) (ev : Event)
    (hev : ev ∈ (setupStep ext d cfg device netnsFd st t).log) :
    ev ∈ (setupLoop ext d cfg device netnsFd (t :: rest) st).log := by
  simp only [setupLoop]
  cases he : (setupStep ext d cfg device netnsFd st t).ret with
  | some err => exact hev
  | none => exact List.mem_append_left _ hev

theorem setupLoop_log_of_initial (pre rest : List Probe) (st : SetupState W) (ev : Event)
    (hev : ev ∈ (setupLoop ext d cfg device netnsFd pre st).log) :
    ev ∈ (setupLoop ext d cfg device netnsFd (pre ++ rest) st).log := by
  induction pre generalizing st with
  | nil => simp [setupLoop] at hev
  | cons t ts ih =>
    rw [List.cons_append]
    simp only [setupLoop] at hev ⊢
    cases he : (setupStep ext d cfg device netnsFd st t).ret with
    | some err =>
      simp only [he] at hev ⊢
      exact hev
    | none =>
      simp only [he, List.mem_append] at hev ⊢
      rcases hev with h1 | h1
      · exact Or.inl h1
      · exact Or.inr (ih _ h1)

/-- For templates `pre ++ t :: post`, when the loop gets past `pre` and the
key of `t` is not in the map then, the log holds the call to `CloneProgram`
for `t` with the answer of the driver in the world left by the loop over
`pre`. -/
theorem setupLoop_clone_at (pre post : List Probe) (t : Probe) (st : SetupState W)
    (hpre : (setupLoop ext d cfg device netnsFd pre st).ret = none)
    (h : (setupLoop ext d cfg device netnsFd pre st).state.programs.get? (progKeyOf device t)
      = none) :
    Event.clone (progKeyOf device t) ext.SecurityAgentUID (newProbeOf ext cfg device netnsFd t)
        (netnsEditorOf device)
        (d.CloneProgram (setupLoop ext d cfg device netnsFd pre st).state.world
          ext.SecurityAgentUID (newProbeOf ext cfg device netnsFd t) (netnsEditorOf device)).2
      ∈ (setupLoop ext d cfg device netnsFd (pre ++ t :: post) st).log := by
  rw [setupLoop_append ext d cfg device netnsFd pre (t :: post) st hpre]
  apply List.mem_append_right
  apply setupLoop_cons_log
  exact setupStep_log_clone ext d cfg device netnsFd _ t h

/-- Every call to `CloneProgram` in the log of the loop is the call for a
template `t` of the list, made when the loop got past the templates before
`t` and did not find the key of `t` in the map, and the result it logs is the
answer of the driver in the world left by the loop over these templates. -/
theorem setupLoop_clone_origin (ts : List Probe) (st : SetupState W) (ev : Event)
    (hev : ev ∈ (setupLoop ext d cfg device netnsFd ts st).log) (hc : ev.isClone = true) :
    ∃ (pre post : List Probe) (t : Probe), ts = pre ++ t :: post
      ∧ (setupLoop ext d cfg device netnsFd pre st).ret = none
      ∧ (setupLoop ext d cfg device netnsFd pre st).state.programs.get? (progKeyOf device t)
        = none
      ∧ ev = Event.clone (progKeyOf device t) ext.SecurityAgentUID
          (newProbeOf ext cfg device netnsFd t) (netnsEditorOf device)
          (d.CloneProgram (setupLoop ext d cfg device netnsFd pre st).state.world
            ext.SecurityAgentUID (newProbeOf ext cfg device netnsFd t)
            (netnsEditorOf device)).2 := by
  induction ts generalizing st with
  | nil => simp [setupLoop] at hev
  | cons t rest ih =>
    have later : (setupStep ext d cfg device netnsFd st t).ret = none →
        ev ∈ (setupLoop ext d cfg device netnsFd rest
          (setupStep ext d cfg device netnsFd st t).state).log →
        ∃ (pre post : List Probe) (u : Probe), t :: rest = pre ++ u :: post
          ∧ (setupLoop ext d cfg device netnsFd pre st).ret = none
          ∧ (setupLoop ext d cfg device netnsFd pre st).state.programs.get?
              (progKeyOf device u) = none
          ∧ ev = Event.clone (progKeyOf device u) ext.SecurityAgentUID
              (newProbeOf ext cfg device netnsFd u) (netnsEditorOf device)
              (d.CloneProgram (setupLoop ext d cfg device netnsFd pre st).state.world
                ext.SecurityAgentUID (newProbeOf ext cfg device netnsFd u)
                (netnsEditorOf device)).2 := by
      intro hret h2
      obtain ⟨pre, post, u, hs, h3, h4, h5⟩ := ih _ h2
      refine ⟨t :: pre, post, u, by rw [hs]; rfl, ?_, ?_, ?_⟩
      · simp only [setupLoop, hret]
        exact h3
      · simp only [setupLoop, hret]
        exact h4
      · simp only [setupLoop, hret]
        exact h5
    have here : st.programs.get? (progKeyOf device t) = none →
        ev = Event.clone (progKeyOf device t) ext.SecurityAgentUID
          (newProbeOf ext cfg device netnsFd t) (netnsEditorOf device)
          (d.CloneProgram st.world ext.SecurityAgentUID (newProbeOf ext cfg device netnsFd t)
            (netnsEditorOf device)).2 →
        ∃ (pre post : List Probe) (u : Probe), t :: rest = pre ++ u :: post
          ∧ (setupLoop ext d cfg device netnsFd pre st).ret = none
          ∧ (setupLoop ext d cfg device netnsFd pre st).state.programs.get?
              (progKeyOf device u) = none
          ∧ ev = Event.clone (progKeyOf device u) ext.SecurityAgentUID
              (newProbeOf ext cfg device netnsFd u) (netnsEditorOf device)
              (d.CloneProgram (setupLoop ext d cfg device netnsFd pre st).state.world
                ext.SecurityAgentUID (newProbeOf ext cfg device netnsFd u)
                (netnsEditorOf device)).2 := by
      intro hnone hev2
      exact ⟨[], rest, t, rfl, by simp [setupLoop], by simpa [setupLoop] using hnone,
        by simpa [setupLoop] using hev2⟩
    rcases setupStep_cases ext d cfg device netnsFd st t with
      ⟨p, _, e⟩ | ⟨w, err, hn, hcl, _, e⟩ | ⟨w, err, hn, hcl, _, e⟩ | ⟨w, hn, hcl, e⟩
    · have hret : (setupStep ext d cfg device netnsFd st t).ret = none := by rw [e]
      simp only [setupLoop, hret, List.mem_append] at hev
      rcases hev with h1 | h1
      · rw [e] at h1
        simp only [List.mem_singleton] at h1
        rw [h1] at hc
        simp [Event.isClone] at hc
      · exact later hret h1
    · simp only [setupLoop, e, List.mem_singleton] at hev
      apply here hn
      rw [hev, hcl]
    · have hret : (setupStep ext d cfg device netnsFd st t).ret = none := by rw [e]
      simp only [setupLoop, hret, List.mem_append] at hev
      rcases hev with h1 | h1
      · rw [e] at h1
        simp only [List.mem_singleton] at h1
        apply here hn
        rw [h1, hcl]
      · exact later hret h1
    · have hret : (setupStep ext d cfg device netnsFd st t).ret = none := by rw [e]
      simp only [setupLoop, hret, List.mem_append] at hev
      rcases hev with h1 | h1
      · rw [e] at h1
        simp only [List.mem_cons, List.mem_singleton, List.not_mem_nil, or_false] at h1
        rcases h1 with h1 | h1
        · apply here hn
          rw [h1, hcl]
        · rw [h1] at hc
          simp [Event.isClone] at hc
      · exact later hret h1

end SetupSplitLemmas

/-- C4 (recoverable collection). When no call to `CloneProgram` fails with a
link-not-found error, setup handles every template of the catalog, in catalog
order: for a catalog `pre ++ t :: post` the loop gets past `pre`; when the
key of `t` is in the map then, the entry is left as it is; when it is not,
`CloneProgram` is called for `t` in the world left by the loop over `pre`,
and when the driver answers nil the new probe is in the map under that key,
and when it answers an error, the error is not a link-not-found error and
its wrapped form is in the aggregate that setup returns. Every call to
`CloneProgram` in the log is such a call, with the answer of the driver. The
error that setup returns is `ErrorOrNil` of the list holding exactly one
wrapped error per failed call, in order; the number of collected errors is
the number of failed calls; and the result is nil exactly when no call
failed, that is, when for every template the key was in the map or the driver
answered nil. On the example catalog with a driver that fails for the second
template, the first and third are attached and the aggregate holds the one
error. -/
theorem setup_recoverable_collection {W : Type} (ext : Externals) (d : Driver W) (tcr : Resolver)
    (device : NetDevice) (netnsFd : Nat) (w : W)
    (h : ∀ ev ∈ (SetupNewTCClassifierWithNetNSHandle ext d tcr device netnsFd w).log,
      ev.isFatalClone = false) :
    processedKeys (SetupNewTCClassifierWithNetNSHandle ext d tcr device netnsFd w).log
      = (ext.GetTCProbes tcr.config.NetworkIngressEnabled
          tcr.config.NetworkRawPacketEnabled).map (progKeyOf device)
    ∧ (SetupNewTCClassifierWithNetNSHandle ext d tcr device netnsFd w).err
      = ErrorOrNil (cloneFailures
          (SetupNewTCClassifierWithNetNSHandle ext d tcr device netnsFd w).log)
    ∧ (cloneFailures (SetupNewTCClassifierWithNetNSHandle ext d tcr device netnsFd w).log).length
      = (SetupNewTCClassifierWithNetNSHandle ext d tcr device netnsFd w).log.countP
          Event.isFailedClone
    ∧ ((SetupNewTCClassifierWithNetNSHandle ext d tcr device netnsFd w).err = none
      ↔ ∀ ev ∈ (SetupNewTCClassifierWithNetNSHandle ext d tcr device netnsFd w).log,
          ev.isFailedClone = false)
    ∧ (∀ (pre post : List Probe) (t : Probe),
        ext.GetTCProbes tcr.config.NetworkIngressEnabled tcr.config.NetworkRawPacketEnabled
          = pre ++ t :: post →
        (setupLoop ext d tcr.config device netnsFd pre
          { programs := tcr.programs, world := w, combinedErr := [] }).ret = none
        ∧ (∀ p, (setupLoop ext d tcr.config device netnsFd pre
              { programs := tcr.programs, world := w, combinedErr := [] }).state.programs.get?
                (progKeyOf device t) = some p →
            (SetupNewTCClassifierWithNetNSHandle ext d tcr device netnsFd w).tcr.programs.get?
              (progKeyOf device t) = some p)
        ∧ ((setupLoop ext d tcr.config device netnsFd pre
              { programs := tcr.programs, world := w, combinedErr := [] }).state.programs.get?
                (progKeyOf device t) = none →
            Event.clone (progKeyOf device t) ext.SecurityAgentUID
                (newProbeOf ext tcr.config device netnsFd t) (netnsEditorOf device)
                (d.CloneProgram (setupLoop ext d tcr.config device netnsFd pre
                    { programs := tcr.programs, world := w, combinedErr := [] }).state.world
                  ext.SecurityAgentUID (newProbeOf ext tcr.config device netnsFd t)
                  (netnsEditorOf device)).2
              ∈ (SetupNewTCClassifierWithNetNSHandle ext d tcr device netnsFd w).log
            ∧ ((d.CloneProgram (setupLoop ext d tcr.config device netnsFd pre
                    { programs := tcr.programs, world := w, combinedErr := [] }).state.world
                  ext.SecurityAgentUID (newProbeOf ext tcr.config device netnsFd t)
                  (netnsEditorOf device)).2 = none →
                (SetupNewTCClassifierWithNetNSHandle ext d tcr device netnsFd
                  w).tcr.programs.get? (progKeyOf device t)
                  = some (newProbeOf ext tcr.config device netnsFd t))
            ∧ (∀ err, (d.CloneProgram (setupLoop ext d tcr.config device netnsFd pre
                    { programs := tcr.programs, world := w, combinedErr := [] }).state.world
                  ext.SecurityAgentUID (newProbeOf ext tcr.config device netnsFd t)
                  (netnsEditorOf device)).2 = some err →
                err.asLinkNotFound = false
                ∧ ∃ errs, (SetupNewTCClassifierWithNetNSHandle ext d tcr device netnsFd w).err
                    = some (SetupError.combined errs)
                  ∧ ({ pair := t.ProbeIdentificationPair, cause := err } : CloneFailure)
                    ∈ errs)))
    ∧ (∀ ev ∈ (SetupNewTCClassifierWithNetNSHandle ext d tcr device netnsFd w).log,
        ev.isClone = true →
        ∃ (pre post : List Probe) (t : Probe),
          ext.GetTCProbes tcr.config.NetworkIngressEnabled tcr.config.NetworkRawPacketEnabled
            = pre ++ t :: post
          ∧ (setupLoop ext d tcr.config device netnsFd pre
              { programs := tcr.programs, world := w, combinedErr := [] }).state.programs.get?
                (progKeyOf device t) = none
          ∧ ev = Event.clone (progKeyOf device t) ext.SecurityAgentUID
              (newProbeOf ext tcr.config device netnsFd t) (netnsEditorOf device)
              (d.CloneProgram (setupLoop ext d tcr.config device netnsFd pre
                  { programs := tcr.programs, world := w, combinedErr := [] }).state.world
                ext.SecurityAgentUID (newProbeOf ext tcr.config device netnsFd t)
                (netnsEditorOf device)).2)
    ∧ ((SetupNewTCClassifierWithNetNSHandle ext d tcr device netnsFd w).err = none
      ↔ ∀ (pre post : List Probe) (t : Probe),
          ext.GetTCProbes tcr.config.NetworkIngressEnabled tcr.config.NetworkRawPacketEnabled
            = pre ++ t :: post →
          (setupLoop ext d tcr.config device netnsFd pre
            { programs := tcr.programs, world := w, combinedErr := [] }).state.programs.get?
              (progKeyOf device t) = none →
          (d.CloneProgram (setupLoop ext d tcr.config device netnsFd pre
              { programs := tcr.programs, world := w, combinedErr := [] }).state.world
            ext.SecurityAgentUID (newProbeOf ext tcr.config device netnsFd t)
            (netnsEditorOf device)).2 = none)
    ∧ ((SetupNewTCClassifierWithNetNSHandle exExt exDriverRecoverable exResolver exDevice 3
          0).err
        = some (SetupError.combined
            [{ pair := { UID := "security", EBPFFuncName := "classifier_raw_packet_egress" }
               cause := GoError.other "file exists" }])
      ∧ (SetupNewTCClassifierWithNetNSHandle exExt exDriverRecoverable exResolver exDevice 3
          0).tcr.programs.map (fun e => e.1.FuncName)
        = ["classifier_egress", "classifier_ingress"]) := by
  have hn := setupLoop_noFatal ext d tcr.config device netnsFd
    (ext.GetTCProbes tcr.config.NetworkIngressEnabled tcr.config.NetworkRawPacketEnabled)
    { programs := tcr.programs, world := w, combinedErr := [] } h
  have hk := setupLoop_processedKeys ext d tcr.config device netnsFd _ _ hn.1
  have herr : (SetupNewTCClassifierWithNetNSHandle ext d tcr device netnsFd w).err
      = ErrorOrNil (cloneFailures
          (SetupNewTCClassifierWithNetNSHandle ext d tcr device netnsFd w).log) := by
    unfold SetupNewTCClassifierWithNetNSHandle
    simp only [hn.1, hn.2, List.nil_append]
  have hnil : (SetupNewTCClassifierWithNetNSHandle ext d tcr device netnsFd w).err = none
      ↔ ∀ ev ∈ (SetupNewTCClassifierWithNetNSHandle ext d tcr device netnsFd w).log,
          ev.isFailedClone = false := by
    rw [herr, ← cloneFailures_eq_nil_iff]
    unfold ErrorOrNil
    cases cloneFailures (SetupNewTCClassifierWithNetNSHandle ext d tcr device netnsFd w).log
      <;> simp
  have hsplit : ∀ (pre post : List Probe) (t : Probe),
      ext.GetTCProbes tcr.config.NetworkIngressEnabled tcr.config.NetworkRawPacketEnabled
        = pre ++ t :: post →
      (setupLoop ext d tcr.config device netnsFd pre
        { programs := tcr.programs, world := w, combinedErr := [] }).ret = none := by
    intro pre post t hs
    apply (setupLoop_noFatal ext d tcr.config device netnsFd pre _ _).1
    intro ev hev
    apply h ev
    show ev ∈ (setupLoop ext d tcr.config device netnsFd
      (ext.GetTCProbes tcr.config.NetworkIngressEnabled tcr.config.NetworkRawPacketEnabled)
      { programs := tcr.programs, world := w, combinedErr := [] }).log
    rw [hs]
    exact setupLoop_log_of_initial ext d tcr.config device netnsFd pre (t :: post) _ ev hev
  have hat : ∀ (pre post : List Probe) (t : Probe),
      ext.GetTCProbes tcr.config.NetworkIngressEnabled tcr.config.NetworkRawPacketEnabled
        = pre ++ t :: post →
      (setupLoop ext d tcr.config device netnsFd pre
        { programs := tcr.programs, world := w, combinedErr := [] }).state.programs.get?
          (progKeyOf device t) = none →
      Event.clone (progKeyOf device t) ext.SecurityAgentUID
          (newProbeOf ext tcr.config device netnsFd t) (netnsEditorOf device)
          (d.CloneProgram (setupLoop ext d tcr.config device netnsFd pre
              { programs := tcr.programs, world := w, combinedErr := [] }).state.world
            ext.SecurityAgentUID (newProbeOf ext tcr.config device netnsFd t)
            (netnsEditorOf device)).2
        ∈ (SetupNewTCClassifierWithNetNSHandle ext d tcr device netnsFd w).log := by
    intro pre post t hs hget
    show _ ∈ (setupLoop ext d tcr.config device netnsFd
      (ext.GetTCProbes tcr.config.NetworkIngressEnabled tcr.config.NetworkRawPacketEnabled)
      { programs := tcr.programs, world := w, combinedErr := [] }).log
    rw [hs]
    exact setupLoop_clone_at ext d tcr.config device netnsFd pre post t _
      (hsplit pre post t hs) hget
  refine ⟨hk, herr, cloneFailures_length _, hnil, ?_, ?_, ?_, by decide, by decide⟩
  · intro pre post t hs
    refine ⟨hsplit pre post t hs, ?_, ?_⟩
    · intro p hp
      show (setupLoop ext d tcr.config device netnsFd
        (ext.GetTCProbes tcr.config.NetworkIngressEnabled tcr.config.NetworkRawPacketEnabled)
        { programs := tcr.programs, world := w, combinedErr := [] }).state.programs.get?
          (progKeyOf device t) = some p
      rw [hs, setupLoop_append ext d tcr.config device netnsFd pre (t :: post) _
        (hsplit pre post t hs)]
      exact setupLoop_keeps ext d tcr.config device netnsFd (t :: post) _ _ _ hp
    · intro hget
      have hev := hat pre post t hs hget
      refine ⟨hev, ?_, ?_⟩
      · intro hres
        rw [hres] at hev
        exact setupLoop_cloned_present ext d tcr.config device netnsFd _ _ _ _ _ _ hev
      · intro err hres
        rw [hres] at hev
        have hnf := h _ hev
        refine ⟨by simpa [Event.isFatalClone] using hnf, ?_⟩
        have hin : ({ pair := t.ProbeIdentificationPair, cause := err } : CloneFailure)
            ∈ cloneFailures
              (SetupNewTCClassifierWithNetNSHandle ext d tcr device netnsFd w).log := by
          unfold cloneFailures
          rw [List.mem_filterMap]
          exact ⟨_, hev, rfl⟩
        rw [herr]
        unfold ErrorOrNil
        cases hcf : cloneFailures
            (SetupNewTCClassifierWithNetNSHandle ext d tcr device netnsFd w).log with
        | nil =>
          rw [hcf] at hin
          simp at hin
        | cons a l =>
          rw [hcf] at hin
          exact ⟨a :: l, by simp, hin⟩
  · intro ev hev hc
    obtain ⟨pre, post, t, hs, _, h4, h5⟩ := setupLoop_clone_origin ext d tcr.config device
      netnsFd _ _ ev hev hc
    exact ⟨pre, post, t, hs, h4, h5⟩
  · rw [hnil]
    constructor
    · intro hall pre post t hs hget
      have hev := hat pre post t hs hget
      have := hall _ hev
      cases hres : (d.CloneProgram (setupLoop ext d tcr.config device netnsFd pre
          { programs := tcr.programs, world := w, combinedErr := [] }).state.world
        ext.SecurityAgentUID (newProbeOf ext tcr.config device netnsFd t)
        (netnsEditorOf device)).2 with
      | none => rfl
      | some err =>
        rw [hres] at this
        simp [Event.isFailedClone] at this
    · intro hall ev hev
      cases hc : ev.isClone with
      | false =>
        cases ev <;> simp [Event.isClone] at hc <;> simp [Event.isFailedClone]
      | true =>
        obtain ⟨pre, post, t, hs, _, h4, h5⟩ := setupLoop_clone_origin ext d tcr.config device
          netnsFd _ _ ev hev hc
        rw [h5, hall pre post t hs h4]
        simp [Event.isFailedClone]

/-- Witness of C4 on the example catalog: the second of three templates
fails with a recoverable error. -/
theorem setup_recoverable_collection_witness :
    (∀ ev ∈ (SetupNewTCClassifierWithNetNSHandle exExt exDriverRecoverable exResolver
        exDevice 3 0).log, ev.isFatalClone = false)
    ∧ (SetupNewTCClassifierWithNetNSHandle exExt exDriverRecoverable exResolver exDevice 3 0).err
      = ErrorOrNil (cloneFailures
          (SetupNewTCClassifierWithNetNSHandle exExt exDriverRecoverable exResolver
            exDevice 3 0).log) :=
  ⟨by decide,
    (setup_recoverable_collection exExt exDriverRecoverable exResolver exDevice 3 0
      (by decide)).2.1⟩


theorem flushLoop_no_match {W : Type} (d : Driver W) (namespaceID : Nat)
    (l : List (ProgramKey × Probe)) (st : FlushState W)
    (h : ∀ e ∈ l, e.1.NetDevice.NetNS ≠ namespaceID) :
    flushLoop d namespaceID l st = (st, []) := by
  induction l generalizing st with
  | nil => rfl
  | cons hd tl ih =>
    obtain ⟨k, p⟩ := hd
    have hk : ¬ k.NetDevice.NetNS = namespaceID := h (k, p) (List.mem_cons_self _ _)
    simp only [flushLoop, hk, if_false]
    exact ih st (fun e he => h e (List.mem_cons_of_mem _ he))

theorem sweepLoop_subset {W : Type} (d : Driver W) (isLazy : String → Bool)
    (l : List (ProgramKey × Probe)) (st : FlushState W) (c : CountMap) :
    ∀ e ∈ (sweepLoop d isLazy l st c).state.programs, e ∈ st.programs := by
  induction l generalizing st c with
  | nil => simp [sweepLoop]
  | cons hd tl ih =>
    obtain ⟨k, p⟩ := hd
    cases ha : (d.IsTCFilterActive st.world p).2 with
    | false =>
      rw [sweepLoop_inactive d isLazy k p tl st c ha]
      intro e he
      have h2 := ih _ _ e he
      exact (List.mem_filter.mp h2).1
    | true =>
      cases hl : (d.ResolveLink (d.IsTCFilterActive st.world p).1 p).2 with
      | error err =>
        rw [sweepLoop_unresolved d isLazy k p tl st c err ha hl]
        intro e he
        exact he
      | ok link =>
        by_cases hh : link.Attrs.HardwareAddr = []
        · rw [sweepLoop_unaddressed d isLazy k p tl st c link ha hl hh]
          intro e he
          have h2 := ih _ _ e he
          exact h2
        · rw [sweepLoop_addressed d isLazy k p tl st c link ha hl hh]
          intro e he
          have h2 := ih _ _ e he
          exact h2

theorem NameConsistent_of_subset (m m2 : ProgramMap) (hsub : ∀ e ∈ m2, e ∈ m)
    (h : NameConsistent m) : NameConsistent m2 :=
  fun e1 h1 e2 h2 => h e1 (hsub e1 h1) e2 (hsub e2 h2)

theorem resolveLoop_perm (ifIndex netNS : Nat) (m m2 : List (ProgramKey × Probe))
    (h : NameConsistent m) (hp : m2.Perm m) :
    resolveLoop ifIndex netNS m2 = resolveLoop ifIndex netNS m := by
  obtain ⟨a1, a2, a3⟩ := resolveLoop_spec ifIndex netNS m
  obtain ⟨b1, b2, b3⟩ := resolveLoop_spec ifIndex netNS m2
  cases hm : (resolveLoop ifIndex netNS m).2 with
  | false =>
    have hm2 : (resolveLoop ifIndex netNS m2).2 = false := by
      cases hb : (resolveLoop ifIndex netNS m2).2 with
      | false => rfl
      | true =>
        obtain ⟨e, he, hmatch⟩ := b1.mp hb
        have := a1.mpr ⟨e, hp.mem_iff.mp he, hmatch⟩
        rw [hm] at this
        exact absurd this (by simp)
    rw [a3 hm, b3 hm2]
  | true =>
    obtain ⟨e, he, hi, hn, hname⟩ := a2 hm
    have hm2 : (resolveLoop ifIndex netNS m2).2 = true :=
      b1.mpr ⟨e, hp.mem_iff.mpr he, hi, hn⟩
    obtain ⟨e2, he2, hi2, hn2, hname2⟩ := b2 hm2
    have hsame := h e2 (hp.mem_iff.mp he2) e he (hi2.trans hi.symm) (hn2.trans hn.symm)
    exact Prod.ext (by rw [hname2, hname, hsame]) (by rw [hm2, hm])

/-! ## Theorems on the parameters of a clone, the frame of the flush, the fatal
abort and the lookup identity -/

/-- C22 (setup parameters of a new attachment). Every call to `CloneProgram`
in the log of setup is made for a template of the catalog, with the agent
UID, and hands the driver a probe whose UID is `Key()` of the program key,
whose function name and traffic direction are those of the template, with
`IfIndex` the interface index of the device, `IfIndexNetnsID` its namespace,
`IfIndexNetns` the file descriptor of the namespace handle, `CopyProgram`
set and `KeepProgramSpec` unset, `TCFilterPrio` the configured classifier
priority, and `TCFilterHandle` made from `RawNetworkClassifierHandle` when the
function of the template is in the raw-packet list and from
`NetworkClassifierHandle` otherwise; the editors are exactly one constant
named `netns` whose value is the namespace of the device. -/
theorem setup_clone_parameters {W : Type} (ext : Externals) (d : Driver W) (tcr : Resolver)
    (device : NetDevice) (netnsFd : Nat) (w : W) (key : ProgramKey) (uid : String)
    (probe : Probe) (editors : List ConstantEditor) (res : Option GoError)
    (h : Event.clone key uid probe editors res
      ∈ (SetupNewTCClassifierWithNetNSHandle ext d tcr device netnsFd w).log) :
    ∃ t ∈ ext.GetTCProbes tcr.config.NetworkIngressEnabled tcr.config.NetworkRawPacketEnabled,
      key = { UID := t.ProbeIdentificationPair.UID
              FuncName := t.ProbeIdentificationPair.EBPFFuncName
              NetDevice := device
              NetworkDirection := t.NetworkDirection }
      ∧ uid = ext.SecurityAgentUID
      ∧ probe.ProbeIdentificationPair.UID = key.Key ext
      ∧ probe.ProbeIdentificationPair.EBPFFuncName = t.ProbeIdentificationPair.EBPFFuncName
      ∧ probe.NetworkDirection = t.NetworkDirection
      ∧ probe.CopyProgram = true
      ∧ probe.KeepProgramSpec = false
      ∧ probe.IfIndex = device.IfIndex
      ∧ probe.IfIndexNetns = netnsFd
      ∧ probe.IfIndexNetnsID = device.NetNS
      ∧ probe.TCFilterPrio = tcr.config.NetworkClassifierPriority
      ∧ probe.TCFilterHandle
        = (if t.ProbeIdentificationPair.EBPFFuncName ∈ ext.RawPacketTCProgram then
            MakeHandle 0 tcr.config.RawNetworkClassifierHandle
          else MakeHandle 0 tcr.config.NetworkClassifierHandle)
      ∧ MakeHandle 0 tcr.config.RawNetworkClassifierHandle
        = tcr.config.RawNetworkClassifierHandle % 65536
      ∧ MakeHandle 0 tcr.config.NetworkClassifierHandle
        = tcr.config.NetworkClassifierHandle % 65536
      ∧ editors = [{ Name := "netns", Value := device.NetNS }] := by
  obtain ⟨t, ht, res2, heq⟩ := setupLoop_clone_shape ext d tcr.config device netnsFd _ _ _ h rfl
  simp only [Event.clone.injEq] at heq
  obtain ⟨hk, hu, hp, he, _⟩ := heq
  refine ⟨t, ht, hk, hu, ?_, ?_, ?_, ?_, ?_, ?_, ?_, ?_, ?_, ?_, ?_, ?_, he⟩
  all_goals first
    | (rw [hp, hk]; rfl)
    | (rw [hp]; rfl)
    | simp [MakeHandle]

/-- Witness of C22: the clone of the raw-packet classifier on `exDevice`. -/
theorem setup_clone_parameters_witness :
    Event.clone (progKeyOf exDevice (exTemplate "classifier_raw_packet_egress" 65523)) "security"
        (newProbeOf exExt exConfig exDevice 3 (exTemplate "classifier_raw_packet_egress" 65523))
        [{ Name := "netns", Value := 100 }] none
      ∈ (SetupNewTCClassifierWithNetNSHandle exExt exDriverOk exResolver exDevice 3 0).log
    ∧ ∃ t ∈ exExt.GetTCProbes exResolver.config.NetworkIngressEnabled
          exResolver.config.NetworkRawPacketEnabled,
        (newProbeOf exExt exConfig exDevice 3
            (exTemplate "classifier_raw_packet_egress" 65523)).TCFilterHandle
          = (if t.ProbeIdentificationPair.EBPFFuncName ∈ exExt.RawPacketTCProgram then
              MakeHandle 0 exResolver.config.RawNetworkClassifierHandle
            else MakeHandle 0 exResolver.config.NetworkClassifierHandle) :=
  ⟨by decide,
    (setup_clone_parameters exExt exDriverOk exResolver exDevice 3 0
      (progKeyOf exDevice (exTemplate "classifier_raw_packet_egress" 65523)) "security"
      (newProbeOf exExt exConfig exDevice 3 (exTemplate "classifier_raw_packet_egress" 65523))
      [{ Name := "netns", Value := 100 }] none (by decide)).elim
      (fun t ht => ⟨t, ht.1, ht.2.2.2.2.2.2.2.2.2.2.2.2.1⟩)⟩

/-- C26 (flush frame and idempotence). `FlushNetworkNamespaceID` leaves the
entries of the other namespaces in the map, in their order, each with its key
and probe; every call to `DetachHook` it makes is for an entry of the flushed
namespace; and a second flush of the same namespace, right after the first,
through any driver and from any world, leaves the resolver and the world as
they are and makes no call at all. -/
theorem flush_frame_idempotent {W W2 : Type} (d : Driver W) (d2 : Driver W2) (tcr : Resolver)
    (namespaceID : Nat) (w : W) (w2 : W2) :
    (FlushNetworkNamespaceID d tcr namespaceID w).tcr.programs
      = tcr.programs.filter (fun e => decide (e.1.NetDevice.NetNS ≠ namespaceID))
    ∧ (∀ e ∈ tcr.programs, e.1.NetDevice.NetNS ≠ namespaceID →
        e ∈ (FlushNetworkNamespaceID d tcr namespaceID w).tcr.programs)
    ∧ (∀ c ∈ detachCalls (FlushNetworkNamespaceID d tcr namespaceID w).log,
        c.1.NetDevice.NetNS = namespaceID)
    ∧ (FlushNetworkNamespaceID d2 (FlushNetworkNamespaceID d tcr namespaceID w).tcr
        namespaceID w2).tcr = (FlushNetworkNamespaceID d tcr namespaceID w).tcr
    ∧ (FlushNetworkNamespaceID d2 (FlushNetworkNamespaceID d tcr namespaceID w).tcr
        namespaceID w2).log = []
    ∧ (FlushNetworkNamespaceID d2 (FlushNetworkNamespaceID d tcr namespaceID w).tcr
        namespaceID w2).world = w2 := by
  have hp := flush_programs d namespaceID tcr w
  have hnone : ∀ e ∈ (FlushNetworkNamespaceID d tcr namespaceID w).tcr.programs,
      e.1.NetDevice.NetNS ≠ namespaceID := by
    intro e he
    rw [hp] at he
    simpa using (List.mem_filter.mp he).2
  have h2 := flushLoop_no_match d2 namespaceID
    (FlushNetworkNamespaceID d tcr namespaceID w).tcr.programs
    { programs := (FlushNetworkNamespaceID d tcr namespaceID w).tcr.programs, world := w2 } hnone
  refine ⟨hp, ?_, ?_, ?_, ?_, ?_⟩
  · intro e he hne
    rw [hp]
    exact List.mem_filter.mpr ⟨he, by simpa using hne⟩
  · intro c hc
    have hcalls := flushLoop_detachCalls d namespaceID tcr.programs
      { programs := tcr.programs, world := w }
    have hc2 : c ∈ (tcr.programs.filter
        (fun e => decide (e.1.NetDevice.NetNS = namespaceID))).map
          (fun e => (e.1, e.2.ProbeIdentificationPair)) := by
      rw [← hcalls]; exact hc
    obtain ⟨e, he, hce⟩ := List.mem_map.mp hc2
    rw [← hce]
    simpa using (List.mem_filter.mp he).2
  · show ({ (FlushNetworkNamespaceID d tcr namespaceID w).tcr with
        programs := (flushLoop d2 namespaceID
          (FlushNetworkNamespaceID d tcr namespaceID w).tcr.programs
          { programs := (FlushNetworkNamespaceID d tcr namespaceID w).tcr.programs
            world := w2 }).1.programs } : Resolver)
      = (FlushNetworkNamespaceID d tcr namespaceID w).tcr
    rw [h2]
  · show (flushLoop d2 namespaceID
        (FlushNetworkNamespaceID d tcr namespaceID w).tcr.programs
        { programs := (FlushNetworkNamespaceID d tcr namespaceID w).tcr.programs
          world := w2 }).2 = []
    rw [h2]
  · show (flushLoop d2 namespaceID
        (FlushNetworkNamespaceID d tcr namespaceID w).tcr.programs
        { programs := (FlushNetworkNamespaceID d tcr namespaceID w).tcr.programs
          world := w2 }).1.world = w2
    rw [h2]

/-- C27 (no rollback on a fatal abort). Let the catalog be `pre ++ t :: post`
and let setup reach `t` and get a link-not-found error `err` for it. Then the
map that setup leaves is the map the loop had built after `pre`: it holds,
under its key, the probe of every successful call to `CloneProgram` made
during `pre`, and every entry that was there before the call. The returned
error is `err` itself and not an aggregate, although the loop held at that
point one wrapped error per failed call of `pre`; these errors are in no
part of the result. -/
theorem setup_no_rollback {W : Type} (ext : Externals) (d : Driver W) (tcr : Resolver)
    (device : NetDevice) (netnsFd : Nat) (w w1 : W) (pre post : List Probe) (t : Probe)
    (err : GoError)
    (hcat : ext.GetTCProbes tcr.config.NetworkIngressEnabled tcr.config.NetworkRawPacketEnabled
      = pre ++ t :: post)
    (hpre : (setupLoop ext d tcr.config device netnsFd pre
      { programs := tcr.programs, world := w, combinedErr := [] }).ret = none)
    (habsent : (setupLoop ext d tcr.config device netnsFd pre
      { programs := tcr.programs, world := w, combinedErr := [] }).state.programs.get?
        (progKeyOf device t) = none)
    (hclone : d.CloneProgram
      (setupLoop ext d tcr.config device netnsFd pre
        { programs := tcr.programs, world := w, combinedErr := [] }).state.world
      ext.SecurityAgentUID (newProbeOf ext tcr.config device netnsFd t) (netnsEditorOf device)
        = (w1, some err))
    (hfatal : err.asLinkNotFound = true) :
    (SetupNewTCClassifierWithNetNSHandle ext d tcr device netnsFd w).tcr.programs
      = (setupLoop ext d tcr.config device netnsFd pre
          { programs := tcr.programs, world := w, combinedErr := [] }).state.programs
    ∧ (∀ (key : ProgramKey) (uid : String) (probe : Probe) (eds : List ConstantEditor),
        Event.clone key uid probe eds none
          ∈ (SetupNewTCClassifierWithNetNSHandle ext d tcr device netnsFd w).log →
        (SetupNewTCClassifierWithNetNSHandle ext d tcr device netnsFd w).tcr.programs.get? key
          = some probe)
    ∧ (∀ (key : ProgramKey) (probe : Probe), tcr.programs.get? key = some probe →
        (SetupNewTCClassifierWithNetNSHandle ext d tcr device netnsFd w).tcr.programs.get? key
          = some probe)
    ∧ (SetupNewTCClassifierWithNetNSHandle ext d tcr device netnsFd w).err
      = some (SetupError.direct err)
    ∧ (setupLoop ext d tcr.config device netnsFd pre
          { programs := tcr.programs, world := w, combinedErr := [] }).state.combinedErr
      = cloneFailures (setupLoop ext d tcr.config device netnsFd pre
          { programs := tcr.programs, world := w, combinedErr := [] }).log
    ∧ (∀ errs : List CloneFailure,
        (SetupNewTCClassifierWithNetNSHandle ext d tcr device netnsFd w).err
          ≠ some (SetupError.combined errs)) := by
  have hstep := setupStep_fatal ext d tcr.config device netnsFd _ t w1 err habsent hclone hfatal
  have hrun : setupLoop ext d tcr.config device netnsFd (pre ++ t :: post)
      { programs := tcr.programs, world := w, combinedErr := [] }
      = { state := { (setupLoop ext d tcr.config device netnsFd pre
              { programs := tcr.programs, world := w, combinedErr := [] }).state with world := w1 }
          log := (setupLoop ext d tcr.config device netnsFd pre
              { programs := tcr.programs, world := w, combinedErr := [] }).log
            ++ [Event.clone (progKeyOf device t) ext.SecurityAgentUID
              (newProbeOf ext tcr.config device netnsFd t) (netnsEditorOf device) (some err)]
          ret := some err } := by
    rw [setupLoop_append ext d tcr.config device netnsFd pre (t :: post) _ hpre]
    simp [setupLoop, hstep]
  have hprog : (SetupNewTCClassifierWithNetNSHandle ext d tcr device netnsFd w).tcr.programs
      = (setupLoop ext d tcr.config device netnsFd pre
          { programs := tcr.programs, world := w, combinedErr := [] }).state.programs := by
    unfold SetupNewTCClassifierWithNetNSHandle
    rw [hcat, hrun]
  have hlog : (SetupNewTCClassifierWithNetNSHandle ext d tcr device netnsFd w).log
      = (setupLoop ext d tcr.config device netnsFd pre
          { programs := tcr.programs, world := w, combinedErr := [] }).log
        ++ [Event.clone (progKeyOf device t) ext.SecurityAgentUID
          (newProbeOf ext tcr.config device netnsFd t) (netnsEditorOf device) (some err)] := by
    unfold SetupNewTCClassifierWithNetNSHandle
    rw [hcat, hrun]
  have herr : (SetupNewTCClassifierWithNetNSHandle ext d tcr device netnsFd w).err
      = some (SetupError.direct err) := by
    unfold SetupNewTCClassifierWithNetNSHandle
    rw [hcat, hrun]
  refine ⟨hprog, ?_, ?_, herr, ?_, ?_⟩
  · intro key uid probe eds hev
    rw [hlog] at hev
    rw [hprog]
    rcases List.mem_append.mp hev with h | h
    · exact setupLoop_cloned_present ext d tcr.config device netnsFd pre _ key uid probe eds h
    · simp at h
  · intro key probe hk
    rw [hprog]
    exact setupLoop_keeps ext d tcr.config device netnsFd pre _ key probe hk
  · have := setupLoop_collected ext d tcr.config device netnsFd pre
      { programs := tcr.programs, world := w, combinedErr := [] } hpre
    simpa using this
  · intro errs
    rw [herr]
    simp

/-- Witness of C27 on the example catalog: the first template is cloned, the
second fails with a recoverable error, the third with a link-not-found
error; the entry of the first stays and the returned error is the
link-not-found error alone. -/
theorem setup_no_rollback_witness :
    (SetupNewTCClassifierWithNetNSHandle exExt exDriverMixed exResolver exDevice 3 0).tcr.programs
      = (setupLoop exExt exDriverMixed exResolver.config exDevice 3
          [exTemplate "classifier_egress" 65523,
           exTemplate "classifier_raw_packet_egress" 65523]
          { programs := exResolver.programs, world := 0, combinedErr := [] }).state.programs
    ∧ (SetupNewTCClassifierWithNetNSHandle exExt exDriverMixed exResolver exDevice 3 0).err
      = some (SetupError.direct (GoError.linkNotFound "Link not found"))
    ∧ (SetupNewTCClassifierWithNetNSHandle exExt exDriverMixed exResolver exDevice 3
        0).tcr.programs.length = 1
    ∧ (cloneFailures (setupLoop exExt exDriverMixed exResolver.config exDevice 3
          [exTemplate "classifier_egress" 65523,
           exTemplate "classifier_raw_packet_egress" 65523]
          { programs := exResolver.programs, world := 0, combinedErr := [] }).log).length = 1 :=
  ⟨(setup_no_rollback exExt exDriverMixed exResolver exDevice 3 0 3
      [exTemplate "classifier_egress" 65523, exTemplate "classifier_raw_packet_egress" 65523]
      [] (exTemplate "classifier_ingress" 65522) (GoError.linkNotFound "Link not found")
      (by decide) (by decide) (by decide) (by decide) (by decide)).1,
   (setup_no_rollback exExt exDriverMixed exResolver exDevice 3 0 3
      [exTemplate "classifier_egress" 65523, exTemplate "classifier_raw_packet_egress" 65523]
      [] (exTemplate "classifier_ingress" 65522) (GoError.linkNotFound "Link not found")
      (by decide) (by decide) (by decide) (by decide) (by decide)).2.2.2.1,
   by decide, by decide⟩

/-- C28, the claim as stated fails. A setup on `eth0` (index 7, namespace
100) during which the clone of the ingress classifier fails, followed by a
setup on the same interface renamed, through a driver that refuses an
identification pair in use, leaves the egress entry under the old name and
an ingress entry under the new name: two entries with the same index and
namespace and different names. The lookup then returns the name of the
entry that comes first in the iteration. -/
theorem renamed_interface_lookup_depends_on_order :
    exSetupRenamed.tcr.programs.map (fun e => (e.1.FuncName, e.1.NetDevice))
      = [("classifier_egress", exDevice), ("classifier_ingress", exDeviceRenamed)]
    ∧ ¬ NameConsistent exSetupRenamed.tcr.programs
    ∧ ResolveNetworkDeviceIfName exSetupRenamed.tcr 7 100 = ("eth0", true)
    ∧ ResolveNetworkDeviceIfName
        { exSetupRenamed.tcr with programs := exSetupRenamed.tcr.programs.reverse } 7 100
      = ("eth0-renamed", true) := by
  decide

/-- C28, amended. The empty map is name-consistent (entries that share
interface index and namespace share the device name); the flush and the
sweep keep a map name-consistent; setup keeps it name-consistent when the
device it is given carries the name of every entry already stored for its
interface index and namespace; and on a name-consistent map the result of
`ResolveNetworkDeviceIfName` is the same for every order of iteration. -/
theorem lookup_identity {W : Type} (ext : Externals) (d : Driver W) (isLazy : String → Bool)
    (tcr : Resolver) (device : NetDevice) (netnsFd namespaceID : Nat) (w : W) :
    NameConsistent (NewResolver tcr.config).programs
    ∧ (NameConsistent tcr.programs →
        NameConsistent (FlushNetworkNamespaceID d tcr namespaceID w).tcr.programs)
    ∧ (NameConsistent tcr.programs →
        NameConsistent (FlushInactiveProbes d isLazy tcr w).tcr.programs)
    ∧ (NameConsistent tcr.programs →
        (∀ e ∈ tcr.programs, e.1.NetDevice.IfIndex = device.IfIndex →
          e.1.NetDevice.NetNS = device.NetNS → e.1.NetDevice.Name = device.Name) →
        NameConsistent
          (SetupNewTCClassifierWithNetNSHandle ext d tcr device netnsFd w).tcr.programs)
    ∧ (NameConsistent tcr.programs →
        ∀ (m : ProgramMap), m.Perm tcr.programs → ∀ (ifIndex netNS : Nat),
          ResolveNetworkDeviceIfName { tcr with programs := m } ifIndex netNS
            = ResolveNetworkDeviceIfName tcr ifIndex netNS) := by
  refine ⟨?_, ?_, ?_, ?_, ?_⟩
  · intro e1 h1
    simp [NewResolver] at h1
  · intro h
    apply NameConsistent_of_subset tcr.programs _ _ h
    intro e he
    rw [flush_programs] at he
    exact (List.mem_filter.mp he).1
  · intro h
    apply NameConsistent_of_subset tcr.programs _ _ h
    intro e he
    exact sweepLoop_subset d isLazy tcr.programs { programs := tcr.programs, world := w } [] e he
  · intro h hdev
    obtain ⟨added, h1, h2⟩ := setupLoop_added ext d tcr.config device netnsFd
      (ext.GetTCProbes tcr.config.NetworkIngressEnabled tcr.config.NetworkRawPacketEnabled)
      { programs := tcr.programs, world := w, combinedErr := [] }
    have hprog : (SetupNewTCClassifierWithNetNSHandle ext d tcr device netnsFd w).tcr.programs
        = tcr.programs ++ added := h1
    have hadded : ∀ e ∈ added, e.1.NetDevice = device := by
      intro e he
      obtain ⟨t, _, het, _⟩ := h2 e he
      rw [het]
      rfl
    rw [hprog]
    intro e1 m1 e2 m2 hi hn
    rcases List.mem_append.mp m1 with a1 | a1
    · rcases List.mem_append.mp m2 with a2 | a2
      · exact h e1 a1 e2 a2 hi hn
      · rw [hadded e2 a2] at hi hn ⊢
        exact hdev e1 a1 hi hn
    · rcases List.mem_append.mp m2 with a2 | a2
      · rw [hadded e1 a1] at hi hn ⊢
        exact (hdev e2 a2 hi.symm hn.symm).symm
      · rw [hadded e1 a1, hadded e2 a2]
  · intro h m hp ifIndex netNS
    exact resolveLoop_perm ifIndex netNS tcr.programs m h hp

end TC

namespace Trigger

/-! ## Lemmas on the library functions -/

theorem splitChars_ne_nil (sep : Char) (l : List Char) : splitChars sep l ≠ [] := by
  cases l with
  | nil => simp [splitChars]
  | cons c cs =>
    by_cases h : c = sep
    · simp [splitChars, h]
    · simp only [splitChars, h, if_false]
      split <;> simp

/-- The number of pieces is one more than the number of separators. -/
theorem splitChars_length (sep : Char) (l : List Char) :
    (splitChars sep l).length = l.count sep + 1 := by
  induction l with
  | nil => simp [splitChars]
  | cons c cs ih =>
    by_cases h : c = sep
    · simp [splitChars, h, ih]
    · have hc : (c == sep) = false := by simpa using h
      simp only [splitChars, h, if_false]
      cases hs : splitChars sep cs with
      | nil => exact absurd hs (splitChars_ne_nil sep cs)
      | cons hd tl =>
        rw [hs] at ih
        simp only [List.length_cons] at ih ⊢
        rw [List.count_cons, hc]
        simpa using ih

/-- The pieces, joined by the separator, give the list back. -/
theorem splitChars_join (sep : Char) (l : List Char) :
    List.intercalate [sep] (splitChars sep l) = l := by
  induction l with
  | nil => simp [splitChars, List.intercalate]
  | cons c cs ih =>
    by_cases h : c = sep
    · simp only [splitChars, h, if_true]
      cases hs : splitChars sep cs with
      | nil => exact absurd hs (splitChars_ne_nil sep cs)
      | cons hd tl =>
        rw [hs] at ih
        simp only [List.intercalate, List.intersperse, List.flatten] at ih ⊢
        simp [ih]
    · simp only [splitChars, h, if_false]
      cases hs : splitChars sep cs with
      | nil => exact absurd hs (splitChars_ne_nil sep cs)
      | cons hd tl =>
        rw [hs] at ih
        cases tl with
        | nil =>
          simp only [List.intercalate, List.intersperse, List.flatten] at ih ⊢
          simpa using ih
        | cons hd2 tl2 =>
          simp only [List.intercalate, List.intersperse, List.flatten] at ih ⊢
          simpa using ih

/-- No piece holds the separator. -/
theorem splitChars_no_sep (sep : Char) (l : List Char) :
    ∀ piece ∈ splitChars sep l, sep ∉ piece := by
  induction l with
  | nil => simp [splitChars]
  | cons c cs ih =>
    by_cases h : c = sep
    · simp only [splitChars, h, if_true]
      intro piece hp
      rcases List.mem_cons.mp hp with rfl | hp
      · simp
      · exact ih piece hp
    · simp only [splitChars, h, if_false]
      cases hs : splitChars sep cs with
      | nil => exact absurd hs (splitChars_ne_nil sep cs)
      | cons hd tl =>
        rw [hs] at ih
        intro piece hp
        rcases List.mem_cons.mp hp with rfl | hp
        · have := ih hd (List.mem_cons_self _ _)
          intro hmem
          rcases List.mem_cons.mp hmem with hsc | hmem
          · exact h hsc.symm
          · exact this hmem
        · exact ih piece (List.mem_cons_of_mem _ hp)

theorem Split_length (s : String) (sep : Char) :
    (Split s sep).length = s.data.count sep + 1 := by
  simp [Split, splitChars_length]

theorem HasPrefix_iff (s pre : String) :
    HasPrefix s pre = true ↔ ∃ rest : String, s = pre ++ rest := by
  unfold HasPrefix
  rw [List.isPrefixOf_iff_prefix]
  constructor
  · rintro ⟨t, ht⟩
    exact ⟨String.mk t, String.ext (by simp [ht])⟩
  · rintro ⟨rest, hr⟩
    exact ⟨rest.data, by rw [hr]; simp⟩

theorem Sprintf_arn (p r a st : String) :
    Sprintf "arn:%v:apigateway:%v::/restapis/%v/stages/%v" [p, r, a, st]
      = "arn:" ++ p ++ ":apigateway:" ++ r ++ "::/restapis/" ++ a ++ "/stages/" ++ st := by
  apply String.ext
  simp [Sprintf, sprintfChars]

/-! ## Theorems on the extractors -/

/-- C18 (ParseArn). The tokens of `arn` are its pieces between the colons, one
more than it has colons. `ParseArn` returns an error exactly when there are
fewer than 5 tokens, and then the three strings are empty; otherwise it
returns no error, the token of index 3 as first string and the token of index
4 as second string, and as third string the token of index 6 when there are
at least 7 tokens and the empty string when there are 5 or 6. -/
theorem ParseArn_spec (arn : String) :
    (Split arn ':').length = arn.data.count ':' + 1
    ∧ ((ParseArn arn).2.2.2.isSome = true ↔ (Split arn ':').length < 5)
    ∧ ((Split arn ':').length < 5 →
        ParseArn arn = ("", "", "", some (Sprintf "Malformed arn %v provided" [arn])))
    ∧ (5 ≤ (Split arn ':').length →
        (Split arn ':')[3]? = some (ParseArn arn).1
        ∧ (Split arn ':')[4]? = some (ParseArn arn).2.1
        ∧ (ParseArn arn).2.2.2 = none)
    ∧ (7 ≤ (Split arn ':').length → (Split arn ':')[6]? = some (ParseArn arn).2.2.1)
    ∧ (5 ≤ (Split arn ':').length → (Split arn ':').length < 7 →
        (ParseArn arn).2.2.1 = "") := by
  refine ⟨Split_length arn ':', ?_, ?_, ?_, ?_, ?_⟩
  · by_cases h : (Split arn ':').length < 5
    · simp [ParseArn, h]
    · by_cases h7 : (Split arn ':').length ≥ 7
      · simp [ParseArn, h, h7]
      · simp [ParseArn, h, h7]
  · intro h
    simp [ParseArn, h]
  · intro h5
    have h : ¬ (Split arn ':').length < 5 := by omega
    by_cases h7 : (Split arn ':').length ≥ 7
    · simp [ParseArn, h, h7, List.getElem?_eq_getElem (show 3 < (Split arn ':').length by omega),
        List.getElem?_eq_getElem (show 4 < (Split arn ':').length by omega)]
    · simp [ParseArn, h, h7, List.getElem?_eq_getElem (show 3 < (Split arn ':').length by omega),
        List.getElem?_eq_getElem (show 4 < (Split arn ':').length by omega)]
  · intro h7
    have h : ¬ (Split arn ':').length < 5 := by omega
    have h7b : (Split arn ':').length ≥ 7 := h7
    simp [ParseArn, h, h7b, List.getElem?_eq_getElem (show 6 < (Split arn ':').length by omega)]
  · intro h5 hlt
    have h : ¬ (Split arn ':').length < 5 := by omega
    have h7 : ¬ (Split arn ':').length ≥ 7 := by omega
    simp [ParseArn, h, h7]

/-- C19, the claim as stated fails: the payload with a boolean status code is
decoded without error, and `GetStatusCodeFromHTTPResponse` returns an error
for it. -/
theorem GetStatusCode_error_without_parse_error :
    (∃ v, exUnmarshal "\x7b\"statusCode\": true\x7d" = Except.ok v)
    ∧ GetStatusCodeFromHTTPResponse exUnmarshal exFormatFloat "\x7b\"statusCode\": true\x7d"
      = ("", some "Received unknown type bool for statusCode") :=
  ⟨⟨Dynamic.bool true, by simp [exUnmarshal]⟩, by decide⟩

/-- C19, amended. `GetStatusCodeFromHTTPResponse` returns the error of the
decoder when decoding fails; the string verbatim when the status code is a
string; the rendering of the float when it is a number; the empty string and
no error when it is absent or null; and the empty string with an error naming
the type when it is a boolean, an array or an object. So it returns an error
exactly when decoding fails or the status code is a boolean, an array or an
object. -/
theorem GetStatusCode_spec {P F : Type} (Unmarshal : P → Except String (Dynamic F))
    (FormatFloat : F → String) (rawPayload : P) :
    (∀ err, Unmarshal rawPayload = Except.error err →
      GetStatusCodeFromHTTPResponse Unmarshal FormatFloat rawPayload = ("", some err))
    ∧ (∀ s, Unmarshal rawPayload = Except.ok (Dynamic.string s) →
      GetStatusCodeFromHTTPResponse Unmarshal FormatFloat rawPayload = (s, none))
    ∧ (∀ f, Unmarshal rawPayload = Except.ok (Dynamic.float64 f) →
      GetStatusCodeFromHTTPResponse Unmarshal FormatFloat rawPayload = (FormatFloat f, none))
    ∧ (Unmarshal rawPayload = Except.ok Dynamic.nil →
      GetStatusCodeFromHTTPResponse Unmarshal FormatFloat rawPayload = ("", none))
    ∧ (∀ v, Unmarshal rawPayload = Except.ok v →
      ((∃ b, v = Dynamic.bool b) ∨ v = Dynamic.slice ∨ v = Dynamic.map) →
      GetStatusCodeFromHTTPResponse Unmarshal FormatFloat rawPayload
        = ("", some ("Received unknown type " ++ v.typeName ++ " for statusCode")))
    ∧ ((GetStatusCodeFromHTTPResponse Unmarshal FormatFloat rawPayload).2.isSome = true
      ↔ (∃ err, Unmarshal rawPayload = Except.error err)
        ∨ ∃ v, Unmarshal rawPayload = Except.ok v
          ∧ ((∃ b, v = Dynamic.bool b) ∨ v = Dynamic.slice ∨ v = Dynamic.map)) := by
  have hfmt : ∀ t : String, Sprintf "Received unknown type %v for statusCode" [t]
      = "Received unknown type " ++ t ++ " for statusCode" := by
    intro t
    apply String.ext
    simp [Sprintf, sprintfChars]
  cases hu : Unmarshal rawPayload with
  | error err => simp [GetStatusCodeFromHTTPResponse, hu]
  | ok v =>
    cases v with
    | nil => simp [GetStatusCodeFromHTTPResponse, hu]
    | bool b => simp [GetStatusCodeFromHTTPResponse, hu, hfmt]
    | float64 f => simp [GetStatusCodeFromHTTPResponse, hu]
    | string s => simp [GetStatusCodeFromHTTPResponse, hu]
    | slice => simp [GetStatusCodeFromHTTPResponse, hu, hfmt]
    | map => simp [GetStatusCodeFromHTTPResponse, hu, hfmt]

/-- C20 (API Gateway ARN construction). Each of the three extractors returns
`arn:P:apigateway:region::/restapis/APIID/stages/Stage` with `P` the
partition of the region, which is `aws-us-gov` when the region starts with
`us-gov-`, `aws-cn` when it starts with `cn-`, and `aws` otherwise; so the
three extractors agree on events with the same API id and stage. -/
theorem APIGateway_arn_spec (e1 : APIGatewayProxyRequest) (e2 : APIGatewayV2HTTPRequest)
    (e3 : APIGatewayWebsocketProxyRequest) (region : String) :
    ExtractAPIGatewayEventARN e1 region
      = "arn:" ++ GetAWSPartitionByRegion region ++ ":apigateway:" ++ region ++ "::/restapis/"
        ++ e1.RequestContext.APIID ++ "/stages/" ++ e1.RequestContext.Stage
    ∧ ExtractAPIGatewayV2EventARN e2 region
      = "arn:" ++ GetAWSPartitionByRegion region ++ ":apigateway:" ++ region ++ "::/restapis/"
        ++ e2.RequestContext.APIID ++ "/stages/" ++ e2.RequestContext.Stage
    ∧ ExtractAPIGatewayWebSocketEventARN e3 region
      = "arn:" ++ GetAWSPartitionByRegion region ++ ":apigateway:" ++ region ++ "::/restapis/"
        ++ e3.RequestContext.APIID ++ "/stages/" ++ e3.RequestContext.Stage
    ∧ ((∃ rest : String, region = "us-gov-" ++ rest) →
        GetAWSPartitionByRegion region = "aws-us-gov")
    ∧ ((¬ ∃ rest : String, region = "us-gov-" ++ rest) →
        (∃ rest : String, region = "cn-" ++ rest) → GetAWSPartitionByRegion region = "aws-cn")
    ∧ ((¬ ∃ rest : String, region = "us-gov-" ++ rest) →
        (¬ ∃ rest : String, region = "cn-" ++ rest) → GetAWSPartitionByRegion region = "aws")
    ∧ (e1.RequestContext.APIID = e2.RequestContext.APIID →
        e1.RequestContext.Stage = e2.RequestContext.Stage →
        ExtractAPIGatewayEventARN e1 region = ExtractAPIGatewayV2EventARN e2 region)
    ∧ (e1.RequestContext.APIID = e3.RequestContext.APIID →
        e1.RequestContext.Stage = e3.RequestContext.Stage →
        ExtractAPIGatewayEventARN e1 region = ExtractAPIGatewayWebSocketEventARN e3 region) := by
  have h1 : ExtractAPIGatewayEventARN e1 region
      = "arn:" ++ GetAWSPartitionByRegion region ++ ":apigateway:" ++ region ++ "::/restapis/"
        ++ e1.RequestContext.APIID ++ "/stages/" ++ e1.RequestContext.Stage := Sprintf_arn _ _ _ _
  have h2 : ExtractAPIGatewayV2EventARN e2 region
      = "arn:" ++ GetAWSPartitionByRegion region ++ ":apigateway:" ++ region ++ "::/restapis/"
        ++ e2.RequestContext.APIID ++ "/stages/" ++ e2.RequestContext.Stage := Sprintf_arn _ _ _ _
  have h3 : ExtractAPIGatewayWebSocketEventARN e3 region
      = "arn:" ++ GetAWSPartitionByRegion region ++ ":apigateway:" ++ region ++ "::/restapis/"
        ++ e3.RequestContext.APIID ++ "/stages/" ++ e3.RequestContext.Stage := Sprintf_arn _ _ _ _
  refine ⟨h1, h2, h3, ?_, ?_, ?_, ?_, ?_⟩
  · intro hg
    have := (HasPrefix_iff region "us-gov-").mpr hg
    simp [GetAWSPartitionByRegion, this]
  · intro hg hc
    have a1 : HasPrefix region "us-gov-" = false := by
      cases hb : HasPrefix region "us-gov-" with
      | false => rfl
      | true => exact absurd ((HasPrefix_iff region "us-gov-").mp hb) hg
    have a2 := (HasPrefix_iff region "cn-").mpr hc
    simp [GetAWSPartitionByRegion, a1, a2]
  · intro hg hc
    have a1 : HasPrefix region "us-gov-" = false := by
      cases hb : HasPrefix region "us-gov-" with
      | false => rfl
      | true => exact absurd ((HasPrefix_iff region "us-gov-").mp hb) hg
    have a2 : HasPrefix region "cn-" = false := by
      cases hb : HasPrefix region "cn-" with
      | false => rfl
      | true => exact absurd ((HasPrefix_iff region "cn-").mp hb) hc
    simp [GetAWSPartitionByRegion, a1, a2]
  · intro ha hs
    rw [h1, h2, ha, hs]
  · intro ha hs
    rw [h1, h3, ha, hs]

/-! ## Lemmas on `SplitN` and the theorem on the custom authorizer tags -/

theorem splitNChars_length_le (sep : Char) (n : Nat) (l : List Char) :
    (splitNChars sep n l).length ≤ n := by
  induction l generalizing n with
  | nil =>
    match n with
    | 0 => simp [splitNChars]
    | 1 => simp [splitNChars]
    | k + 2 => simp [splitNChars]
  | cons c cs ih =>
    match n with
    | 0 => simp [splitNChars]
    | 1 => simp [splitNChars]
    | k + 2 =>
      by_cases h : c = sep
      · have := ih (k + 1)
        simp only [splitNChars, h, if_true, List.length_cons]
        omega
      · have := ih (k + 2)
        simp only [splitNChars, h, if_false]
        cases hs : splitNChars sep (k + 2) cs with
        | nil => simp
        | cons hd tl =>
          rw [hs] at this
          simpa using this

theorem splitNChars_ne_nil (sep : Char) (n : Nat) (l : List Char) :
    splitNChars sep (n + 1) l ≠ [] := by
  cases l with
  | nil =>
    match n with
    | 0 => simp [splitNChars]
    | k + 1 => simp [splitNChars]
  | cons c cs =>
    match n with
    | 0 => simp [splitNChars]
    | k + 1 =>
      by_cases h : c = sep
      · simp [splitNChars, h]
      · simp only [splitNChars, h, if_false]
        split <;> simp

/-- The pieces of `SplitN`, joined by the separator, give the list back. -/
theorem splitNChars_join (sep : Char) (n : Nat) (l : List Char) :
    List.intercalate [sep] (splitNChars sep (n + 1) l) = l := by
  induction l generalizing n with
  | nil =>
    match n with
    | 0 => simp [splitNChars, List.intercalate]
    | k + 1 => simp [splitNChars, List.intercalate]
  | cons c cs ih =>
    match n with
    | 0 => simp [splitNChars, List.intercalate]
    | k + 1 =>
      by_cases h : c = sep
      · have i1 := ih k
        simp only [splitNChars, h, if_true]
        cases hs : splitNChars sep (k + 1) cs with
        | nil => exact absurd hs (splitNChars_ne_nil sep k cs)
        | cons hd tl =>
          rw [hs] at i1
          simp only [List.intercalate, List.intersperse, List.flatten] at i1 ⊢
          simp [i1]
      · have i1 := ih (k + 1)
        simp only [splitNChars, h, if_false]
        cases hs : splitNChars sep (k + 2) cs with
        | nil => exact absurd hs (splitNChars_ne_nil sep (k + 1) cs)
        | cons hd tl =>
          rw [hs] at i1
          cases tl with
          | nil =>
            simp only [List.intercalate, List.intersperse, List.flatten] at i1 ⊢
            simpa using i1
          | cons hd2 tl2 =>
            simp only [List.intercalate, List.intersperse, List.flatten] at i1 ⊢
            simpa using i1

/-- No piece of `SplitN` but the last holds the separator. -/
theorem splitNChars_dropLast_no_sep (sep : Char) (n : Nat) (l : List Char) :
    ∀ piece ∈ (splitNChars sep n l).dropLast, sep ∉ piece := by
  induction l generalizing n with
  | nil =>
    match n with
    | 0 => simp [splitNChars]
    | 1 => simp [splitNChars]
    | k + 2 => simp [splitNChars]
  | cons c cs ih =>
    match n with
    | 0 => simp [splitNChars]
    | 1 => simp [splitNChars]
    | k + 2 =>
      by_cases h : c = sep
      · have i1 := ih (k + 1)
        simp only [splitNChars, h, if_true]
        cases hs : splitNChars sep (k + 1) cs with
        | nil => exact absurd hs (splitNChars_ne_nil sep k cs)
        | cons hd tl =>
          rw [hs] at i1
          intro piece hp
          simp only [List.dropLast_cons₂, List.mem_cons] at hp
          rcases hp with rfl | hp
          · simp
          · exact i1 piece hp
      · have i1 := ih (k + 2)
        simp only [splitNChars, h, if_false]
        cases hs : splitNChars sep (k + 2) cs with
        | nil => simp
        | cons hd tl =>
          rw [hs] at i1
          cases tl with
          | nil => simp
          | cons hd2 tl2 =>
            intro piece hp
            simp only [List.dropLast_cons₂, List.mem_cons] at hp i1
            rcases hp with rfl | hp
            · have := i1 hd (Or.inl rfl)
              intro hmem
              rcases List.mem_cons.mp hmem with hsc | hmem
              · exact h hsc.symm
              · exact this hmem
            · exact i1 piece (Or.inr hp)

/-- C24 (tags of a custom authorizer event). When `MethodArn` does not parse,
the result is the empty tag set, not nil. When it parses, the resource is cut
at its first three slashes into at most 4 parts (which, joined by slashes,
give the resource back, and of which only the last may hold a slash): with
fewer than 4 parts the result is nil; with 4 parts the result holds exactly
`http.method`, the third part, and `http.url_details.path`, a slash followed
by the fourth part. -/
theorem GetTagsFromAPIGatewayCustomAuthorizerEvent_spec (Parse : String → Except String ARN)
    (event : APIGatewayCustomAuthorizerRequest) :
    (∀ err, Parse event.MethodArn = Except.error err →
      GetTagsFromAPIGatewayCustomAuthorizerEvent Parse event = some [])
    ∧ (∀ a, Parse event.MethodArn = Except.ok a →
      (SplitN a.Resource '/' 4).length ≤ 4
      ∧ List.intercalate ['/'] ((SplitN a.Resource '/' 4).map String.data) = a.Resource.data
      ∧ (∀ part ∈ (SplitN a.Resource '/' 4).dropLast, '/' ∉ part.data)
      ∧ ((SplitN a.Resource '/' 4).length < 4 →
          GetTagsFromAPIGatewayCustomAuthorizerEvent Parse event = none)
      ∧ (∀ p0 p1 p2 p3 : String, SplitN a.Resource '/' 4 = [p0, p1, p2, p3] →
          GetTagsFromAPIGatewayCustomAuthorizerEvent Parse event
            = some [("http.method", p2), ("http.url_details.path", "/" ++ p3)])) := by
  refine ⟨?_, ?_⟩
  · intro err herr
    simp [GetTagsFromAPIGatewayCustomAuthorizerEvent, herr]
  · intro a ha
    refine ⟨?_, ?_, ?_, ?_, ?_⟩
    · simpa [SplitN] using splitNChars_length_le '/' 4 a.Resource.data
    · have := splitNChars_join '/' 3 a.Resource.data
      simpa [SplitN, Function.comp_def] using this
    · intro part hp
      simp only [SplitN, ← List.map_dropLast, List.mem_map] at hp
      obtain ⟨piece, hpiece, rfl⟩ := hp
      exact splitNChars_dropLast_no_sep '/' 4 a.Resource.data piece hpiece
    · intro hlt
      have hne : (SplitN a.Resource '/' 4).length ≠ 4 := by omega
      simp [GetTagsFromAPIGatewayCustomAuthorizerEvent, ha, hne]
    · intro p0 p1 p2 p3 hs
      simp [GetTagsFromAPIGatewayCustomAuthorizerEvent, ha, hs, TagMap.set]

end Trigger

namespace Stats

/-! ## Theorems on the gRPC status code -/

theorem metaLoop_skip (ToUpper : String → String) (metaMap : String → Option String)
    (pre rest : List String) (h : ∀ k ∈ pre, metaMap k = none ∨ metaMap k = some "") :
    metaLoop ToUpper metaMap (pre ++ rest) = metaLoop ToUpper metaMap rest := by
  induction pre with
  | nil => rfl
  | cons k ks ih =>
    have ih2 := ih (fun x hx => h x (List.mem_cons_of_mem _ hx))
    rw [List.cons_append]
    rcases h k (List.mem_cons_self _ _) with hk | hk
    · simp [metaLoop, hk, ih2]
    · simp [metaLoop, hk, ih2]

theorem metricsLoop_skip {F : Type} (toUint64 : F → Nat) (metrics : String → Option F)
    (pre rest : List String) (h : ∀ k ∈ pre, metrics k = none) :
    metricsLoop toUint64 metrics (pre ++ rest) = metricsLoop toUint64 metrics rest := by
  induction pre with
  | nil => rfl
  | cons k ks ih =>
    have ih2 := ih (fun x hx => h x (List.mem_cons_of_mem _ hx))
    rw [List.cons_append]
    simp [metricsLoop, h k (List.mem_cons_self _ _), ih2]

theorem parseDigits_digits (l : List Char) (acc v : Nat) (h : parseDigits l acc = some v) :
    ∀ c ∈ l, 48 ≤ c.toNat ∧ c.toNat ≤ 57 := by
  induction l generalizing acc with
  | nil => simp
  | cons c cs ih =>
    by_cases hd : 48 ≤ c.toNat ∧ c.toNat ≤ 57
    · simp only [parseDigits, digitValue, hd, and_self, if_true] at h
      intro x hx
      rcases List.mem_cons.mp hx with rfl | hx
      · exact hd
      · exact ih _ h x hx
    · simp [parseDigits, digitValue, hd] at h

/-- What `ParseUint32` accepts: a non-empty string of decimal digits, with a
value below `2 ^ 32`. -/
theorem ParseUint32_some (s : String) (c : Nat) (h : ParseUint32 s = some c) :
    s ≠ "" ∧ (∀ ch ∈ s.data, 48 ≤ ch.toNat ∧ ch.toNat ≤ 57) ∧ c < 2 ^ 32 := by
  unfold ParseUint32 at h
  by_cases he : s.data = []
  · simp [he] at h
  · simp only [he, if_false] at h
    cases hp : parseDigits s.data 0 with
    | none => simp [hp] at h
    | some v =>
      simp only [hp] at h
      by_cases hv : v < 2 ^ 32
      · rw [if_pos hv] at h
        have hvc : v = c := Option.some.inj h
        refine ⟨?_, parseDigits_digits _ _ _ hp, hvc ▸ hv⟩
        intro hs
        apply he
        rw [hs]
      · rw [if_neg hv] at h
        exact absurd h (by simp)

/-- C23 (gRPC status code). Let the first key of the list, in its order,
whose `meta` value is present and not empty hold `strC`. Then the result is
decided by `strC` alone: the decimal rendering of its value when it is a
decimal number that fits 32 bits (so `007` gives `7`); otherwise `1` when its
upper-case form is `CANCELED` or `CANCELLED`; otherwise the code of the gRPC
status name that its upper-case form is; otherwise the empty string. When no
key has a `meta` value that is present and not empty, the result is the
rendering of the `metrics` value of the first key, in the same order, that
`metrics` holds, and the empty string when it holds none. -/
theorem getGRPCStatusCode_spec {F : Type} (ToUpper : String → String) (toUint64 : F → Nat)
    (metaMap : String → Option String) (metrics : String → Option F) :
    metaKeys = ["rpc.grpc.status_code", "grpc.code", "rpc.grpc.status.code", "grpc.status.code"]
    ∧ (∀ (pre post : List String) (key strC : String),
        metaKeys = pre ++ key :: post →
        (∀ k ∈ pre, metaMap k = none ∨ metaMap k = some "") →
        metaMap key = some strC → strC ≠ "" →
        (∀ c, ParseUint32 strC = some c →
          getGRPCStatusCode ToUpper toUint64 metaMap metrics = toString c)
        ∧ (ParseUint32 strC = none →
            (ToUpper strC = "CANCELED" ∨ ToUpper strC = "CANCELLED") →
            getGRPCStatusCode ToUpper toUint64 metaMap metrics = "1")
        ∧ (ParseUint32 strC = none →
            ¬ (ToUpper strC = "CANCELED" ∨ ToUpper strC = "CANCELLED") →
            ∀ n, Code_value (ToUpper strC) = some n →
              getGRPCStatusCode ToUpper toUint64 metaMap metrics = toString n)
        ∧ (ParseUint32 strC = none →
            ¬ (ToUpper strC = "CANCELED" ∨ ToUpper strC = "CANCELLED") →
            Code_value (ToUpper strC) = none →
            getGRPCStatusCode ToUpper toUint64 metaMap metrics = ""))
    ∧ ((∀ k ∈ metaKeys, metaMap k = none ∨ metaMap k = some "") →
        (∀ (pre post : List String) (key : String) (code : F),
          metaKeys = pre ++ key :: post →
          (∀ k ∈ pre, metrics k = none) →
          metrics key = some code →
          getGRPCStatusCode ToUpper toUint64 metaMap metrics = toString (toUint64 code))
        ∧ ((∀ k ∈ metaKeys, metrics k = none) →
          getGRPCStatusCode ToUpper toUint64 metaMap metrics = ""))
    ∧ ParseUint32 "007" = some 7
    ∧ FormatUint 7 = "7"
    ∧ Code_value "DEADLINE_EXCEEDED" = some 4 := by
  refine ⟨rfl, ?_, ?_, by decide, by decide, by decide⟩
  · intro pre post key strC hsplit hpre hkey hne
    have hloop : metaLoop ToUpper metaMap metaKeys
        = metaLoop ToUpper metaMap (key :: post) := by
      rw [hsplit]
      exact metaLoop_skip ToUpper metaMap pre (key :: post) hpre
    unfold getGRPCStatusCode
    rw [hloop]
    refine ⟨?_, ?_, ?_, ?_⟩
    · intro c hc
      simp [metaLoop, hkey, hne, hc, FormatUint]
    · intro hp hcan
      simp only [metaLoop, hkey, hp]
      simp only [hne, hcan, FormatUint, Canceled, ne_eq, not_false_eq_true, if_true]
      decide
    · intro hp hcan n hn
      simp only [metaLoop, hkey, hp]
      simp [hne, hcan, hn, FormatUint]
    · intro hp hcan hn
      simp only [metaLoop, hkey, hp]
      simp [hne, hcan, hn]
  · intro hall
    have hloop : metaLoop ToUpper metaMap metaKeys = none := by
      have := metaLoop_skip ToUpper metaMap metaKeys [] hall
      simpa [metaLoop] using this
    unfold getGRPCStatusCode
    rw [hloop]
    refine ⟨?_, ?_⟩
    · intro pre post key code hsplit hpre hkey
      have h2 : metricsLoop toUint64 metrics metaKeys
          = metricsLoop toUint64 metrics (key :: post) := by
        rw [hsplit]
        exact metricsLoop_skip toUint64 metrics pre (key :: post) hpre
      rw [h2]
      simp [metricsLoop, hkey, FormatUint]
    · intro hnone
      have h2 : metricsLoop toUint64 metrics metaKeys = none := by
        have := metricsLoop_skip toUint64 metrics metaKeys [] hnone
        simpa [metricsLoop] using this
      rw [h2]

end Stats

namespace Nvidia

/-! ## Theorems on the device collector -/

theorem foldl_multierrorAppend_some (es fs : List MetricFailure) :
    fs.foldl multierrorAppend (some es) = some (es ++ fs) := by
  induction fs generalizing es with
  | nil => simp
  | cons f rest ih => simp [multierrorAppend, ih]

theorem foldl_multierrorAppend_none (fs : List MetricFailure) :
    fs.foldl multierrorAppend none = if fs = [] then none else some fs := by
  cases fs with
  | nil => simp
  | cons f rest => simp [multierrorAppend, foldl_multierrorAppend_some]

theorem collectLoop_spec {W : Type} (device : Device W) (tags : List String)
    (ms : List (deviceMetric W)) (w : W) (values : List Metric)
    (err : Option (List MetricFailure)) :
    (collectLoop device tags ms w values err).log.map (fun g => g.name)
      = ms.map (fun m => m.name)
    ∧ (collectLoop device tags ms w values err).values
      = values ++ ((collectLoop device tags ms w values err).log.filter
          (fun g => decide (g.ret = SUCCESS))).map
            (fun g => { Name := g.name, Value := g.value, Tags := tags })
    ∧ (collectLoop device tags ms w values err).err
      = (((collectLoop device tags ms w values err).log.filter
          (fun g => decide (g.ret ≠ SUCCESS))).map
            (fun g => ({ name := g.name, ret := g.ret } : MetricFailure))).foldl
          multierrorAppend err := by
  induction ms generalizing w values err with
  | nil => simp [collectLoop]
  | cons m rest ih =>
    by_cases hr : (m.getter device w).2.2 = SUCCESS
    · obtain ⟨i1, i2, i3⟩ := ih (m.getter device w).1
        (values ++ [{ Name := m.name, Value := (m.getter device w).2.1, Tags := tags }]) err
      simp only [collectLoop, hr, ne_eq, not_true_eq_false, if_false]
      refine ⟨by simp [i1], ?_, ?_⟩
      · rw [i2]
        simp [hr]
      · rw [i3]
        simp [hr]
    · obtain ⟨i1, i2, i3⟩ := ih (m.getter device w).1 values
        (multierrorAppend err { name := m.name, ret := (m.getter device w).2.2 })
      simp only [collectLoop, hr, ne_eq, not_false_eq_true, if_true]
      refine ⟨by simp [i1], ?_, ?_⟩
      · rw [i2]
        simp [hr]
      · rw [i3]
        simp [hr]

theorem collectLoop_log_world {W : Type} (device : Device W) (tags : List String)
    (ms : List (deviceMetric W)) (w : W) (values values2 : List Metric)
    (err err2 : Option (List MetricFailure)) :
    (collectLoop device tags ms w values err).log
      = (collectLoop device tags ms w values2 err2).log
    ∧ (collectLoop device tags ms w values err).world
      = (collectLoop device tags ms w values2 err2).world := by
  induction ms generalizing w values values2 err err2 with
  | nil => simp [collectLoop]
  | cons m rest ih =>
    by_cases hr : (m.getter device w).2.2 = SUCCESS
    · simp only [collectLoop, hr, ne_eq, not_true_eq_false, if_false]
      obtain ⟨i1, i2⟩ := ih (m.getter device w).1
        (values ++ [{ Name := m.name, Value := (m.getter device w).2.1, Tags := tags }])
        (values2 ++ [{ Name := m.name, Value := (m.getter device w).2.1, Tags := tags }])
        err err2
      exact ⟨by rw [i1], i2⟩
    · simp only [collectLoop, hr, ne_eq, not_false_eq_true, if_true]
      obtain ⟨i1, i2⟩ := ih (m.getter device w).1 values values2
        (multierrorAppend err { name := m.name, ret := (m.getter device w).2.2 })
        (multierrorAppend err2 { name := m.name, ret := (m.getter device w).2.2 })
      exact ⟨by rw [i1], i2⟩

theorem collectLoop_cons_log_world {W : Type} (device : Device W) (tags : List String)
    (m : deviceMetric W) (rest : List (deviceMetric W)) (w : W) (values : List Metric)
    (err : Option (List MetricFailure)) :
    (collectLoop device tags (m :: rest) w values err).log
      = { name := m.name, value := (m.getter device w).2.1, ret := (m.getter device w).2.2 }
        :: (collectLoop device tags rest (m.getter device w).1 [] none).log
    ∧ (collectLoop device tags (m :: rest) w values err).world
      = (collectLoop device tags rest (m.getter device w).1 [] none).world := by
  by_cases hr : (m.getter device w).2.2 = SUCCESS
  · simp only [collectLoop, hr, ne_eq, not_true_eq_false, if_false]
    obtain ⟨i1, i2⟩ := collectLoop_log_world device tags rest (m.getter device w).1
      (values ++ [{ Name := m.name, Value := (m.getter device w).2.1, Tags := tags }]) []
      err none
    exact ⟨by rw [i1], i2⟩
  · simp only [collectLoop, hr, ne_eq, not_false_eq_true, if_true]
    obtain ⟨i1, i2⟩ := collectLoop_log_world device tags rest (m.getter device w).1
      values [] (multierrorAppend err { name := m.name, ret := (m.getter device w).2.2 }) none
    exact ⟨by rw [i1], i2⟩

/-- The calls of the loop over `pre ++ m :: post` are the calls over `pre`,
the call of `m` in the world that the loop over `pre` leaves, and the calls
over `post` from the world that this call leaves. -/
theorem collectLoop_split {W : Type} (device : Device W) (tags : List String)
    (pre post : List (deviceMetric W)) (m : deviceMetric W) (w : W) :
    (collectLoop device tags (pre ++ m :: post) w [] none).log
      = (collectLoop device tags pre w [] none).log
        ++ { name := m.name
             value := (m.getter device (collectLoop device tags pre w [] none).world).2.1
             ret := (m.getter device (collectLoop device tags pre w [] none).world).2.2 }
        :: (collectLoop device tags post
            (m.getter device (collectLoop device tags pre w [] none).world).1 [] none).log
    ∧ (collectLoop device tags (pre ++ m :: post) w [] none).world
      = (collectLoop device tags post
          (m.getter device (collectLoop device tags pre w [] none).world).1 [] none).world := by
  induction pre generalizing w with
  | nil =>
    have h := collectLoop_cons_log_world device tags m post w [] none
    simpa [collectLoop] using h
  | cons a pre ih =>
    obtain ⟨i1, i2⟩ := ih (a.getter device w).1
    obtain ⟨c1, c2⟩ := collectLoop_cons_log_world device tags a (pre ++ m :: post) w [] none
    obtain ⟨d1, d2⟩ := collectLoop_cons_log_world device tags a pre w [] none
    rw [List.cons_append, c1, c2, d1, d2, i1, i2]
    exact ⟨by simp, rfl⟩

/-- C21 (Collect). `Collect` calls every configured getter once, in order,
whatever the earlier getters returned: for getters `pre ++ m :: post`, its
calls are the calls of a `Collect` over `pre`, then the call of the getter of
`m` on the device in the world left by these, then the calls of a `Collect`
over `post`. The metrics it returns are, in that order, one per call that
returned `SUCCESS`, with the name of the metric, the value the getter
returned and the tags of the collector; when the getter of `m` returns
`SUCCESS` its metric is among them. The error it returns is nil exactly when
every call returned `SUCCESS`; otherwise it is the aggregate of one error per
failing call, in order, with the name of the metric and the code returned;
when the getter of `m` returns another code, its error is in the aggregate.
With no getter, nothing is called and nothing is returned. On the example
device, whose fan and energy counter are not supported and whose temperature
sensor fails, `Collect` over all metrics returns the 17 other metrics and the
three errors. -/
theorem Collect_spec {W : Type} (c : deviceCollector W) (w : W) :
    (Collect c w).log.map (fun g => g.name) = c.metricGetters.map (fun m => m.name)
    ∧ (Collect c w).values
      = ((Collect c w).log.filter (fun g => decide (g.ret = SUCCESS))).map
          (fun g => { Name := g.name, Value := g.value, Tags := c.tags })
    ∧ ((Collect c w).err = none ↔ ∀ g ∈ (Collect c w).log, g.ret = SUCCESS)
    ∧ ((Collect c w).err ≠ none →
        (Collect c w).err
          = some (((Collect c w).log.filter (fun g => decide (g.ret ≠ SUCCESS))).map
              (fun g => { name := g.name, ret := g.ret })))
    ∧ (∀ (pre post : List (deviceMetric W)) (m : deviceMetric W),
        c.metricGetters = pre ++ m :: post →
        (Collect c w).log
          = (Collect { c with metricGetters := pre } w).log
            ++ { name := m.name
                 value := (m.getter c.device
                   (Collect { c with metricGetters := pre } w).world).2.1
                 ret := (m.getter c.device
                   (Collect { c with metricGetters := pre } w).world).2.2 }
            :: (Collect { c with metricGetters := post }
                (m.getter c.device (Collect { c with metricGetters := pre } w).world).1).log
        ∧ (Collect c w).world
          = (Collect { c with metricGetters := post }
              (m.getter c.device (Collect { c with metricGetters := pre } w).world).1).world
        ∧ ((m.getter c.device (Collect { c with metricGetters := pre } w).world).2.2 = SUCCESS →
            { Name := m.name
              Value := (m.getter c.device
                (Collect { c with metricGetters := pre } w).world).2.1
              Tags := c.tags } ∈ (Collect c w).values)
        ∧ ((m.getter c.device (Collect { c with metricGetters := pre } w).world).2.2 ≠ SUCCESS →
            ∃ errs, (Collect c w).err = some errs
              ∧ { name := m.name
                  ret := (m.getter c.device
                    (Collect { c with metricGetters := pre } w).world).2.2 } ∈ errs))
    ∧ (c.metricGetters = [] →
        (Collect c w).values = [] ∧ (Collect c w).err = none ∧ (Collect c w).world = w
        ∧ (Collect c w).log = [])
    ∧ ((Collect { device := exDevice, tags := ["gpu:0"], metricGetters := allDeviceMetrics }
          0).values.map (fun v => (v.Name, v.Value))
        = [("pci.throughput.tx", 0), ("pci.throughput.rx", 1), ("decoder_utiliation", 2),
           ("dram_active", 3), ("encoder_utilization", 4), ("power.management_limit", 6),
           ("power.usage", 7), ("performance_state", 8), ("clock.speed.sm", 9),
           ("clock.speed.memory", 10), ("clock.speed.graphics", 11),
           ("clock.speed.video", 12), ("clock.speed.sm.max", 13),
           ("clock.speed.memory.max", 14), ("clock.speed.graphics.max", 15),
           ("clock.speed.video.max", 16), ("sm_active", 19)]
      ∧ (Collect { device := exDevice, tags := ["gpu:0"], metricGetters := allDeviceMetrics }
          0).err
        = some [{ name := "fan_speed", ret := ERROR_NOT_SUPPORTED },
                { name := "temperature", ret := 999 },
                { name := "total_energy_consumption", ret := ERROR_NOT_SUPPORTED }]) := by
  obtain ⟨h1, h2, h3⟩ := collectLoop_spec c.device c.tags c.metricGetters w [] none
  have h3b : (Collect c w).err
      = if ((Collect c w).log.filter (fun g => decide (g.ret ≠ SUCCESS))).map
            (fun g => ({ name := g.name, ret := g.ret } : MetricFailure)) = []
        then none
        else some (((Collect c w).log.filter (fun g => decide (g.ret ≠ SUCCESS))).map
            (fun g => { name := g.name, ret := g.ret })) := by
    rw [← foldl_multierrorAppend_none]
    exact h3
  have h2b : (Collect c w).values
      = ((Collect c w).log.filter (fun g => decide (g.ret = SUCCESS))).map
          (fun g => { Name := g.name, Value := g.value, Tags := c.tags }) := by
    simpa [Collect] using h2
  refine ⟨h1, h2b, ?_, ?_, ?_, ?_, by decide, by decide⟩
  · rw [h3b]
    by_cases hf : ((Collect c w).log.filter (fun g => decide (g.ret ≠ SUCCESS))).map
        (fun g => ({ name := g.name, ret := g.ret } : MetricFailure)) = []
    · simp only [hf, if_true, true_iff]
      intro g hg
      by_contra hne
      have : g ∈ (Collect c w).log.filter (fun g => decide (g.ret ≠ SUCCESS)) :=
        List.mem_filter.mpr ⟨hg, by simpa using hne⟩
      rw [List.map_eq_nil_iff] at hf
      rw [hf] at this
      simp at this
    · simp only [hf, if_false, reduceCtorEq, false_iff]
      intro hall
      apply hf
      rw [List.map_eq_nil_iff, List.filter_eq_nil_iff]
      intro g hg
      simpa using hall g hg
  · intro hne
    rw [h3b] at hne ⊢
    by_cases hf : ((Collect c w).log.filter (fun g => decide (g.ret ≠ SUCCESS))).map
        (fun g => ({ name := g.name, ret := g.ret } : MetricFailure)) = []
    · rw [if_pos hf] at hne
      exact absurd rfl hne
    · rw [if_neg hf]
  · intro pre post m hsplit
    obtain ⟨s1, s2⟩ := collectLoop_split c.device c.tags pre post m w
    have hlog : (Collect c w).log
        = (Collect { c with metricGetters := pre } w).log
          ++ { name := m.name
               value := (m.getter c.device
                 (Collect { c with metricGetters := pre } w).world).2.1
               ret := (m.getter c.device
                 (Collect { c with metricGetters := pre } w).world).2.2 }
          :: (Collect { c with metricGetters := post }
              (m.getter c.device (Collect { c with metricGetters := pre } w).world).1).log := by
      unfold Collect
      rw [hsplit]
      exact s1
    have hmem : ({ name := m.name
                   value := (m.getter c.device
                     (Collect { c with metricGetters := pre } w).world).2.1
                   ret := (m.getter c.device
                     (Collect { c with metricGetters := pre } w).world).2.2 } : GetterCall)
        ∈ (Collect c w).log := by
      rw [hlog]
      exact List.mem_append_right _ (List.mem_cons_self _ _)
    refine ⟨hlog, ?_, ?_, ?_⟩
    · unfold Collect
      rw [hsplit]
      exact s2
    · intro hs
      rw [h2b]
      exact List.mem_map.mpr ⟨_, List.mem_filter.mpr ⟨hmem, by simpa using hs⟩, rfl⟩
    · intro hs
      have hin : ({ name := m.name
                    ret := (m.getter c.device
                      (Collect { c with metricGetters := pre } w).world).2.2 } : MetricFailure)
          ∈ ((Collect c w).log.filter (fun g => decide (g.ret ≠ SUCCESS))).map
              (fun g => ({ name := g.name, ret := g.ret } : MetricFailure)) :=
        List.mem_map.mpr ⟨_, List.mem_filter.mpr ⟨hmem, by simpa using hs⟩, rfl⟩
      have hf : ¬ ((Collect c w).log.filter (fun g => decide (g.ret ≠ SUCCESS))).map
          (fun g => ({ name := g.name, ret := g.ret } : MetricFailure)) = [] := by
        intro h0
        rw [h0] at hin
        simp at hin
      exact ⟨_, by rw [h3b, if_neg hf], hin⟩
  · intro hnil
    unfold Collect
    rw [hnil]
    simp [collectLoop]

theorem mem_StringSetAdd (set : List String) (x n : String) :
    n ∈ StringSetAdd set x ↔ n ∈ set ∨ n = x := by
  unfold StringSetAdd
  by_cases h : x ∈ set
  · simp only [h, if_true]
    constructor
    · exact Or.inl
    · rintro (hn | hn)
      · exact hn
      · rw [hn]; exact h
  · simp [h]

theorem probeLoop_spec {W : Type} (device : Device W) (ms : List (deviceMetric W)) (w : W)
    (set : List String) :
    (probeLoop device ms w set).2.2.map (fun g => g.name) = ms.map (fun m => m.name)
    ∧ ∀ n, n ∈ (probeLoop device ms w set).1
        ↔ n ∈ set ∨ ∃ g ∈ (probeLoop device ms w set).2.2,
            g.name = n ∧ g.ret = ERROR_NOT_SUPPORTED := by
  induction ms generalizing w set with
  | nil => simp [probeLoop]
  | cons m rest ih =>
    by_cases hr : (m.getter device w).2.2 = ERROR_NOT_SUPPORTED
    · obtain ⟨i1, i2⟩ := ih (m.getter device w).1 (StringSetAdd set m.name)
      simp only [probeLoop, hr, if_true] at i1 i2 ⊢
      refine ⟨by simp [i1], ?_⟩
      intro n
      rw [i2 n, mem_StringSetAdd]
      constructor
      · rintro ((h | h) | ⟨g, hg, hgn⟩)
        · exact Or.inl h
        · exact Or.inr ⟨_, List.mem_cons_self _ _, h.symm, rfl⟩
        · exact Or.inr ⟨g, List.mem_cons_of_mem _ hg, hgn⟩
      · rintro (h | ⟨g, hg, hgn⟩)
        · exact Or.inl (Or.inl h)
        · rcases List.mem_cons.mp hg with rfl | hg
          · exact Or.inl (Or.inr hgn.1.symm)
          · exact Or.inr ⟨g, hg, hgn⟩
    · obtain ⟨i1, i2⟩ := ih (m.getter device w).1 set
      simp only [probeLoop, hr, if_false] at i1 i2 ⊢
      refine ⟨by simp [i1], ?_⟩
      intro n
      rw [i2 n]
      constructor
      · rintro (h | ⟨g, hg, hgn⟩)
        · exact Or.inl h
        · exact Or.inr ⟨g, List.mem_cons_of_mem _ hg, hgn⟩
      · rintro (h | ⟨g, hg, hgn⟩)
        · exact Or.inl h
        · rcases List.mem_cons.mp hg with rfl | hg
          · exact absurd hgn.2 hr
          · exact Or.inr ⟨g, hg, hgn⟩

theorem removeLoop_spec {W : Type} (names : List String) (ms : List (deviceMetric W)) :
    removeLoop names ms = ms.filter (fun m => decide (m.name ∉ names)) := by
  induction names generalizing ms with
  | nil => simp [removeLoop]
  | cons x rest ih =>
    simp only [removeLoop, ih, List.filter_filter]
    apply List.filter_congr
    intro m _
    by_cases h1 : m.name = x <;> by_cases h2 : m.name ∈ rest <;> simp [h1, h2]

/-- With pairwise distinct names and one logged call per name, the names that
no call flags as unsupported are the names of the calls that did not return
`ERROR_NOT_SUPPORTED`. -/
theorem supported_names {W : Type} (ms : List (deviceMetric W)) (log : List GetterCall)
    (hlog : log.map (fun g => g.name) = ms.map (fun m => m.name))
    (hnd : (ms.map (fun m => m.name)).Nodup) :
    (ms.filter (fun m =>
        !(log.any (fun g => decide (g.name = m.name) && decide (g.ret = ERROR_NOT_SUPPORTED))))).map
        (fun m => m.name)
      = (log.filter (fun g => decide (g.ret ≠ ERROR_NOT_SUPPORTED))).map (fun g => g.name) := by
  have e1 : (ms.filter (fun m =>
        !(log.any (fun g => decide (g.name = m.name) && decide (g.ret = ERROR_NOT_SUPPORTED))))).map
        (fun m => m.name)
      = (ms.map (fun m => m.name)).filter (fun n =>
          !(log.any (fun g => decide (g.name = n) && decide (g.ret = ERROR_NOT_SUPPORTED)))) := by
    rw [List.filter_map]; rfl
  have e2 : (log.filter (fun g =>
        !(log.any (fun g2 => decide (g2.name = g.name)
          && decide (g2.ret = ERROR_NOT_SUPPORTED))))).map (fun g => g.name)
      = (log.map (fun g => g.name)).filter (fun n =>
          !(log.any (fun g => decide (g.name = n) && decide (g.ret = ERROR_NOT_SUPPORTED)))) := by
    rw [List.filter_map]; rfl
  rw [e1, ← hlog, ← e2]
  congr 1
  apply List.filter_congr
  intro g hg
  have hinj := List.inj_on_of_nodup_map (hlog ▸ hnd)
  by_cases hr : g.ret = ERROR_NOT_SUPPORTED
  · have : log.any (fun g2 => decide (g2.name = g.name)
        && decide (g2.ret = ERROR_NOT_SUPPORTED)) = true :=
      List.any_eq_true.mpr ⟨g, hg, by simp [hr]⟩
    simp [this, hr]
  · have : log.any (fun g2 => decide (g2.name = g.name)
        && decide (g2.ret = ERROR_NOT_SUPPORTED)) = false := by
      rw [Bool.eq_false_iff]
      intro hany
      obtain ⟨g2, hg2, hcond⟩ := List.any_eq_true.mp hany
      simp only [Bool.and_eq_true, decide_eq_true_eq] at hcond
      have := hinj hg2 hg hcond.1
      rw [this] at hcond
      exact hr hcond.2
    simp [this, hr]

theorem allDeviceMetrics_names_nodup {W : Type} :
    ((@allDeviceMetrics W).map (fun m => m.name)).Nodup := by
  simp only [allDeviceMetrics, List.map_cons, List.map_nil]
  decide

theorem probeLoop_log_world {W : Type} (device : Device W) (ms : List (deviceMetric W))
    (w : W) (set set2 : List String) :
    (probeLoop device ms w set).2.2 = (probeLoop device ms w set2).2.2
    ∧ (probeLoop device ms w set).2.1 = (probeLoop device ms w set2).2.1 := by
  induction ms generalizing w set set2 with
  | nil => simp [probeLoop]
  | cons m rest ih =>
    simp only [probeLoop]
    obtain ⟨i1, i2⟩ := ih (m.getter device w).1
      (if (m.getter device w).2.2 = ERROR_NOT_SUPPORTED then StringSetAdd set m.name else set)
      (if (m.getter device w).2.2 = ERROR_NOT_SUPPORTED then StringSetAdd set2 m.name else set2)
    exact ⟨by rw [i1], i2⟩

theorem probeLoop_cons {W : Type} (device : Device W) (m : deviceMetric W)
    (rest : List (deviceMetric W)) (w : W) (set : List String) :
    (probeLoop device (m :: rest) w set).2.2
      = { name := m.name, value := (m.getter device w).2.1, ret := (m.getter device w).2.2 }
        :: (probeLoop device rest (m.getter device w).1 []).2.2
    ∧ (probeLoop device (m :: rest) w set).2.1
      = (probeLoop device rest (m.getter device w).1 []).2.1 := by
  simp only [probeLoop]
  obtain ⟨i1, i2⟩ := probeLoop_log_world device rest (m.getter device w).1
    (if (m.getter device w).2.2 = ERROR_NOT_SUPPORTED then StringSetAdd set m.name else set) []
  exact ⟨by rw [i1], i2⟩

/-- The calls of the probing loop over `pre ++ m :: post` are the calls over
`pre`, the call of `m` in the world that the loop over `pre` leaves, and the
calls over `post` from the world that this call leaves. -/
theorem probeLoop_split {W : Type} (device : Device W) (pre post : List (deviceMetric W))
    (m : deviceMetric W) (w : W) :
    (probeLoop device (pre ++ m :: post) w []).2.2
      = (probeLoop device pre w []).2.2
        ++ { name := m.name
             value := (m.getter device (probeLoop device pre w []).2.1).2.1
             ret := (m.getter device (probeLoop device pre w []).2.1).2.2 }
        :: (probeLoop device post
            (m.getter device (probeLoop device pre w []).2.1).1 []).2.2
    ∧ (probeLoop device (pre ++ m :: post) w []).2.1
      = (probeLoop device post (m.getter device (probeLoop device pre w []).2.1).1 []).2.1 := by
  induction pre generalizing w with
  | nil =>
    have h := probeLoop_cons device m post w []
    simpa [probeLoop] using h
  | cons a pre ih =>
    obtain ⟨i1, i2⟩ := ih (a.getter device w).1
    obtain ⟨c1, c2⟩ := probeLoop_cons device a (pre ++ m :: post) w []
    obtain ⟨d1, d2⟩ := probeLoop_cons device a pre w []
    rw [List.cons_append, c1, c2, d1, d2, i1, i2]
    exact ⟨by simp, rfl⟩

/-- Every call of the probing loop is the call of a metric of the list, made
in the world that the loop over the metrics before it leaves. -/
theorem probeLoop_log_mem {W : Type} (device : Device W) (ms : List (deviceMetric W)) (w : W)
    (g : GetterCall) (hg : g ∈ (probeLoop device ms w []).2.2) :
    ∃ (pre post : List (deviceMetric W)) (m : deviceMetric W), ms = pre ++ m :: post
      ∧ g = { name := m.name
              value := (m.getter device (probeLoop device pre w []).2.1).2.1
              ret := (m.getter device (probeLoop device pre w []).2.1).2.2 } := by
  induction ms generalizing w with
  | nil => simp [probeLoop] at hg
  | cons a rest ih =>
    rw [(probeLoop_cons device a rest w []).1] at hg
    rcases List.mem_cons.mp hg with h | h
    · exact ⟨[], rest, a, rfl, by simpa [probeLoop] using h⟩
    · obtain ⟨pre, post, m, hs, hgm⟩ := ih (a.getter device w).1 h
      refine ⟨a :: pre, post, m, by rw [hs]; rfl, ?_⟩
      rw [(probeLoop_cons device a pre w []).2]
      exact hgm

/-- With pairwise distinct names, the log of the probing loop over
`pre ++ m :: post` flags the name of `m` exactly when the getter of `m`
returned `ERROR_NOT_SUPPORTED`. -/
theorem probeLoop_flagged {W : Type} (device : Device W) (pre post : List (deviceMetric W))
    (m : deviceMetric W) (w : W)
    (hnd : ((pre ++ m :: post).map (fun x => x.name)).Nodup) :
    (∃ g ∈ (probeLoop device (pre ++ m :: post) w []).2.2,
        g.name = m.name ∧ g.ret = ERROR_NOT_SUPPORTED)
      ↔ (m.getter device (probeLoop device pre w []).2.1).2.2 = ERROR_NOT_SUPPORTED := by
  have hnd2 : (pre.map (fun x => x.name) ++ m.name :: post.map (fun x => x.name)).Nodup := by
    simpa using hnd
  obtain ⟨_, n2, n3⟩ := List.nodup_append.mp hnd2
  have hpre : m.name ∉ pre.map (fun x => x.name) :=
    fun hm => n3 hm (List.mem_cons_self _ _)
  have hpost : m.name ∉ post.map (fun x => x.name) := (List.nodup_cons.mp n2).1
  rw [(probeLoop_split device pre post m w).1]
  constructor
  · rintro ⟨g, hg, hgn, hgr⟩
    rcases List.mem_append.mp hg with h | h
    · exfalso
      apply hpre
      rw [← (probeLoop_spec device pre w []).1, ← hgn]
      exact List.mem_map_of_mem (fun g => g.name) h
    · rcases List.mem_cons.mp h with h | h
      · rw [h] at hgr
        exact hgr
      · exfalso
        apply hpost
        rw [← (probeLoop_spec device post _ []).1, ← hgn]
        exact List.mem_map_of_mem (fun g => g.name) h
  · intro hr
    exact ⟨_, List.mem_append_right _ (List.mem_cons_self _ _), rfl, hr⟩

theorem newDeviceCollector_calls {W : Type} (device : Device W) (tags : List String) (w : W) :
    ((@allDeviceMetrics W).map (fun m => m.name)).Nodup
    ∧ (newDeviceCollector device tags w).log.map (fun g => g.name)
      = (@allDeviceMetrics W).map (fun m => m.name)
    ∧ (@supportedMetrics W (newDeviceCollector device tags w).log).map (fun m => m.name)
      = ((newDeviceCollector device tags w).log.filter
          (fun g => decide (g.ret ≠ ERROR_NOT_SUPPORTED))).map (fun g => g.name)
    ∧ (@supportedMetrics W (newDeviceCollector device tags w).log).Sublist allDeviceMetrics
    ∧ ((newDeviceCollector device tags w).err = none →
        (newDeviceCollector device tags w).collector
          = some { device := device, tags := tags
                   metricGetters := supportedMetrics (newDeviceCollector device tags w).log })
    ∧ ((newDeviceCollector device tags w).err = some NewCollectorError.errUnsupportedDevice
      ↔ ∀ g ∈ (newDeviceCollector device tags w).log, g.ret = ERROR_NOT_SUPPORTED)
    ∧ ((newDeviceCollector device tags w).err = some NewCollectorError.errUnsupportedDevice →
        (newDeviceCollector device tags w).collector = none) := by
  obtain ⟨p1, p2⟩ := probeLoop_spec device (@allDeviceMetrics W) w []
  have hlog : (newDeviceCollector device tags w).log
      = (probeLoop device (@allDeviceMetrics W) w []).2.2 := by
    unfold newDeviceCollector removeUnsupportedGetters
    simp only [List.nil_append]
    split <;> rfl
  have hkept : removeLoop (probeLoop device (@allDeviceMetrics W) w []).1 (@allDeviceMetrics W)
      = supportedMetrics (newDeviceCollector device tags w).log := by
    rw [removeLoop_spec, hlog]
    unfold supportedMetrics
    apply List.filter_congr
    intro m _
    by_cases hm : m.name ∈ (probeLoop device (@allDeviceMetrics W) w []).1
    · have := (p2 m.name).mp hm
      simp only [List.not_mem_nil, false_or] at this
      obtain ⟨g, hg, hgn, hgr⟩ := this
      have hany : (probeLoop device (@allDeviceMetrics W) w []).2.2.any
          (fun g => decide (g.name = m.name) && decide (g.ret = ERROR_NOT_SUPPORTED)) = true :=
        List.any_eq_true.mpr ⟨g, hg, by simp [hgn, hgr]⟩
      simp [hm, hany]
    · have hany : (probeLoop device (@allDeviceMetrics W) w []).2.2.any
          (fun g => decide (g.name = m.name) && decide (g.ret = ERROR_NOT_SUPPORTED)) = false := by
        rw [Bool.eq_false_iff]
        intro h
        obtain ⟨g, hg, hcond⟩ := List.any_eq_true.mp h
        simp only [Bool.and_eq_true, decide_eq_true_eq] at hcond
        exact hm ((p2 m.name).mpr (Or.inr ⟨g, hg, hcond.1, hcond.2⟩))
      simp [hm, hany]
  have hnames : (@supportedMetrics W (newDeviceCollector device tags w).log).map
        (fun m => m.name)
      = ((newDeviceCollector device tags w).log.filter
          (fun g => decide (g.ret ≠ ERROR_NOT_SUPPORTED))).map (fun g => g.name) :=
    supported_names (@allDeviceMetrics W) (newDeviceCollector device tags w).log
      (by rw [hlog]; exact p1) allDeviceMetrics_names_nodup
  have hres : newDeviceCollector device tags w
      = if (@supportedMetrics W (newDeviceCollector device tags w).log).length = 0 then
          { collector := none, err := some NewCollectorError.errUnsupportedDevice
            world := (probeLoop device (@allDeviceMetrics W) w []).2.1
            log := (probeLoop device (@allDeviceMetrics W) w []).2.2 }
        else
          { collector := some { device := device, tags := tags
                                metricGetters :=
                                  supportedMetrics (newDeviceCollector device tags w).log }
            err := none
            world := (probeLoop device (@allDeviceMetrics W) w []).2.1
            log := (probeLoop device (@allDeviceMetrics W) w []).2.2 } := by
    rw [← hkept]
    conv_lhs => unfold newDeviceCollector removeUnsupportedGetters
    simp only [List.nil_append]
  have hempty : (@supportedMetrics W (newDeviceCollector device tags w).log).length = 0
      ↔ ∀ g ∈ (newDeviceCollector device tags w).log, g.ret = ERROR_NOT_SUPPORTED := by
    rw [List.length_eq_zero, ← List.map_eq_nil_iff (f := fun m => m.name), hnames,
      List.map_eq_nil_iff, List.filter_eq_nil_iff]
    constructor
    · intro h g hg
      simpa using h g hg
    · intro h g hg
      simpa using h g hg
  refine ⟨allDeviceMetrics_names_nodup, by rw [hlog]; exact p1, hnames,
    List.filter_sublist _, ?_, ?_, ?_⟩
  · intro herr
    by_cases hz : (@supportedMetrics W (newDeviceCollector device tags w).log).length = 0
    · rw [hres, if_pos hz] at herr
      simp at herr
    · conv_lhs => rw [hres, if_neg hz]
  · rw [← hempty]
    by_cases hz : (@supportedMetrics W (newDeviceCollector device tags w).log).length = 0
    · constructor
      · intro _
        exact hz
      · intro _
        conv_lhs => rw [hres, if_pos hz]
    · constructor
      · intro herr
        rw [hres, if_neg hz] at herr
        simp at herr
      · intro h
        exact absurd h hz
  · intro herr
    by_cases hz : (@supportedMetrics W (newDeviceCollector device tags w).log).length = 0
    · conv_lhs => rw [hres, if_pos hz]
    · rw [hres, if_neg hz] at herr
      simp at herr

/-- C25 (newDeviceCollector). The names of `allDeviceMetrics` are pairwise
distinct, and `newDeviceCollector` calls the getter of each once, in order:
for `allDeviceMetrics = pre ++ m :: post`, its calls are the calls of the
probing over `pre`, then the call of the getter of `m` on the device in the
world left by these, then the calls of the probing over `post`. The getters
of the collector it returns are the metrics of `allDeviceMetrics` whose call
did not return `ERROR_NOT_SUPPORTED`, whatever else it returned, in their
original order: when the getter of `m` returns another code, a collector is
returned and `m` is among its getters; when it returns `ERROR_NOT_SUPPORTED`,
no getter of the returned collector has the name of `m`. It returns
`errUnsupportedDevice`, and no collector, exactly when the getter of every
metric returned `ERROR_NOT_SUPPORTED`. The list `allDeviceMetrics` is a
constant of the model; the collector works on a copy of it. On the example
device, whose fan and energy counter are not supported and whose temperature
sensor fails with another code, the collector keeps the 18 other getters,
the temperature included. -/
theorem newDeviceCollector_spec {W : Type} (device : Device W) (tags : List String) (w : W) :
    ((@allDeviceMetrics W).map (fun m => m.name)).Nodup
    ∧ (newDeviceCollector device tags w).log.map (fun g => g.name)
      = (@allDeviceMetrics W).map (fun m => m.name)
    ∧ (@supportedMetrics W (newDeviceCollector device tags w).log).map (fun m => m.name)
      = ((newDeviceCollector device tags w).log.filter
          (fun g => decide (g.ret ≠ ERROR_NOT_SUPPORTED))).map (fun g => g.name)
    ∧ (@supportedMetrics W (newDeviceCollector device tags w).log).Sublist allDeviceMetrics
    ∧ ((newDeviceCollector device tags w).err = none →
        (newDeviceCollector device tags w).collector
          = some { device := device, tags := tags
                   metricGetters := supportedMetrics (newDeviceCollector device tags w).log })
    ∧ ((newDeviceCollector device tags w).err = some NewCollectorError.errUnsupportedDevice
      ↔ ∀ g ∈ (newDeviceCollector device tags w).log, g.ret = ERROR_NOT_SUPPORTED)
    ∧ ((newDeviceCollector device tags w).err = some NewCollectorError.errUnsupportedDevice →
        (newDeviceCollector device tags w).collector = none)
    ∧ (∀ (pre post : List (deviceMetric W)) (m : deviceMetric W),
        @allDeviceMetrics W = pre ++ m :: post →
        (newDeviceCollector device tags w).log
          = (removeUnsupportedGetters
              { device := device, tags := tags, metricGetters := pre } w).2.2
            ++ { name := m.name
                 value := (m.getter device (removeUnsupportedGetters
                   { device := device, tags := tags, metricGetters := pre } w).2.1).2.1
                 ret := (m.getter device (removeUnsupportedGetters
                   { device := device, tags := tags, metricGetters := pre } w).2.1).2.2 }
            :: (removeUnsupportedGetters
                { device := device, tags := tags, metricGetters := post }
                (m.getter device (removeUnsupportedGetters
                  { device := device, tags := tags, metricGetters := pre } w).2.1).1).2.2
        ∧ ((m.getter device (removeUnsupportedGetters
              { device := device, tags := tags, metricGetters := pre } w).2.1).2.2
            ≠ ERROR_NOT_SUPPORTED →
            (newDeviceCollector device tags w).err = none
            ∧ ∃ c, (newDeviceCollector device tags w).collector = some c
                ∧ m ∈ c.metricGetters)
        ∧ ((m.getter device (removeUnsupportedGetters
              { device := device, tags := tags, metricGetters := pre } w).2.1).2.2
            = ERROR_NOT_SUPPORTED →
            ∀ c, (newDeviceCollector device tags w).collector = some c →
              ∀ x ∈ c.metricGetters, x.name ≠ m.name))
    ∧ ((newDeviceCollector device tags w).err = some NewCollectorError.errUnsupportedDevice
      ↔ ∀ (pre post : List (deviceMetric W)) (m : deviceMetric W),
          @allDeviceMetrics W = pre ++ m :: post →
          (m.getter device (removeUnsupportedGetters
            { device := device, tags := tags, metricGetters := pre } w).2.1).2.2
            = ERROR_NOT_SUPPORTED)
    ∧ (∀ c, (newDeviceCollector device tags w).collector = some c →
        c.device = device ∧ c.tags = tags ∧ c.metricGetters.Sublist allDeviceMetrics)
    ∧ ((newDeviceCollector exDevice ["gpu:0"] 0).collector.map
          (fun c => c.metricGetters.map (fun m => m.name))
        = some ["pci.throughput.tx", "pci.throughput.rx", "decoder_utiliation", "dram_active",
            "encoder_utilization", "power.management_limit", "power.usage",
            "performance_state", "clock.speed.sm", "clock.speed.memory",
            "clock.speed.graphics", "clock.speed.video", "clock.speed.sm.max",
            "clock.speed.memory.max", "clock.speed.graphics.max", "clock.speed.video.max",
            "temperature", "sm_active"]
      ∧ (newDeviceCollector exDevice ["gpu:0"] 0).err = none) := by
  obtain ⟨c1, c2, c3, c4, c5, c6, c7⟩ := newDeviceCollector_calls device tags w
  have hlog : (newDeviceCollector device tags w).log
      = (probeLoop device (@allDeviceMetrics W) w []).2.2 := by
    unfold newDeviceCollector removeUnsupportedGetters
    simp only [List.nil_append]
    split <;> rfl
  have herr : (newDeviceCollector device tags w).err = none
      ∨ (newDeviceCollector device tags w).err
        = some NewCollectorError.errUnsupportedDevice := by
    cases h : (newDeviceCollector device tags w).err with
    | none => exact Or.inl rfl
    | some e =>
      cases e
      exact Or.inr rfl
  have hmem : ∀ (pre post : List (deviceMetric W)) (m : deviceMetric W),
      @allDeviceMetrics W = pre ++ m :: post →
      (m ∈ @supportedMetrics W (newDeviceCollector device tags w).log
        ↔ (m.getter device (probeLoop device pre w []).2.1).2.2 ≠ ERROR_NOT_SUPPORTED) := by
    intro pre post m hs
    have hnd : ((pre ++ m :: post).map (fun x => x.name)).Nodup := by
      rw [← hs]; exact c1
    have hfl := probeLoop_flagged device pre post m w hnd
    rw [← hs, ← hlog] at hfl
    unfold supportedMetrics
    rw [List.mem_filter, ne_eq, ← hfl]
    constructor
    · rintro ⟨_, hany⟩ ⟨g, hg, hgn, hgr⟩
      have : (newDeviceCollector device tags w).log.any
          (fun g => decide (g.name = m.name) && decide (g.ret = ERROR_NOT_SUPPORTED)) = true :=
        List.any_eq_true.mpr ⟨g, hg, by simp [hgn, hgr]⟩
      rw [this] at hany
      simp at hany
    · intro hno
      refine ⟨by rw [hs]; exact List.mem_append_right _ (List.mem_cons_self _ _), ?_⟩
      rw [Bool.not_eq_true', Bool.eq_false_iff]
      intro hany
      obtain ⟨g, hg, hcond⟩ := List.any_eq_true.mp hany
      simp only [Bool.and_eq_true, decide_eq_true_eq] at hcond
      exact hno ⟨g, hg, hcond.1, hcond.2⟩
  refine ⟨c1, c2, c3, c4, c5, c6, c7, ?_, ?_, ?_, by decide, by decide⟩
  · intro pre post m hs
    refine ⟨?_, ?_, ?_⟩
    · rw [hlog, hs]
      exact (probeLoop_split device pre post m w).1
    · intro hr
      have hm := (hmem pre post m hs).mpr hr
      have hnone : (newDeviceCollector device tags w).err = none := by
        rcases herr with h | h
        · exact h
        · exfalso
          have hall := c6.mp h
          apply hr
          have hcall := hall _ (by
            rw [hlog, hs, (probeLoop_split device pre post m w).1]
            exact List.mem_append_right _ (List.mem_cons_self _ _))
          exact hcall
      exact ⟨hnone, _, c5 hnone, hm⟩
    · intro hr c hc x hx hname
      have hnone : (newDeviceCollector device tags w).err = none := by
        rcases herr with h | h
        · exact h
        · rw [c7 h] at hc
          simp at hc
      rw [c5 hnone] at hc
      have hc2 := Option.some.inj hc
      rw [← hc2] at hx
      have hx2 : x ∈ @allDeviceMetrics W := (List.mem_filter.mp hx).1
      have hinj := List.inj_on_of_nodup_map c1
      have hxm : x = m :=
        hinj hx2 (by rw [hs]; exact List.mem_append_right _ (List.mem_cons_self _ _)) hname
      rw [hxm] at hx
      exact ((hmem pre post m hs).mp hx) hr
  · rw [c6]
    constructor
    · intro hall pre post m hs
      exact hall _ (by
        rw [hlog, hs, (probeLoop_split device pre post m w).1]
        exact List.mem_append_right _ (List.mem_cons_self _ _))
    · intro hall g hg
      rw [hlog] at hg
      obtain ⟨pre, post, m, hs, hgm⟩ := probeLoop_log_mem device _ w g hg
      rw [hgm]
      exact hall pre post m hs
  · intro c hc
    have hnone : (newDeviceCollector device tags w).err = none := by
      rcases herr with h | h
      · exact h
      · rw [c7 h] at hc
        simp at hc
    rw [c5 hnone] at hc
    have hc2 := Option.some.inj hc
    rw [← hc2]
    exact ⟨rfl, rfl, c4⟩

end Nvidia
